import Mathlib

/-!
AT32 independent watchdog (IWDG) lower-half driver

A shallow embedding of `arch/arm/src/at32/at32_iwdg.c` and the properties of
its five lower-half operations (`start`, `stop`, `keepalive`, `getstatus`,
`settimeout`).

Conventions of the embedding:

* C unsigned integers are `Nat`; every conversion to a narrower C type is an
  explicit `% 2 ^ w`.
* The driver state `struct at32_lowerhalf_s` is passed explicitly; every
  operation returns its C return value, the new driver state and the list of
  hardware events (register writes, critical-section entry and exit) it
  issued, oldest first.
* `clock_systime_ticks()` is an input (`now`) of the operations that read it.
* The build is compiled with `CONFIG_AT32_IWDG_ONETIMESETUP` defined and
  `CONFIG_AT32_IWDG_DEFERREDSETUP` and `CONFIG_AT32_IWDG_REGDEBUG` undefined
  (lines 88 and 95 of the source fix the first two).
* Debug output (`wdinfo`, `wderr`, `wdwarn`) has no effect on the state and is
  not modelled.
-/

namespace At32Iwdg

/-! ## Constants taken from headers -/

/-- Constants that `at32_iwdg.c` takes from headers (`hardware/at32_wdg.h`,
`arch/board/board.h`, `errno.h`, `nuttx/timers/watchdog.h`, `nuttx/clock.h`).
Their values are not fixed by the driver source, so they are parameters of the
embedding; each field carries the name of its C macro. -/
structure Config where
  /-- Nominal frequency of the LSI oscillator, Hz (`board.h`). -/
  AT32_LSI_FREQUENCY : Nat
  /-- Largest value of the reload register. -/
  IWDG_RLR_MAX : Nat
  /-- Key that enables write access to PR and RLR. -/
  IWDG_KR_KEY_ENABLE : Nat
  /-- Key that reloads the counter. -/
  IWDG_KR_KEY_RELOAD : Nat
  /-- Key that starts the watchdog. -/
  IWDG_KR_KEY_START : Nat
  /-- Position of the prescaler field in the PR register. -/
  IWDG_PR_SHIFT : Nat
  /-- Address of the key register. -/
  AT32_IWDG_KR : Nat
  /-- Address of the prescaler register. -/
  AT32_IWDG_PR : Nat
  /-- Address of the reload register. -/
  AT32_IWDG_RLR : Nat
  /-- Errno value `ERANGE`. -/
  ERANGE : Nat
  /-- Errno value `EBUSY`. -/
  EBUSY : Nat
  /-- Errno value `ENOSYS`. -/
  ENOSYS : Nat
  /-- Status flag: the watchdog resets the system on expiry. -/
  WDFLAGS_RESET : Nat
  /-- Status flag: the watchdog is running. -/
  WDFLAGS_ACTIVE : Nat
  /-- Conversion of system ticks to milliseconds (`nuttx/clock.h`). -/
  TICK2MSEC : Nat → Nat
  /-- The Kconfig value `CONFIG_AT32_IWDG_DEFTIMOUT`, `none` when it is not
  defined. -/
  CONFIG_AT32_IWDG_DEFTIMOUT : Option Nat := none
  /-- One of `CONFIG_AT32_JTAG_FULL_ENABLE`, `CONFIG_AT32_JTAG_NOJNTRST_ENABLE`,
  `CONFIG_AT32_JTAG_SW_ENABLE` is defined. -/
  CONFIG_AT32_JTAG_ENABLE : Bool := false
  /-- `CONFIG_AT32_AT32F43XX` is defined. -/
  CONFIG_AT32_AT32F43XX : Bool := false

/-- Success return value: "Zero on success; a negated errno value on failure"
(the `Returned Value` comment of every operation). -/
def OK : Int := 0

/-- `#define IWDG_FMIN (AT32_LSI_FREQUENCY / 256)`. -/
def IWDG_FMIN (cfg : Config) : Nat :=
  cfg.AT32_LSI_FREQUENCY / 256

/-- `#define IWDG_MAXTIMEOUT (1000 * IWDG_RLR_MAX / IWDG_FMIN)`, a constant
integer expression (truncating division).  When `IWDG_FMIN` is zero the C
expression has no value; here it evaluates to `0`. -/
def IWDG_MAXTIMEOUT (cfg : Config) : Nat :=
  1000 * cfg.IWDG_RLR_MAX / IWDG_FMIN cfg

/-! ## Data model -/

/-- `struct at32_lowerhalf_s` without the constant `ops` pointer. -/
structure at32_lowerhalf_s where
  /-- `uint32_t`: the calibrated frequency of the LSI oscillator. -/
  lsifreq : Nat
  /-- `uint32_t`: the (actual) selected timeout. -/
  timeout : Nat
  /-- `uint32_t`: the last reset time. -/
  lastreset : Nat
  /-- `bool`: the watchdog timer has been started. -/
  started : Bool
  /-- `uint8_t`: clock prescaler value. -/
  prescaler : Nat
  /-- `uint16_t`: timer reload value. -/
  reload : Nat
deriving DecidableEq, Repr

/-- Every field holds a value of its C type. -/
def at32_lowerhalf_s.inRange (priv : at32_lowerhalf_s) : Prop :=
  priv.lsifreq < 2 ^ 32 ∧ priv.timeout < 2 ^ 32 ∧ priv.lastreset < 2 ^ 32 ∧
    priv.prescaler < 2 ^ 8 ∧ priv.reload < 2 ^ 16

instance (priv : at32_lowerhalf_s) : Decidable priv.inRange := by
  unfold at32_lowerhalf_s.inRange; infer_instance

/-- What the driver does to the hardware and the interrupt state. -/
inductive Event where
  /-- `enter_critical_section()`. -/
  | enter_critical_section
  /-- `leave_critical_section(flags)`. -/
  | leave_critical_section
  /-- `putreg16(val, addr)`; `val` is the 16-bit value written. -/
  | putreg16 (val addr : Nat)
deriving DecidableEq, Repr

/-- The register writes of an event list, in order, as `(value, address)`. -/
def regwrites : List Event → List (Nat × Nat)
  | [] => []
  | Event.putreg16 val addr :: es => (val, addr) :: regwrites es
  | _ :: es => regwrites es

/-- What an operation leaves behind: its return value, the driver state and
the events it issued, oldest first. -/
structure Outcome where
  /-- The `int` returned. -/
  ret : Int
  /-- The driver state on return. -/
  priv : at32_lowerhalf_s
  /-- The events issued by the call. -/
  events : List Event
deriving DecidableEq, Repr

/-- `struct watchdog_status_s`, the three fields the driver fills. -/
structure watchdog_status_s where
  /-- `uint32_t flags`. -/
  flags : Nat
  /-- `uint32_t timeout`. -/
  timeout : Nat
  /-- `uint32_t timeleft`. -/
  timeleft : Nat
deriving DecidableEq, Repr

/-! ## Operations -/

/-- `at32_putreg(val, addr)`, that is `putreg16(val, addr)`: the value is
converted to `uint16_t`. -/
def at32_putreg (val addr : Nat) : List Event :=
  [Event.putreg16 (val % 2 ^ 16) addr]

/-- `at32_setprescaler` (lines 271-300), with `CONFIG_AT32_IWDG_ONETIMESETUP`
defined, so without the wait on the status register. -/
def at32_setprescaler (cfg : Config) (priv : at32_lowerhalf_s) : List Event :=
  at32_putreg cfg.IWDG_KR_KEY_ENABLE cfg.AT32_IWDG_KR ++
  at32_putreg ((priv.prescaler % 2 ^ 16) <<< cfg.IWDG_PR_SHIFT) cfg.AT32_IWDG_PR ++
  at32_putreg (priv.reload % 2 ^ 16) cfg.AT32_IWDG_RLR ++
  at32_putreg cfg.IWDG_KR_KEY_RELOAD cfg.AT32_IWDG_KR

/-- `at32_start` (lines 317-356); `now` is what `clock_systime_ticks()`
returns. -/
def at32_start (cfg : Config) (priv : at32_lowerhalf_s) (now : Nat) : Outcome :=
  if !priv.started then
    { ret := OK
      priv := { priv with lastreset := now % 2 ^ 32, started := true }
      events :=
        at32_setprescaler cfg priv ++
        [Event.enter_critical_section] ++
        at32_putreg cfg.IWDG_KR_KEY_START cfg.AT32_IWDG_KR ++
        [Event.leave_critical_section] }
  else
    { ret := OK, priv := priv, events := [] }

/-- `at32_stop` (lines 373-379). -/
def at32_stop (cfg : Config) (priv : at32_lowerhalf_s) : Outcome :=
  { ret := -(cfg.ENOSYS : Int), priv := priv, events := [] }

/-- `at32_keepalive` (lines 398-413). -/
def at32_keepalive (cfg : Config) (priv : at32_lowerhalf_s) (now : Nat) : Outcome :=
  { ret := OK
    priv := { priv with lastreset := now % 2 ^ 32 }
    events :=
      [Event.enter_critical_section] ++
      at32_putreg cfg.IWDG_KR_KEY_RELOAD cfg.AT32_IWDG_KR ++
      [Event.leave_critical_section] }

/-- `at32_getstatus` (lines 431-472): the outcome and the filled
`status` structure.  `ticks`, `elapsed` and `timeleft` are `uint32_t`. -/
def at32_getstatus (cfg : Config) (priv : at32_lowerhalf_s) (now : Nat) :
    Outcome × watchdog_status_s :=
  let flags := cfg.WDFLAGS_RESET
  let flags := if priv.started then flags ||| cfg.WDFLAGS_ACTIVE else flags
  let ticks := (((now : Int) - (priv.lastreset : Int)) % 2 ^ 32).toNat
  let elapsed := cfg.TICK2MSEC ticks % 2 ^ 32
  let elapsed := if elapsed > priv.timeout then priv.timeout else elapsed
  let timeleft := (((priv.timeout : Int) - (elapsed : Int)) % 2 ^ 32).toNat
  ({ ret := OK, priv := priv, events := [] },
   { flags := flags, timeout := priv.timeout, timeleft := timeleft })

/-- The values of the locals `prescaler`, `fiwdg` and `reload` when the
prescaler search of `at32_settimeout` breaks. -/
structure Selected where
  /-- `int prescaler`. -/
  prescaler : Nat
  /-- `uint32_t fiwdg`. -/
  fiwdg : Nat
  /-- `uint64_t reload`. -/
  reload : Nat
deriving DecidableEq, Repr

/-- The loop `for (prescaler = 0; ; prescaler++)` of `at32_settimeout`
(lines 528-570), entered at `prescaler`.  The loop starts at `0` and breaks at
`6` at the latest, so `prescaler ≤ 6` holds at every entry. -/
def at32_settimeout_loop (cfg : Config) (lsifreq timeout prescaler : Nat)
    (h : prescaler ≤ 6) : Selected :=
  let shift := prescaler + 2
  let fiwdg := lsifreq >>> shift
  let reload := (fiwdg * timeout) % 2 ^ 64 / 1000
  if hbreak : reload ≤ cfg.IWDG_RLR_MAX ∨ prescaler = 6 then
    { prescaler := prescaler, fiwdg := fiwdg, reload := reload }
  else
    at32_settimeout_loop cfg lsifreq timeout (prescaler + 1) (by omega)
termination_by 6 - prescaler
decreasing_by omega

/-- `at32_settimeout` (lines 490-618), with `CONFIG_AT32_IWDG_ONETIMESETUP`
defined.  `none` stands for the division by zero in
`(1000 * (uint32_t)reload) / fiwdg` when `fiwdg` is `0`, for which C defines no
result. -/
def at32_settimeout (cfg : Config) (priv : at32_lowerhalf_s) (timeout : Nat) :
    Option Outcome :=
  if timeout < 1 ∨ timeout > IWDG_MAXTIMEOUT cfg then
    some { ret := -(cfg.ERANGE : Int), priv := priv, events := [] }
  else if priv.started then
    some { ret := -(cfg.EBUSY : Int), priv := priv, events := [] }
  else
    let sel := at32_settimeout_loop cfg priv.lsifreq timeout 0 (Nat.zero_le 6)
    let reload := if sel.reload > cfg.IWDG_RLR_MAX then cfg.IWDG_RLR_MAX else sel.reload
    if sel.fiwdg = 0 then
      none
    else
      some
        { ret := OK
          priv :=
            { priv with
              timeout := (1000 * (reload % 2 ^ 32)) % 2 ^ 32 / sel.fiwdg
              prescaler := sel.prescaler % 2 ^ 8
              reload := reload % 2 ^ 16 }
          events := [] }

/-- The timeout `at32_iwdginitialize` asks for (lines 74-76):
`CONFIG_AT32_IWDG_DEFTIMOUT`, which is `IWDG_MAXTIMEOUT` unless configured. -/
def DEFTIMOUT (cfg : Config) : Nat :=
  cfg.CONFIG_AT32_IWDG_DEFTIMOUT.getD (IWDG_MAXTIMEOUT cfg)

/-- What `at32_iwdginitialize` does besides updating the driver state. -/
inductive InitEvent where
  /-- `at32_rcc_enablelsi()`. -/
  | at32_rcc_enablelsi
  /-- An event issued by `at32_settimeout`. -/
  | iwdg (e : Event)
  /-- `watchdog_register(devpath, priv)`. -/
  | watchdog_register (devpath : Nat)
  /-- The read-modify-write that sets `DEBUG_APB1_APUSE_WDT_PAUSE` in
  `AT32_DEBUG_APB1_PAUSE`. -/
  | debug_wdt_pause
deriving DecidableEq, Repr

/-- `at32_iwdginitialize` (lines 642-696) on the driver state `g_wdgdev`;
`devpath` is the address of the path string.  The result is the new driver
state and the events issued; `none` when the call of `at32_settimeout` does
not return.  `CONFIG_AT32_IWDG_DEFTIMOUT` is converted to the `uint32_t`
parameter of `at32_settimeout`, and the value returned by `at32_settimeout` is
ignored, as in the source. -/
def at32_iwdginitialize (cfg : Config) (g_wdgdev : at32_lowerhalf_s)
    (devpath lsifreq : Nat) : Option (at32_lowerhalf_s × List InitEvent) :=
  let priv := { g_wdgdev with lsifreq := lsifreq, started := false }
  match at32_settimeout cfg priv (DEFTIMOUT cfg % 2 ^ 32) with
  | none => none
  | some o =>
    some (o.priv,
      [InitEvent.at32_rcc_enablelsi] ++
      o.events.map InitEvent.iwdg ++
      [InitEvent.watchdog_register devpath] ++
      (if cfg.CONFIG_AT32_JTAG_ENABLE && cfg.CONFIG_AT32_AT32F43XX then
        [InitEvent.debug_wdt_pause]
      else
        []))

/-- The register writes `at32_iwdginitialize` makes to the IWDG, in order. -/
def iwdg_regwrites : List InitEvent → List (Nat × Nat)
  | [] => []
  | InitEvent.iwdg (Event.putreg16 val addr) :: es => (val, addr) :: iwdg_regwrites es
  | _ :: es => iwdg_regwrites es

/-! ## Sequences of operations -/

/-- A call of one of the five lower-half operations with its arguments;
`now` is what `clock_systime_ticks()` returns during the call. -/
inductive Op where
  /-- `at32_start`. -/
  | start (now : Nat)
  /-- `at32_stop`. -/
  | stop
  /-- `at32_keepalive`. -/
  | keepalive (now : Nat)
  /-- `at32_getstatus`. -/
  | getstatus (now : Nat)
  /-- `at32_settimeout`. -/
  | settimeout (timeout : Nat)
deriving DecidableEq, Repr

/-- The driver state after one operation; `none` when the operation does not
return. -/
def Op.apply (cfg : Config) (priv : at32_lowerhalf_s) : Op → Option at32_lowerhalf_s
  | Op.start now => some (at32_start cfg priv now).priv
  | Op.stop => some (at32_stop cfg priv).priv
  | Op.keepalive now => some (at32_keepalive cfg priv now).priv
  | Op.getstatus now => some (at32_getstatus cfg priv now).1.priv
  | Op.settimeout timeout => (at32_settimeout cfg priv timeout).map (fun o => o.priv)

/-- The driver state after a sequence of operations, first operation first. -/
def run (cfg : Config) : at32_lowerhalf_s → List Op → Option at32_lowerhalf_s
  | priv, [] => some priv
  | priv, op :: ops => (op.apply cfg priv).bind (fun p => run cfg p ops)

/-! ## Critical sections in an event list -/

/-- The register writes of an event list that are issued while no critical
section is held; `depth` counts the critical sections entered and not yet
left. -/
def writes_outside_critical : Nat → List Event → List (Nat × Nat)
  | _, [] => []
  | depth, Event.enter_critical_section :: es => writes_outside_critical (depth + 1) es
  | depth, Event.leave_critical_section :: es => writes_outside_critical (depth - 1) es
  | depth, Event.putreg16 val addr :: es =>
    if depth = 0 then (val, addr) :: writes_outside_critical depth es
    else writes_outside_critical depth es

/-- The register writes of an event list that are issued inside a critical
section. -/
def writes_inside_critical : Nat → List Event → List (Nat × Nat)
  | _, [] => []
  | depth, Event.enter_critical_section :: es => writes_inside_critical (depth + 1) es
  | depth, Event.leave_critical_section :: es => writes_inside_critical (depth - 1) es
  | depth, Event.putreg16 val addr :: es =>
    if depth = 0 then writes_inside_critical depth es
    else (val, addr) :: writes_inside_critical depth es

/-- Every `enter_critical_section` of the list is matched by a later
`leave_critical_section` and no critical section is left that was not
entered. -/
def critical_balanced : Nat → List Event → Bool
  | depth, [] => depth == 0
  | depth, Event.enter_critical_section :: es => critical_balanced (depth + 1) es
  | depth, Event.leave_critical_section :: es =>
    depth != 0 && critical_balanced (depth - 1) es
  | depth, Event.putreg16 _ _ :: es => critical_balanced depth es

/-! ## A concrete configuration -/

/-- The configuration of the example in the source's `Clocking` comment
(`Flsi = 30Khz`, `IWDG_RLR_MAX = 4095`), completed with the register map, keys
and errno numbers of the AT32 port.  It is used only to evaluate the
operations on concrete inputs. -/
def exampleConfig : Config where
  AT32_LSI_FREQUENCY := 30000
  IWDG_RLR_MAX := 4095
  IWDG_KR_KEY_ENABLE := 0x5555
  IWDG_KR_KEY_RELOAD := 0xaaaa
  IWDG_KR_KEY_START := 0xcccc
  IWDG_PR_SHIFT := 0
  AT32_IWDG_KR := 0x40003000
  AT32_IWDG_PR := 0x40003004
  AT32_IWDG_RLR := 0x40003008
  ERANGE := 34
  EBUSY := 16
  ENOSYS := 38
  WDFLAGS_RESET := 2
  WDFLAGS_ACTIVE := 1
  TICK2MSEC := fun tick => tick * 10

/-- A device as `at32_iwdginitialize` leaves the flags, with a calibrated
frequency of 32 kHz and no timeout configured yet. -/
def exampleDevice : at32_lowerhalf_s where
  lsifreq := 32000
  timeout := 0
  lastreset := 0
  started := false
  prescaler := 0
  reload := 0

/-- The device the example becomes once `at32_settimeout(5000)` has succeeded:
prescaler code 4 and reload 2500, not started. -/
def configuredDevice : at32_lowerhalf_s :=
  { exampleDevice with timeout := 5000, prescaler := 4, reload := 2500 }

/-- The example device once the watchdog has been started. -/
def startedDevice : at32_lowerhalf_s :=
  { exampleDevice with started := true, timeout := 5000, prescaler := 4, reload := 2500 }

end At32Iwdg

/-!
ARM64 frame-pointer backtrace

A shallow embedding of `arch/arm64/src/common/arm64_backtrace.c`, compiled with
`CONFIG_FRAME_POINTER`.

* Pointers are byte addresses (`Nat`, `0` is `NULL`); `mem a` is the
  `uintptr_t` stored at address `a`, and `fp + 1` on a `uintptr_t *` is the
  address `fp + 8`.
* `buffer` is taken to be disjoint from the stacks that are walked, so the
  stores to it do not change `mem`; they are recorded as `(index, value)`
  pairs, in order.
* `int` is 32 bits wide.  `(*skip)--` is computed modulo `2 ^ 32`, as the
  compiled code does: decrementing `INT_MIN` leaves `INT_MAX` in `*skip`.
-/

namespace Arm64Backtrace

/-- The locals of `backtrace` that change while it runs, with a record of what
it has done so far. -/
structure walk where
  /-- `int i`: the number of addresses stored. -/
  i : Nat
  /-- `*skip`. -/
  skip : Int
  /-- The stores `buffer[index] = value`, oldest first. -/
  writes : List (Nat × Nat)
  /-- The addresses read from memory, oldest first. -/
  reads : List Nat
  /-- The number of completed iterations of the `for` loop. -/
  iterations : Nat
deriving DecidableEq, Repr

/-- The value of an `int` after an arithmetic operation with the mathematical
result `x`: the representative of `x` modulo `2 ^ 32` in
`[-2 ^ 31, 2 ^ 31)`. -/
def wrap_int32 (x : Int) : Int :=
  (x + 2 ^ 31) % 2 ^ 32 - 2 ^ 31

/-- The `for` loop of `backtrace` (lines 64-75), entered with frame pointer
`fp`.  Every completed iteration either uses up a unit of a positive `*skip`
or stores an address; a store with `*skip = INT_MIN` leaves `INT_MAX` in
`*skip`. -/
def backtrace_loop (mem : Nat → Nat) (base limit : Nat) (size : Int) (fp : Nat)
    (st : walk) : walk :=
  if _hsize : (st.i : Int) < size then
    if fp > limit ∨ fp < base then
      st
    else if mem fp = 0 then
      { st with reads := st.reads ++ [fp] }
    else if _hskip : st.skip ≤ 0 then
      backtrace_loop mem base limit size (mem fp)
        { i := st.i + 1
          skip := wrap_int32 (st.skip - 1)
          writes := st.writes ++ [(st.i, mem (fp + 8))]
          reads := st.reads ++ [fp, fp + 8, fp]
          iterations := st.iterations + 1 }
    else
      backtrace_loop mem base limit size (mem fp)
        { st with
          skip := wrap_int32 (st.skip - 1)
          reads := st.reads ++ [fp, fp]
          iterations := st.iterations + 1 }
  else
    st
termination_by (size - (st.i : Int)).toNat * 2 ^ 31 + st.skip.toNat
decreasing_by
  all_goals simp_wf
  all_goals simp only [wrap_int32]
  all_goals omega

/-- `backtrace` (lines 50-78): the final `walk`, whose `i` is the value
returned and whose `skip` is the value left in `*skip`. -/
def backtrace (mem : Nat → Nat) (base limit fp pc : Nat) (size skip : Int) : walk :=
  let st : walk := { i := 0, skip := skip, writes := [], reads := [], iterations := 0 }
  let st : walk :=
    if pc ≠ 0 then
      if skip ≤ 0 then
        { st with i := 1, skip := wrap_int32 (skip - 1), writes := [(0, pc)] }
      else
        { st with skip := wrap_int32 (skip - 1) }
    else
      st
  backtrace_loop mem base limit size fp st

/-- The fields of `struct tcb_s` that matter to a backtrace. -/
structure tcb_s where
  /-- `void *stack_base_ptr`. -/
  stack_base_ptr : Nat
  /-- `size_t adj_stack_size`. -/
  adj_stack_size : Nat
  /-- `xcp.regs[REG_X29]`, the frame pointer saved in the task's own register
  context. -/
  xcp_regs_X29 : Nat
  /-- `xcp.regs[REG_ELR]`, the program counter saved in the task's own
  register context. -/
  xcp_regs_ELR : Nat
deriving DecidableEq, Repr

/-- What `up_backtrace` reads from its surroundings. -/
structure Env where
  /-- Memory, one `uintptr_t` per address. -/
  mem : Nat → Nat
  /-- The `struct tcb_s` at an address. -/
  tcb : Nat → tcb_s
  /-- `running_task()`. -/
  running_task : Nat
  /-- `up_interrupt_context()`. -/
  up_interrupt_context : Bool
  /-- `CONFIG_ARCH_INTERRUPTSTACK`. -/
  CONFIG_ARCH_INTERRUPTSTACK : Nat
  /-- `up_get_intstackbase(this_cpu())`. -/
  intstackbase : Nat
  /-- `INTSTACK_SIZE`. -/
  INTSTACK_SIZE : Nat
  /-- `__builtin_frame_address(0)`. -/
  frame_address : Nat
  /-- `running_regs()[REG_X29]`. -/
  running_regs_X29 : Nat
  /-- `running_regs()[REG_ELR]`. -/
  running_regs_ELR : Nat

/-- The arguments of one call of `backtrace`. -/
structure call where
  /-- `base`. -/
  base : Nat
  /-- `limit`. -/
  limit : Nat
  /-- `fp`. -/
  fp : Nat
  /-- `pc`. -/
  pc : Nat
  /-- `size`. -/
  size : Int
  /-- `*skip` on entry. -/
  skip : Int
deriving DecidableEq, Repr

/-- What `up_backtrace` returns and does. -/
structure Result where
  /-- The `int` returned. -/
  ret : Int
  /-- The stores `buffer[index] = value`, oldest first. -/
  writes : List (Nat × Nat)
  /-- The calls of `backtrace` made, oldest first. -/
  calls : List call
  /-- The addresses read from memory by those calls, oldest first. -/
  reads : List Nat
deriving DecidableEq, Repr

/-- `up_backtrace` (lines 117-171); `tcb` and `buffer` are addresses. -/
def up_backtrace (env : Env) (tcb buffer : Nat) (size skip : Int) : Result :=
  let rtcb := env.running_task
  let rbase := (env.tcb rtcb).stack_base_ptr
  let rlimit := (env.tcb rtcb).stack_base_ptr + (env.tcb rtcb).adj_stack_size
  if size ≤ 0 ∨ buffer = 0 then
    { ret := 0, writes := [], calls := [], reads := [] }
  else if tcb = 0 ∨ tcb = rtcb then
    if env.up_interrupt_context then
      let ibase := if env.CONFIG_ARCH_INTERRUPTSTACK > 7 then env.intstackbase else rbase
      let ilimit :=
        if env.CONFIG_ARCH_INTERRUPTSTACK > 7 then env.intstackbase + env.INTSTACK_SIZE
        else rlimit
      let w1 := backtrace env.mem ibase ilimit env.frame_address 0 size skip
      let c1 : call :=
        { base := ibase, limit := ilimit, fp := env.frame_address, pc := 0,
          size := size, skip := skip }
      if (w1.i : Int) < size then
        let w2 := backtrace env.mem rbase rlimit env.running_regs_X29
          env.running_regs_ELR (size - (w1.i : Int)) w1.skip
        { ret := (w1.i : Int) + (w2.i : Int)
          writes := w1.writes ++ w2.writes.map (fun w => (w1.i + w.1, w.2))
          calls :=
            [c1,
             { base := rbase, limit := rlimit, fp := env.running_regs_X29,
               pc := env.running_regs_ELR, size := size - (w1.i : Int), skip := w1.skip }]
          reads := w1.reads ++ w2.reads }
      else
        { ret := (w1.i : Int), writes := w1.writes, calls := [c1], reads := w1.reads }
    else
      let w := backtrace env.mem rbase rlimit env.frame_address 0 size skip
      { ret := (w.i : Int)
        writes := w.writes
        calls :=
          [{ base := rbase, limit := rlimit, fp := env.frame_address, pc := 0,
             size := size, skip := skip }]
        reads := w.reads }
  else
    let w := backtrace env.mem (env.tcb tcb).stack_base_ptr
      ((env.tcb tcb).stack_base_ptr + (env.tcb tcb).adj_stack_size)
      env.running_regs_X29 env.running_regs_ELR size skip
    { ret := (w.i : Int)
      writes := w.writes
      calls :=
        [{ base := (env.tcb tcb).stack_base_ptr
           limit := (env.tcb tcb).stack_base_ptr + (env.tcb tcb).adj_stack_size
           fp := env.running_regs_X29, pc := env.running_regs_ELR
           size := size, skip := skip }]
      reads := w.reads }

/-! ## The candidate sequence of the specification -/

/-- The first `n` frames of the chain `f0 = fp`, `f(k+1) = *f(k)`, taken while
`base ≤ f ≤ limit` and `*f ≠ 0`. -/
def frame_chain (mem : Nat → Nat) (base limit : Nat) : Nat → Nat → List Nat
  | 0, _ => []
  | n + 1, fp =>
    if fp > limit ∨ fp < base ∨ mem fp = 0 then []
    else fp :: frame_chain mem base limit n (mem fp)

/-- The candidate sequence cut after `n` frames: `pc` when it is not `NULL`,
followed by the saved return address `*(f + 1)` of each frame of the chain. -/
def candidates (mem : Nat → Nat) (base limit fp pc n : Nat) : List Nat :=
  (if pc ≠ 0 then [pc] else []) ++
    (frame_chain mem base limit n fp).map (fun f => mem (f + 8))

/-- The number of iterations the loop of `backtrace` makes at most from a
state with `int` values: one for each address still to be stored, one for each
unit of a positive `*skip`, and `INT_MAX` more when the stores with
`*skip ≤ 0` reach `INT_MIN` before `size` addresses are stored. -/
def loop_bound (size : Int) (st : walk) : Nat :=
  if size ≤ (st.i : Int) then 0
  else
    (size - (st.i : Int)).toNat +
      (if 0 < st.skip then st.skip.toNat
       else if st.skip + 2 ^ 31 + 1 < size - (st.i : Int) then 2 ^ 31 - 1
       else 0)

/-! ## A concrete stack -/

/-- A stack with one frame at `0x2000` whose saved frame pointer points to the
frame itself. -/
def exampleLoopMem (a : Nat) : Nat :=
  if a = 0x2000 then 0x2000 else if a = 0x2008 then 0xc1 else 0

/-- A stack of three frames at `0x1000`, `0x1010` and `0x1020`; the last one
has a zero saved frame pointer and ends the chain. -/
def exampleMem (a : Nat) : Nat :=
  if a = 0x1000 then 0x1010
  else if a = 0x1008 then 0xa1
  else if a = 0x1010 then 0x1020
  else if a = 0x1018 then 0xa2
  else if a = 0x1028 then 0xa3
  else 0

/-- An environment in task context: the running task at address `0x500` owns
the example stack, and another task at `0x600` owns a stack at `0x3000`. -/
def exampleEnv : Env where
  mem := exampleMem
  tcb := fun a =>
    if a = 0x600 then
      { stack_base_ptr := 0x3000, adj_stack_size := 0x100, xcp_regs_X29 := 0x3010,
        xcp_regs_ELR := 0xb0 }
    else
      { stack_base_ptr := 0x1000, adj_stack_size := 0x100, xcp_regs_X29 := 0x1000,
        xcp_regs_ELR := 0xa0 }
  running_task := 0x500
  up_interrupt_context := false
  CONFIG_ARCH_INTERRUPTSTACK := 0
  intstackbase := 0
  INTSTACK_SIZE := 0
  frame_address := 0x1000
  running_regs_X29 := 0x1000
  running_regs_ELR := 0xa0

/-- An environment in task context whose running task owns the stack with the
self-referencing frame. -/
def exampleLoopEnv : Env where
  mem := exampleLoopMem
  tcb := fun _ =>
    { stack_base_ptr := 0x2000, adj_stack_size := 0x100, xcp_regs_X29 := 0x2000,
      xcp_regs_ELR := 0xc0 }
  running_task := 0x500
  up_interrupt_context := false
  CONFIG_ARCH_INTERRUPTSTACK := 0
  intstackbase := 0
  INTSTACK_SIZE := 0
  frame_address := 0x2000
  running_regs_X29 := 0x2000
  running_regs_ELR := 0xc0

end Arm64Backtrace

/-!
STM32H5 ADC driver

A shallow embedding of `arch/arm/src/stm32h5/stm32_adc.c`.

* Which of `CONFIG_STM32H5_ADC1`, `CONFIG_STM32H5_ADC2` and `CONFIG_PM` are
  defined is a parameter; `ADC_HAVE_DMA` is undefined (line 71 refuses it).
* `DEBUGASSERT` expands to nothing (`CONFIG_DEBUG_ASSERTIONS` is not set).
* Debug output (`ainfo`, `aerr`) is not modelled.
-/

namespace Stm32h5Adc

/-- Which optional parts of the file are compiled. -/
structure Config where
  /-- `CONFIG_STM32H5_ADC1` is defined. -/
  CONFIG_STM32H5_ADC1 : Bool
  /-- `CONFIG_STM32H5_ADC2` is defined. -/
  CONFIG_STM32H5_ADC2 : Bool
  /-- `CONFIG_PM` is defined. -/
  CONFIG_PM : Bool
deriving DecidableEq, Repr

/-- `#define ADC_MAX_CHANNELS_NODMA 20`. -/
def ADC_MAX_CHANNELS_NODMA : Nat := 20

/-- `#define ADC_MAX_SAMPLES ADC_MAX_CHANNELS_NODMA` (the branch without
`ADC_HAVE_DMA`). -/
def ADC_MAX_SAMPLES : Nat := ADC_MAX_CHANNELS_NODMA

/-- Success return value of `pm_register`. -/
def OK : Int := 0

/-- `struct stm32_dev_s` (lines 110-158) without the constant `isr` pointer and
without the fields compiled only with `ADC_HAVE_DMA`, `ADC_HAVE_TIMER` or
`CONFIG_PM`. -/
structure stm32_dev_s where
  /-- `const struct adc_callback_s *cb`; `none` is `NULL`. -/
  cb : Option Nat
  /-- `uint8_t irq`. -/
  irq : Nat
  /-- `uint8_t nchannels`: number of channels. -/
  nchannels : Nat
  /-- `uint8_t cchannels`: number of configured channels. -/
  cchannels : Nat
  /-- `uint8_t intf`: ADC interface number. -/
  intf : Nat
  /-- `uint8_t current`: current ADC channel being converted. -/
  current : Nat
  /-- `uint32_t base`. -/
  base : Nat
  /-- `uint32_t mbase`. -/
  mbase : Nat
  /-- `bool initialized`. -/
  initialized : Bool
  /-- `uint8_t chanlist[ADC_MAX_SAMPLES]`. -/
  chanlist : List Nat
deriving DecidableEq, Repr

/-- The value of a `struct adc_dev_s *`: `NULL` or the address of one of the
two device structures of the file. -/
inductive adc_dev_ptr where
  /-- `NULL`. -/
  | NULL
  /-- `&g_adcdev1`. -/
  | g_adcdev1
  /-- `&g_adcdev2`. -/
  | g_adcdev2
deriving DecidableEq, Repr

/-- The file's static driver states. -/
structure Globals where
  /-- `g_adcpriv1`, the `ad_priv` of `g_adcdev1`. -/
  g_adcpriv1 : stm32_dev_s
  /-- `g_adcpriv2`, the `ad_priv` of `g_adcdev2`. -/
  g_adcpriv2 : stm32_dev_s
deriving DecidableEq, Repr

/-- `memcpy(dst, src, n)` into a byte array: the first `n` bytes come from
`src`, the rest of `dst` stays; `src k` is the byte `src[k]`. -/
def memcpy (dst : List Nat) (src : Nat → Nat) (n : Nat) : List Nat :=
  (List.range n).map src ++ dst.drop n

/-- The part of `stm32h5_adc_initialize` under "Configure the selected ADC"
(lines 1349-1358) on the selected driver state.  `cchannels` is an `int`;
`none` stands for a `memcpy` of more than `ADC_MAX_SAMPLES` bytes, which
overruns `chanlist` (this needs a negative `cchannels`, converted to a 32-bit
`size_t`). -/
def configure_selected (priv : stm32_dev_s) (chanlist : Nat → Nat) (cchannels : Int) :
    Option stm32_dev_s :=
  let cchannels : Int :=
    if cchannels > (ADC_MAX_SAMPLES : Int) then (ADC_MAX_SAMPLES : Int) else cchannels
  let n := (cchannels % 2 ^ 32).toNat
  if n > ADC_MAX_SAMPLES then
    none
  else
    some
      { priv with
        cb := none
        cchannels := (cchannels % 2 ^ 8).toNat
        chanlist := memcpy priv.chanlist chanlist n }

/-- `stm32h5_adc_initialize` (lines 1318-1369): the pointer returned and the
static driver states on return; `pm_register` is the value returned by the
call `pm_register(&priv->pm_callback)` when `CONFIG_PM` is defined. -/
def stm32h5_adc_initialize (cfg : Config) (pm_register : Int) (g : Globals)
    (intf : Int) (chanlist : Nat → Nat) (cchannels : Int) :
    Option (adc_dev_ptr × Globals) :=
  if intf = 1 ∧ cfg.CONFIG_STM32H5_ADC1 = true then
    match configure_selected g.g_adcpriv1 chanlist cchannels with
    | none => none
    | some priv =>
      if cfg.CONFIG_PM = true ∧ pm_register ≠ OK then
        some (adc_dev_ptr.NULL, { g with g_adcpriv1 := priv })
      else
        some (adc_dev_ptr.g_adcdev1, { g with g_adcpriv1 := priv })
  else if intf = 2 ∧ cfg.CONFIG_STM32H5_ADC2 = true then
    match configure_selected g.g_adcpriv2 chanlist cchannels with
    | none => none
    | some priv =>
      if cfg.CONFIG_PM = true ∧ pm_register ≠ OK then
        some (adc_dev_ptr.NULL, { g with g_adcpriv2 := priv })
      else
        some (adc_dev_ptr.g_adcdev2, { g with g_adcpriv2 := priv })
  else
    some (adc_dev_ptr.NULL, g)

/-- The static initialisers of `g_adcpriv1` and `g_adcpriv2` (lines 204-238);
fields without an initialiser are zero.  The interrupt numbers and register
bases come from headers, the values here are examples. -/
def initialGlobals : Globals where
  g_adcpriv1 :=
    { cb := none, irq := 37, nchannels := 0, cchannels := 0, intf := 1, current := 0,
      base := 0x42028000, mbase := 0x42028000, initialized := false,
      chanlist := List.replicate 20 0 }
  g_adcpriv2 :=
    { cb := none, irq := 69, nchannels := 0, cchannels := 0, intf := 2, current := 0,
      base := 0x42028100, mbase := 0x42028100, initialized := false,
      chanlist := List.replicate 20 0 }

/-- A channel list argument: channel `k + 1` at position `k`. -/
def exampleChanlist (k : Nat) : Nat := k + 1

/-! ## Registers and the operations on them -/

/-- Constants that `stm32_adc.c` takes from headers (`hardware/stm32_adc.h`,
`errno.h`); each field carries the name of its C macro. -/
structure Hw where
  /-- Offset of the interrupt and status register. -/
  STM32_ADC_ISR_OFFSET : Nat
  /-- Offset of the interrupt enable register. -/
  STM32_ADC_IER_OFFSET : Nat
  /-- Offset of the control register. -/
  STM32_ADC_CR_OFFSET : Nat
  /-- Offset of the configuration register. -/
  STM32_ADC_CFGR_OFFSET : Nat
  /-- Offset of the analog watchdog 1 threshold register. -/
  STM32_ADC_TR1_OFFSET : Nat
  /-- Offset of the regular sequence register 1. -/
  STM32_ADC_SQR1_OFFSET : Nat
  /-- Offset of the regular sequence register 2. -/
  STM32_ADC_SQR2_OFFSET : Nat
  /-- Offset of the regular sequence register 3. -/
  STM32_ADC_SQR3_OFFSET : Nat
  /-- Offset of the regular sequence register 4. -/
  STM32_ADC_SQR4_OFFSET : Nat
  /-- Analog watchdog 1 interrupt bit. -/
  ADC_INT_AWD1 : Nat
  /-- Overrun interrupt bit. -/
  ADC_INT_OVR : Nat
  /-- End of conversion interrupt bit. -/
  ADC_INT_EOC : Nat
  /-- Start of regular conversion bit of CR. -/
  ADC_CR_ADSTART : Nat
  /-- Stop of regular conversion bit of CR. -/
  ADC_CR_ADSTP : Nat
  /-- Analog watchdog 1 enable bit of CFGR. -/
  ADC_CFGR_AWD1EN : Nat
  /-- Continuous mode bit of CFGR. -/
  ADC_CFGR_CONT : Nat
  /-- Overrun mode bit of CFGR. -/
  ADC_CFGR_OVRMOD : Nat
  /-- Mask of the data in DR. -/
  ADC_DR_MASK : Nat
  /-- Position of the lower threshold in TR1. -/
  ADC_TR1_LT1_SHIFT : Nat
  /-- Mask of the lower threshold in TR1. -/
  ADC_TR1_LT1_MASK : Nat
  /-- Position of the upper threshold in TR1. -/
  ADC_TR1_HT1_SHIFT : Nat
  /-- Mask of the upper threshold in TR1. -/
  ADC_TR1_HT1_MASK : Nat
  /-- Distance in bits between two slots of a sequence register. -/
  ADC_SQ_OFFSET : Nat
  /-- Position of the sequence length `L` in SQR1. -/
  ADC_SQR1_L_SHIFT : Nat
  /-- Number of the first slot of SQR1. -/
  ADC_SQR1_FIRST : Nat
  /-- Number of the last slot of SQR1. -/
  ADC_SQR1_LAST : Nat
  /-- Position of the first slot of SQR1. -/
  ADC_SQR1_SQ_OFFSET : Nat
  /-- Reserved bits of SQR1. -/
  ADC_SQR1_RESERVED : Nat
  /-- Number of the first slot of SQR2. -/
  ADC_SQR2_FIRST : Nat
  /-- Number of the last slot of SQR2. -/
  ADC_SQR2_LAST : Nat
  /-- Position of the first slot of SQR2. -/
  ADC_SQR2_SQ_OFFSET : Nat
  /-- Reserved bits of SQR2. -/
  ADC_SQR2_RESERVED : Nat
  /-- Number of the first slot of SQR3. -/
  ADC_SQR3_FIRST : Nat
  /-- Number of the last slot of SQR3. -/
  ADC_SQR3_LAST : Nat
  /-- Position of the first slot of SQR3. -/
  ADC_SQR3_SQ_OFFSET : Nat
  /-- Reserved bits of SQR3. -/
  ADC_SQR3_RESERVED : Nat
  /-- Number of the first slot of SQR4. -/
  ADC_SQR4_FIRST : Nat
  /-- Number of the last slot of SQR4. -/
  ADC_SQR4_LAST : Nat
  /-- Position of the first slot of SQR4. -/
  ADC_SQR4_SQ_OFFSET : Nat
  /-- Reserved bits of SQR4. -/
  ADC_SQR4_RESERVED : Nat
  /-- Errno value `EINVAL`. -/
  EINVAL : Nat
  /-- Errno value `ENOTTY`. -/
  ENOTTY : Nat
  /-- Errno value `ENODEV`. -/
  ENODEV : Nat

/-- One ADC block as the driver sees it: its driver state and the contents of
its registers, by offset from `priv->base`.  A register holds what it held
initially or what the driver wrote last; the reads of `adc_interrupt` whose
value the hardware decides (DR, and the polls of ISR and CR) are inputs of
`adc_interrupt` instead. -/
structure adc_state where
  /-- `struct stm32_dev_s`. -/
  priv : stm32_dev_s
  /-- The 32-bit registers of the block. -/
  regs : Nat → Nat

/-- The operator `~` on a `uint32_t`. -/
def not32 (x : Nat) : Nat :=
  2 ^ 32 - 1 - x % 2 ^ 32

/-- `adc_getreg` (lines 271-274). -/
def adc_getreg (st : adc_state) (offset : Nat) : Nat :=
  st.regs offset

/-- `adc_putreg` (lines 292-296); `value` is a `uint32_t`. -/
def adc_putreg (st : adc_state) (offset value : Nat) : adc_state :=
  { st with regs := fun o => if o = offset then value % 2 ^ 32 else st.regs o }

/-- `adc_modifyreg` (lines 315-319). -/
def adc_modifyreg (st : adc_state) (offset clrbits setbits : Nat) : adc_state :=
  adc_putreg st offset ((adc_getreg st offset &&& not32 clrbits) ||| setbits)

/-- `adc_wdog_enable` (lines 476-492). -/
def adc_wdog_enable (hw : Hw) (st : adc_state) : adc_state :=
  let regval := adc_getreg st hw.STM32_ADC_CFGR_OFFSET
  let regval := regval ||| (hw.ADC_CFGR_AWD1EN ||| hw.ADC_CFGR_CONT ||| hw.ADC_CFGR_OVRMOD)
  let st := adc_putreg st hw.STM32_ADC_CFGR_OFFSET regval
  let regval := adc_getreg st hw.STM32_ADC_IER_OFFSET
  let regval := regval ||| hw.ADC_INT_AWD1
  let regval := regval &&& not32 hw.ADC_INT_EOC
  adc_putreg st hw.STM32_ADC_IER_OFFSET regval

/-- `adc_startconv` (lines 508-529). -/
def adc_startconv (hw : Hw) (st : adc_state) (enable : Bool) : adc_state :=
  let regval := adc_getreg st hw.STM32_ADC_CR_OFFSET
  let regval := if enable then regval ||| hw.ADC_CR_ADSTART else regval ||| hw.ADC_CR_ADSTP
  adc_putreg st hw.STM32_ADC_CR_OFFSET regval

/-- `adc_bind` (lines 458-466); `callback` is the address of the callback
structure. -/
def adc_bind (st : adc_state) (callback : Option Nat) : Int × adc_state :=
  (OK, { st with priv := { st.priv with cb := callback } })

/-- The loop of `adc_sqrbits` (lines 933-938), entered with the locals `i`,
`offset` and `bits`; `chanlist[i]` outside the array reads as `0`. -/
def adc_sqrbits_loop (hw : Hw) (priv : stm32_dev_s) (last i offset bits : Nat) : Nat :=
  if i < priv.nchannels ∧ i < last then
    adc_sqrbits_loop hw priv last (i + 1) (offset + hw.ADC_SQ_OFFSET)
      (bits ||| ((priv.chanlist.getD i 0 <<< offset) % 2 ^ 32))
  else
    bits
termination_by last - i

/-- `adc_sqrbits` (lines 927-941). -/
def adc_sqrbits (hw : Hw) (priv : stm32_dev_s) (first last offset : Nat) : Nat :=
  adc_sqrbits_loop hw priv last (first - 1) offset 0

/-- The search loop of `adc_set_ch` (line 1009), entered with the local `i`:
the value of `i` when the loop ends. -/
def adc_set_ch_search (priv : stm32_dev_s) (ch i : Nat) : Nat :=
  if i < priv.cchannels ∧ (priv.chanlist.getD i 0 : Int) ≠ (ch : Int) - 1 then
    adc_set_ch_search priv ch (i + 1)
  else
    i
termination_by priv.cchannels - i

/-- The writes of the four sequence registers at the end of `adc_set_ch`
(lines 1022-1036). -/
def adc_set_ch_program (hw : Hw) (st : adc_state) : adc_state :=
  let priv := st.priv
  let bits := adc_sqrbits hw priv hw.ADC_SQR4_FIRST hw.ADC_SQR4_LAST hw.ADC_SQR4_SQ_OFFSET
  let st := adc_modifyreg st hw.STM32_ADC_SQR4_OFFSET (not32 hw.ADC_SQR4_RESERVED) bits
  let bits := adc_sqrbits hw priv hw.ADC_SQR3_FIRST hw.ADC_SQR3_LAST hw.ADC_SQR3_SQ_OFFSET
  let st := adc_modifyreg st hw.STM32_ADC_SQR3_OFFSET (not32 hw.ADC_SQR3_RESERVED) bits
  let bits := adc_sqrbits hw priv hw.ADC_SQR2_FIRST hw.ADC_SQR2_LAST hw.ADC_SQR2_SQ_OFFSET
  let st := adc_modifyreg st hw.STM32_ADC_SQR2_OFFSET (not32 hw.ADC_SQR2_RESERVED) bits
  let bits :=
    ((((priv.nchannels + 2 ^ 32 - 1) % 2 ^ 32) <<< hw.ADC_SQR1_L_SHIFT) % 2 ^ 32) |||
      adc_sqrbits hw priv hw.ADC_SQR1_FIRST hw.ADC_SQR1_LAST hw.ADC_SQR1_SQ_OFFSET
  adc_modifyreg st hw.STM32_ADC_SQR1_OFFSET (not32 hw.ADC_SQR1_RESERVED) bits

/-- `adc_set_ch` (lines 995-1039); `ch` is a `uint8_t`. -/
def adc_set_ch (hw : Hw) (st : adc_state) (ch : Nat) : Int × adc_state :=
  if ch = 0 then
    (OK,
      adc_set_ch_program hw
        { st with priv := { st.priv with current := 0, nchannels := st.priv.cchannels } })
  else if adc_set_ch_search st.priv ch 0 ≥ st.priv.cchannels then
    (-(hw.ENODEV : Int), st)
  else
    (OK,
      adc_set_ch_program hw
        { st with
          priv :=
            { st.priv with
              current := adc_set_ch_search st.priv ch 0 % 2 ^ 8, nchannels := 1 } })

/-- The case labels of the `switch (cmd)` of `adc_ioctl`; `other` is any
command without a case. -/
inductive ioctl_cmd where
  /-- `ANIOC_TRIGGER`. -/
  | ANIOC_TRIGGER
  /-- `ANIOC_GET_NCHANNELS`. -/
  | ANIOC_GET_NCHANNELS
  /-- `ANIOC_WDOG_UPPER`. -/
  | ANIOC_WDOG_UPPER
  /-- `ANIOC_WDOG_LOWER`. -/
  | ANIOC_WDOG_LOWER
  /-- The `default` case. -/
  | other
deriving DecidableEq, Repr

/-- `adc_ioctl` (lines 1056-1136); `arg` is an `unsigned long` of 32 bits. -/
def adc_ioctl (hw : Hw) (st : adc_state) (cmd : ioctl_cmd) (arg : Nat) :
    Int × adc_state :=
  match cmd with
  | ioctl_cmd.ANIOC_TRIGGER => (OK, adc_startconv hw st true)
  | ioctl_cmd.ANIOC_GET_NCHANNELS => ((st.priv.cchannels : Int), st)
  | ioctl_cmd.ANIOC_WDOG_UPPER =>
    let regval := adc_getreg st hw.STM32_ADC_TR1_OFFSET
    let tmp := (regval &&& hw.ADC_TR1_LT1_MASK) >>> hw.ADC_TR1_LT1_SHIFT
    if arg < tmp then
      (-(hw.EINVAL : Int), st)
    else
      let regval := ((arg <<< hw.ADC_TR1_HT1_SHIFT) % 2 ^ 32) &&& hw.ADC_TR1_HT1_MASK
      let st := adc_putreg st hw.STM32_ADC_TR1_OFFSET regval
      (OK, adc_wdog_enable hw st)
  | ioctl_cmd.ANIOC_WDOG_LOWER =>
    let regval := adc_getreg st hw.STM32_ADC_TR1_OFFSET
    let tmp := (regval &&& hw.ADC_TR1_HT1_MASK) >>> hw.ADC_TR1_HT1_SHIFT
    if arg > tmp then
      (-(hw.EINVAL : Int), st)
    else
      let regval := ((arg <<< hw.ADC_TR1_LT1_SHIFT) % 2 ^ 32) &&& hw.ADC_TR1_LT1_MASK
      let st := adc_putreg st hw.STM32_ADC_TR1_OFFSET regval
      (OK, adc_wdog_enable hw st)
  | ioctl_cmd.other => (-(hw.ENOTTY : Int), st)

/-- The lower threshold `LT1` held in a value of TR1. -/
def tr1_lt1 (hw : Hw) (tr1 : Nat) : Nat :=
  (tr1 &&& hw.ADC_TR1_LT1_MASK) >>> hw.ADC_TR1_LT1_SHIFT

/-- The upper threshold `HT1` held in a value of TR1. -/
def tr1_ht1 (hw : Hw) (tr1 : Nat) : Nat :=
  (tr1 &&& hw.ADC_TR1_HT1_MASK) >>> hw.ADC_TR1_HT1_SHIFT

/-! ## The interrupt handler -/

/-- A call of a function of the upper half through `priv->cb`. -/
inductive Callback where
  /-- `priv->cb->au_receive(dev, ch, data)`. -/
  | au_receive (ch data : Nat)
  /-- `priv->cb->au_reset(dev)`. -/
  | au_reset
deriving DecidableEq, Repr

/-- What one run of `adc_interrupt` gets from the hardware and the upper half:
the values read from DR in the iterations of the `do ... while` loop (the first
iteration always runs, a further one runs while ISR shows EOC), and whether
`priv->cb->au_reset` is not `NULL`.  The wait for ADSTART to clear in the
overrun branch is taken to end. -/
structure irq_input where
  /-- DR in the first iteration. -/
  dr_first : Nat
  /-- DR in the further iterations. -/
  dr_more : List Nat
  /-- `priv->cb->au_reset != NULL`. -/
  au_reset_bound : Bool
deriving DecidableEq, Repr

/-- The body of the `do ... while` loop of `adc_interrupt` (lines 1218-1255),
once for every value read from DR: the driver state afterwards and the
callbacks made. -/
def adc_eoc_samples (hw : Hw) (priv : stm32_dev_s) : List Nat →
    stm32_dev_s × List Callback
  | [] => (priv, [])
  | dr :: more =>
    let value := (dr % 2 ^ 32) &&& hw.ADC_DR_MASK
    let cbs :=
      if priv.cb ≠ none then
        [Callback.au_receive (priv.chanlist.getD priv.current 0) value]
      else
        []
    let current := (priv.current + 1) % 2 ^ 8
    let current := if current ≥ priv.nchannels then 0 else current
    let r := adc_eoc_samples hw { priv with current := current } more
    (r.1, cbs ++ r.2)

/-- `adc_interrupt` (lines 1148-1265): the value returned, the state
afterwards and the callbacks made, oldest first. -/
def adc_interrupt (hw : Hw) (st : adc_state) (adcisr : Nat) (input : irq_input) :
    Int × adc_state × List Callback :=
  let st :=
    if adcisr &&& hw.ADC_INT_AWD1 ≠ 0 then
      adc_putreg (adc_startconv hw st false) hw.STM32_ADC_ISR_OFFSET hw.ADC_INT_AWD1
    else
      st
  let r : adc_state × List Callback :=
    if adcisr &&& hw.ADC_INT_OVR ≠ 0 then
      let st := adc_startconv hw st false
      let cbs :=
        if st.priv.cb ≠ none ∧ input.au_reset_bound = true then [Callback.au_reset] else []
      (adc_putreg st hw.STM32_ADC_ISR_OFFSET hw.ADC_INT_OVR, cbs)
    else
      (st, [])
  if adcisr &&& hw.ADC_INT_EOC ≠ 0 then
    let e := adc_eoc_samples hw r.1.priv (input.dr_first :: input.dr_more)
    (OK, { r.1 with priv := e.1 }, r.2 ++ e.2)
  else
    (OK, r.1, r.2)

/-- A sequence of interrupts, first one first: the state afterwards and all
the callbacks made. -/
def run_interrupts (hw : Hw) : adc_state → List (Nat × irq_input) →
    adc_state × List Callback
  | st, [] => (st, [])
  | st, irq :: irqs =>
    let r := adc_interrupt hw st irq.1 irq.2
    let rest := run_interrupts hw r.2.1 irqs
    (rest.1, r.2.2 ++ rest.2)

/-- The channels passed to `au_receive`, in order. -/
def received_channels : List Callback → List Nat
  | [] => []
  | Callback.au_receive ch _ :: cbs => ch :: received_channels cbs
  | Callback.au_reset :: cbs => received_channels cbs

/-- The number of samples read from DR by the end-of-conversion branch in a
sequence of interrupts. -/
def eoc_samples (hw : Hw) : List (Nat × irq_input) → Nat
  | [] => 0
  | irq :: irqs =>
    (if irq.1 &&& hw.ADC_INT_EOC ≠ 0 then 1 + irq.2.dr_more.length else 0) +
      eoc_samples hw irqs

/-- The calls of `au_receive`, in order: the channel and the data passed. -/
def received_samples : List Callback → List (Nat × Nat)
  | [] => []
  | Callback.au_receive ch data :: cbs => (ch, data) :: received_samples cbs
  | Callback.au_reset :: cbs => received_samples cbs

/-- The values read from DR by the end-of-conversion branch in a sequence of
interrupts, in order. -/
def eoc_values (hw : Hw) : List (Nat × irq_input) → List Nat
  | [] => []
  | irq :: irqs =>
    (if irq.1 &&& hw.ADC_INT_EOC ≠ 0 then irq.2.dr_first :: irq.2.dr_more else []) ++
      eoc_values hw irqs

/-! ## Concrete registers -/

/-- The register layout of the STM32H5 ADC and the NuttX errno numbers, used
only to evaluate the operations on concrete inputs. -/
def exampleHw : Hw where
  STM32_ADC_ISR_OFFSET := 0x00
  STM32_ADC_IER_OFFSET := 0x04
  STM32_ADC_CR_OFFSET := 0x08
  STM32_ADC_CFGR_OFFSET := 0x0c
  STM32_ADC_TR1_OFFSET := 0x20
  STM32_ADC_SQR1_OFFSET := 0x30
  STM32_ADC_SQR2_OFFSET := 0x34
  STM32_ADC_SQR3_OFFSET := 0x38
  STM32_ADC_SQR4_OFFSET := 0x3c
  ADC_INT_AWD1 := 0x80
  ADC_INT_OVR := 0x10
  ADC_INT_EOC := 0x04
  ADC_CR_ADSTART := 0x04
  ADC_CR_ADSTP := 0x10
  ADC_CFGR_AWD1EN := 0x800000
  ADC_CFGR_CONT := 0x2000
  ADC_CFGR_OVRMOD := 0x1000
  ADC_DR_MASK := 0xffff
  ADC_TR1_LT1_SHIFT := 0
  ADC_TR1_LT1_MASK := 0xfff
  ADC_TR1_HT1_SHIFT := 16
  ADC_TR1_HT1_MASK := 0xfff0000
  ADC_SQ_OFFSET := 6
  ADC_SQR1_L_SHIFT := 0
  ADC_SQR1_FIRST := 1
  ADC_SQR1_LAST := 4
  ADC_SQR1_SQ_OFFSET := 6
  ADC_SQR1_RESERVED := 0xe0820830
  ADC_SQR2_FIRST := 5
  ADC_SQR2_LAST := 9
  ADC_SQR2_SQ_OFFSET := 0
  ADC_SQR2_RESERVED := 0xe0820820
  ADC_SQR3_FIRST := 10
  ADC_SQR3_LAST := 14
  ADC_SQR3_SQ_OFFSET := 0
  ADC_SQR3_RESERVED := 0xe0820820
  ADC_SQR4_FIRST := 15
  ADC_SQR4_LAST := 16
  ADC_SQR4_SQ_OFFSET := 0
  ADC_SQR4_RESERVED := 0xfffff820
  EINVAL := 22
  ENOTTY := 25
  ENODEV := 19

/-- ADC1 configured with the two channels 3 and 5, a bound callback, and all
registers zero. -/
def exampleAdc : adc_state where
  priv :=
    { initialGlobals.g_adcpriv1 with
      cb := some 0x2000, cchannels := 2, chanlist := [3, 5] ++ List.replicate 18 0 }
  regs := fun _ => 0

/-- The example block with the watchdog thresholds `LT1 = 0x100` and
`HT1 = 0x800` in TR1. -/
def exampleAdcThresholds : adc_state :=
  { exampleAdc with regs := fun o => if o = 0x20 then 0x8000100 else 0 }

/-- ADC1 as `stm32h5_adc_initialize(1, chanlist, 17)` leaves it for the list
of the channels 1 to 17, with all registers zero. -/
def exampleAdc17 : adc_state where
  priv :=
    { initialGlobals.g_adcpriv1 with
      cchannels := 17
      chanlist := [1, 2, 3, 4, 5, 6, 7, 8, 9, 10, 11, 12, 13, 14, 15, 16, 17, 0, 0, 0] }
  regs := fun _ => 0

/-- Three interrupts: end of conversion with two samples in the FIFO, an
overrun, and a watchdog event together with an end of conversion with two
samples. -/
def exampleIrqs : List (Nat × irq_input) :=
  [(0x04, { dr_first := 0x111, dr_more := [0x222], au_reset_bound := true }),
    (0x10, { dr_first := 0, dr_more := [], au_reset_bound := true }),
    (0x84, { dr_first := 0x333, dr_more := [0x444], au_reset_bound := false })]

end Stm32h5Adc

namespace At32Iwdg

/-! ## Range check, busy check and failure atomicity of `at32_settimeout` -/

/-- An out-of-range timeout is refused with `-ERANGE`, whatever the state. -/
theorem at32_settimeout_of_out_of_range (cfg : Config) (priv : at32_lowerhalf_s)
    (timeout : Nat) (h : timeout < 1 ∨ timeout > IWDG_MAXTIMEOUT cfg) :
    at32_settimeout cfg priv timeout =
      some { ret := -(cfg.ERANGE : Int), priv := priv, events := [] } := by
  unfold at32_settimeout
  rw [if_pos h]

/-- An in-range timeout on a started device is refused with `-EBUSY`. -/
theorem at32_settimeout_of_started (cfg : Config) (priv : at32_lowerhalf_s)
    (timeout : Nat) (h : ¬ (timeout < 1 ∨ timeout > IWDG_MAXTIMEOUT cfg))
    (hs : priv.started = true) :
    at32_settimeout cfg priv timeout =
      some { ret := -(cfg.EBUSY : Int), priv := priv, events := [] } := by
  unfold at32_settimeout
  rw [if_neg h, if_pos hs]

/-- An in-range timeout on a device that is not started: the result is decided
by the prescaler search. -/
theorem at32_settimeout_of_accepted (cfg : Config) (priv : at32_lowerhalf_s)
    (timeout : Nat) (h : ¬ (timeout < 1 ∨ timeout > IWDG_MAXTIMEOUT cfg))
    (hs : priv.started = false) :
    at32_settimeout cfg priv timeout =
      (let sel := at32_settimeout_loop cfg priv.lsifreq timeout 0 (Nat.zero_le 6)
       let reload :=
         if sel.reload > cfg.IWDG_RLR_MAX then cfg.IWDG_RLR_MAX else sel.reload
       if sel.fiwdg = 0 then none
       else some
         { ret := OK
           priv :=
             { priv with
               timeout := (1000 * (reload % 2 ^ 32)) % 2 ^ 32 / sel.fiwdg
               prescaler := sel.prescaler % 2 ^ 8
               reload := reload % 2 ^ 16 }
           events := [] }) := by
  have hs' : ¬ (priv.started = true) := by simp [hs]
  unfold at32_settimeout
  rw [if_neg h, if_neg hs']

/-- C1: for every device state and every timeout, `at32_settimeout` returns
`-ERANGE` if and only if `timeout < 1` or
`timeout > 1000 * IWDG_RLR_MAX / (AT32_LSI_FREQUENCY / 256)` (truncating
divisions), given that `ERANGE` is a positive errno number distinct from
`EBUSY`. -/
theorem at32_settimeout_erange_iff (cfg : Config) (priv : at32_lowerhalf_s)
    (timeout : Nat) (hpos : cfg.ERANGE ≠ 0) (hne : cfg.ERANGE ≠ cfg.EBUSY) :
    (∃ o, at32_settimeout cfg priv timeout = some o ∧ o.ret = -(cfg.ERANGE : Int)) ↔
      (timeout < 1 ∨
        timeout > 1000 * cfg.IWDG_RLR_MAX / (cfg.AT32_LSI_FREQUENCY / 256)) := by
  constructor
  · rintro ⟨o, ho, hret⟩
    by_contra hin
    have hin' : ¬ (timeout < 1 ∨ timeout > IWDG_MAXTIMEOUT cfg) := hin
    cases hs : priv.started with
    | true =>
      rw [at32_settimeout_of_started cfg priv timeout hin' hs] at ho
      cases ho
      simp only [neg_inj, Nat.cast_inj] at hret
      exact hne hret.symm
    | false =>
      rw [at32_settimeout_of_accepted cfg priv timeout hin' hs] at ho
      simp only at ho
      split at ho
      · cases ho
      · cases ho
        simp only [OK] at hret
        omega
  · intro h
    exact ⟨_, at32_settimeout_of_out_of_range cfg priv timeout h, rfl⟩

/-- The range check of C1 at work: `0` and `35001` are refused with `-ERANGE`
and `35000 = 1000 * 4095 / (30000 / 256)` is not. -/
theorem at32_settimeout_erange_iff_witness :
    ((∃ o, at32_settimeout exampleConfig exampleDevice 35001 = some o ∧
        o.ret = -(exampleConfig.ERANGE : Int)) ↔
      (35001 < 1 ∨ 35001 > 1000 * exampleConfig.IWDG_RLR_MAX /
        (exampleConfig.AT32_LSI_FREQUENCY / 256))) ∧
    (35001 > 1000 * exampleConfig.IWDG_RLR_MAX /
        (exampleConfig.AT32_LSI_FREQUENCY / 256)) ∧
    ¬ (35000 > 1000 * exampleConfig.IWDG_RLR_MAX /
        (exampleConfig.AT32_LSI_FREQUENCY / 256)) :=
  ⟨at32_settimeout_erange_iff exampleConfig exampleDevice 35001 (by decide) (by decide),
    by decide, by decide⟩

/-- C2 fails as stated: on a started device the out-of-range timeout `0` is
refused with `-ERANGE` (`-34`), not with `-EBUSY` (`-16`), because the range
check comes first. -/
theorem at32_settimeout_started_zero_is_erange :
    at32_settimeout exampleConfig startedDevice 0 =
        some { ret := -34, priv := startedDevice, events := [] } ∧
      ¬ (∃ o, at32_settimeout exampleConfig startedDevice 0 = some o ∧
          o.ret = -(exampleConfig.EBUSY : Int)) := by
  have h : at32_settimeout exampleConfig startedDevice 0 =
      some { ret := -34, priv := startedDevice, events := [] } := by decide
  refine ⟨h, ?_⟩
  rintro ⟨o, ho, hret⟩
  rw [h] at ho
  cases ho
  revert hret
  decide

/-- C2, amended: on a started device `at32_settimeout` always fails, with
`-EBUSY` for a timeout in `[1, IWDG_MAXTIMEOUT]` and with `-ERANGE` for any
other timeout; in both cases the driver state, the configured timeout
included, is unchanged and nothing is written. -/
theorem at32_settimeout_started (cfg : Config) (priv : at32_lowerhalf_s)
    (timeout : Nat) (hs : priv.started = true) :
    at32_settimeout cfg priv timeout =
      some
        { ret :=
            if 1 ≤ timeout ∧ timeout ≤ IWDG_MAXTIMEOUT cfg then -(cfg.EBUSY : Int)
            else -(cfg.ERANGE : Int)
          priv := priv
          events := [] } := by
  by_cases h : timeout < 1 ∨ timeout > IWDG_MAXTIMEOUT cfg
  · rw [at32_settimeout_of_out_of_range cfg priv timeout h]
    have : ¬ (1 ≤ timeout ∧ timeout ≤ IWDG_MAXTIMEOUT cfg) := by omega
    simp [this]
  · rw [at32_settimeout_of_started cfg priv timeout h hs]
    have : 1 ≤ timeout ∧ timeout ≤ IWDG_MAXTIMEOUT cfg := by omega
    simp [this]

/-- The amended C2 on the started example device: `6000` is in range and is
refused with `-EBUSY`, the configured timeout stays `5000`. -/
theorem at32_settimeout_started_witness :
    startedDevice.started = true ∧
    at32_settimeout exampleConfig startedDevice 6000 =
      some { ret := -16, priv := startedDevice, events := [] } ∧
    startedDevice.timeout = 5000 :=
  ⟨rfl, (at32_settimeout_started exampleConfig startedDevice 6000 rfl).trans (by decide),
    rfl⟩

/-- C3: whenever `at32_settimeout` returns a failure code (`-ERANGE` or
`-EBUSY`, both errno numbers being positive), the driver state (`timeout`,
`prescaler`, `reload`, `started`, `lastreset`, `lsifreq`) is unchanged and no
event, in particular no register write, has been issued. -/
theorem at32_settimeout_failure_atomic (cfg : Config) (priv : at32_lowerhalf_s)
    (timeout : Nat) (o : Outcome) (hE : cfg.ERANGE ≠ 0) (hB : cfg.EBUSY ≠ 0)
    (h : at32_settimeout cfg priv timeout = some o)
    (hfail : o.ret = -(cfg.ERANGE : Int) ∨ o.ret = -(cfg.EBUSY : Int)) :
    o.priv = priv ∧ o.events = [] ∧ regwrites o.events = [] := by
  by_cases hin : timeout < 1 ∨ timeout > IWDG_MAXTIMEOUT cfg
  · rw [at32_settimeout_of_out_of_range cfg priv timeout hin] at h
    cases h
    exact ⟨rfl, rfl, rfl⟩
  · cases hs : priv.started with
    | true =>
      rw [at32_settimeout_of_started cfg priv timeout hin hs] at h
      cases h
      exact ⟨rfl, rfl, rfl⟩
    | false =>
      rw [at32_settimeout_of_accepted cfg priv timeout hin hs] at h
      simp only at h
      split at h
      · cases h
      · cases h
        simp only [OK] at hfail
        omega

/-- C3 on two failing calls: an out-of-range timeout on the example device and
an in-range timeout on the started device. -/
theorem at32_settimeout_failure_atomic_witness :
    (at32_settimeout exampleConfig exampleDevice 0 =
        some { ret := -34, priv := exampleDevice, events := [] }) ∧
    (at32_settimeout exampleConfig startedDevice 6000 =
        some { ret := -16, priv := startedDevice, events := [] }) ∧
    (({ ret := -34, priv := exampleDevice, events := [] } : Outcome).priv = exampleDevice ∧
      ({ ret := -34, priv := exampleDevice, events := [] } : Outcome).events = [] ∧
      regwrites ({ ret := -34, priv := exampleDevice, events := [] } : Outcome).events = []) :=
  ⟨by decide, by decide,
    at32_settimeout_failure_atomic exampleConfig exampleDevice 0
      { ret := -34, priv := exampleDevice, events := [] } (by decide) (by decide)
      (by decide) (Or.inl (by decide))⟩

/-! ## The prescaler search -/

/-- What the prescaler search returns when entered at `k`: a code between `k`
and `6`, the counter frequency and reload count of that code, the reason of the
`break`, and the fact that every code passed over had a reload count above
`IWDG_RLR_MAX`. -/
theorem at32_settimeout_loop_spec (cfg : Config) (lsifreq timeout : Nat) :
    ∀ (n k : Nat) (hk : k ≤ 6), 6 - k = n →
      k ≤ (at32_settimeout_loop cfg lsifreq timeout k hk).prescaler ∧
      (at32_settimeout_loop cfg lsifreq timeout k hk).prescaler ≤ 6 ∧
      (at32_settimeout_loop cfg lsifreq timeout k hk).fiwdg =
        lsifreq >>> ((at32_settimeout_loop cfg lsifreq timeout k hk).prescaler + 2) ∧
      (at32_settimeout_loop cfg lsifreq timeout k hk).reload =
        (at32_settimeout_loop cfg lsifreq timeout k hk).fiwdg * timeout % 2 ^ 64 / 1000 ∧
      ((at32_settimeout_loop cfg lsifreq timeout k hk).reload ≤ cfg.IWDG_RLR_MAX ∨
        (at32_settimeout_loop cfg lsifreq timeout k hk).prescaler = 6) ∧
      ∀ q, k ≤ q → q < (at32_settimeout_loop cfg lsifreq timeout k hk).prescaler →
        ¬ ((lsifreq >>> (q + 2)) * timeout % 2 ^ 64 / 1000 ≤ cfg.IWDG_RLR_MAX) := by
  intro n
  induction n with
  | zero =>
    intro k hk hn
    have hk6 : k = 6 := by omega
    subst hk6
    rw [at32_settimeout_loop]
    simp only [or_true, dite_true, true_and, le_refl]
    intro q h1 h2
    omega
  | succ n ih =>
    intro k hk hn
    rw [at32_settimeout_loop]
    split
    · rename_i hbreak
      refine ⟨le_refl _, hk, rfl, rfl, hbreak, ?_⟩
      intro q h1 h2
      have h3 : q < k := h2
      exact absurd h1 (Nat.not_le.mpr h3)
    · rename_i hbreak
      have hk1 : k + 1 ≤ 6 := by omega
      obtain ⟨a1, a2, a3, a4, a5, a6⟩ := ih (k + 1) hk1 (by omega)
      refine ⟨by omega, a2, a3, a4, a5, ?_⟩
      intro q h1 h2
      by_cases hq : q = k
      · subst hq
        intro hfit
        exact hbreak (Or.inl hfit)
      · exact a6 q (by omega) h2

/-- The shape of every successful `at32_settimeout`: the device was not
started, the timeout in range, and the new state holds the selected prescaler
`p`, the reload count `r` clamped to `IWDG_RLR_MAX`, and the timeout computed
back from the clamped count and the counter frequency `f`, which is not zero. -/
theorem at32_settimeout_accepted_shape (cfg : Config) (priv : at32_lowerhalf_s)
    (timeout : Nat) (o : Outcome)
    (hs : priv.started = false) (h1 : 1 ≤ timeout)
    (h2 : timeout ≤ IWDG_MAXTIMEOUT cfg)
    (h : at32_settimeout cfg priv timeout = some o) :
    ∃ p f r c, p ≤ 6 ∧ f = priv.lsifreq >>> (p + 2) ∧ f ≠ 0 ∧
      r = f * timeout % 2 ^ 64 / 1000 ∧
      (r ≤ cfg.IWDG_RLR_MAX ∨ p = 6) ∧
      (∀ q, q < p →
        ¬ ((priv.lsifreq >>> (q + 2)) * timeout % 2 ^ 64 / 1000 ≤ cfg.IWDG_RLR_MAX)) ∧
      c = min r cfg.IWDG_RLR_MAX ∧
      o = { ret := OK
            priv :=
              { priv with
                timeout := (1000 * (c % 2 ^ 32)) % 2 ^ 32 / f
                prescaler := p
                reload := c % 2 ^ 16 }
            events := [] } := by
  have hin : ¬ (timeout < 1 ∨ timeout > IWDG_MAXTIMEOUT cfg) := by omega
  rw [at32_settimeout_of_accepted cfg priv timeout hin hs] at h
  obtain ⟨a1, a2, a3, a4, a5, a6⟩ :=
    at32_settimeout_loop_spec cfg priv.lsifreq timeout 6 0 (Nat.zero_le 6) rfl
  generalize at32_settimeout_loop cfg priv.lsifreq timeout 0 (Nat.zero_le 6) = sel at *
  simp only at h
  split at h
  · cases h
  · rename_i hf
    refine ⟨sel.prescaler, sel.fiwdg, sel.reload, min sel.reload cfg.IWDG_RLR_MAX,
      a2, a3, hf, a4, a5, fun q hq => a6 q (Nat.zero_le q) hq, rfl, ?_⟩
    have hp : sel.prescaler % 2 ^ 8 = sel.prescaler := Nat.mod_eq_of_lt (by omega)
    have hc : (if sel.reload > cfg.IWDG_RLR_MAX then cfg.IWDG_RLR_MAX else sel.reload) =
        min sel.reload cfg.IWDG_RLR_MAX := by
      split <;> omega
    rw [hp, hc] at h
    exact (Option.some.inj h).symm

/-- The 64-bit product `(uint64_t)fiwdg * (uint64_t)timeout` of two 32-bit
values does not wrap. -/
theorem fiwdg_mul_timeout_mod (lsifreq timeout s : Nat) (hl : lsifreq < 2 ^ 32)
    (ht : timeout < 2 ^ 32) :
    (lsifreq >>> s) * timeout % 2 ^ 64 = (lsifreq >>> s) * timeout := by
  apply Nat.mod_eq_of_lt
  have h1 : lsifreq >>> s ≤ lsifreq := by
    rw [Nat.shiftRight_eq_div_pow]
    exact Nat.div_le_self _ _
  have h2 : (lsifreq >>> s) * timeout ≤ lsifreq * timeout := Nat.mul_le_mul_right _ h1
  have h3 : lsifreq * timeout < 2 ^ 32 * 2 ^ 32 := Nat.mul_lt_mul'' hl ht
  have h4 : (2 : Nat) ^ 32 * 2 ^ 32 = 2 ^ 64 := by norm_num
  omega

/-- The timeout computed back from a clamped reload count never exceeds the
request, whatever the widths involved. -/
theorem timeout_back_le (f t m : Nat) (hf : f ≠ 0) :
    (1000 * (min (f * t % 2 ^ 64 / 1000) m % 2 ^ 32)) % 2 ^ 32 / f ≤ t := by
  have hfpos : 0 < f := Nat.pos_of_ne_zero hf
  have h1 : (1000 * (min (f * t % 2 ^ 64 / 1000) m % 2 ^ 32)) % 2 ^ 32 ≤
      1000 * (min (f * t % 2 ^ 64 / 1000) m % 2 ^ 32) := Nat.mod_le _ _
  have h2 : min (f * t % 2 ^ 64 / 1000) m % 2 ^ 32 ≤ min (f * t % 2 ^ 64 / 1000) m :=
    Nat.mod_le _ _
  have h3 : min (f * t % 2 ^ 64 / 1000) m ≤ f * t % 2 ^ 64 / 1000 := Nat.min_le_left _ _
  have h4 : 1000 * (f * t % 2 ^ 64 / 1000) ≤ f * t % 2 ^ 64 := Nat.mul_div_le _ _
  have h5 : f * t % 2 ^ 64 ≤ f * t := Nat.mod_le _ _
  have h6 : (1000 * (min (f * t % 2 ^ 64 / 1000) m % 2 ^ 32)) % 2 ^ 32 ≤ f * t := by
    omega
  calc (1000 * (min (f * t % 2 ^ 64 / 1000) m % 2 ^ 32)) % 2 ^ 32 / f
      ≤ f * t / f := Nat.div_le_div_right h6
    _ = t := Nat.mul_div_cancel_left t hfpos

/-- Without clamping, the timeout computed back from the reload count is short
of the request by at most `ceil(1000 / f)`, written `(1000 + f - 1) / f`. -/
theorem timeout_back_within (f t : Nat) (hf : 0 < f) :
    t - 1000 * (f * t / 1000) / f ≤ (1000 + f - 1) / f := by
  have ha : 1000 * (f * t / 1000) < f * (1000 * (f * t / 1000) / f + 1) :=
    Nat.lt_mul_div_succ _ hf
  have hr : f * t < 1000 * (f * t / 1000 + 1) := Nat.lt_mul_div_succ _ (by norm_num)
  have hc : 1000 + f - 1 < f * ((1000 + f - 1) / f + 1) := Nat.lt_mul_div_succ _ hf
  generalize f * t / 1000 = r at ha hr ⊢
  generalize 1000 * r / f = a at ha ⊢
  generalize (1000 + f - 1) / f = c at hc ⊢
  by_contra hlt
  have h1 : a + c + 1 ≤ t := by omega
  have h2 : f * (a + c + 1) ≤ f * t := Nat.mul_le_mul_left f h1
  have e1 : f * (a + c + 1) = f * a + f * c + f := by ring
  have e2 : f * (a + 1) = f * a + f := by ring
  have e3 : f * (c + 1) = f * c + f := by ring
  rw [e1] at h2
  rw [e2] at ha
  rw [e3] at hc
  omega

/-- A call of `at32_settimeout` that returns `OK`, the errno numbers being
positive, was made on a device that is not started with a timeout in range. -/
theorem at32_settimeout_ok_inv (cfg : Config) (priv : at32_lowerhalf_s)
    (timeout : Nat) (o : Outcome) (hE : cfg.ERANGE ≠ 0) (hB : cfg.EBUSY ≠ 0)
    (h : at32_settimeout cfg priv timeout = some o) (hret : o.ret = OK) :
    priv.started = false ∧ 1 ≤ timeout ∧ timeout ≤ IWDG_MAXTIMEOUT cfg := by
  by_cases hin : timeout < 1 ∨ timeout > IWDG_MAXTIMEOUT cfg
  · rw [at32_settimeout_of_out_of_range cfg priv timeout hin] at h
    cases h
    simp only [OK] at hret
    omega
  · cases hs : priv.started with
    | true =>
      rw [at32_settimeout_of_started cfg priv timeout hin hs] at h
      cases h
      simp only [OK] at hret
      omega
    | false => exact ⟨rfl, by omega, by omega⟩

/-- Every successful `at32_settimeout` stores a timeout that is at most the
requested one. -/
theorem at32_settimeout_achieved_le (cfg : Config) (priv : at32_lowerhalf_s)
    (timeout : Nat) (o : Outcome)
    (hs : priv.started = false) (h1 : 1 ≤ timeout)
    (h2 : timeout ≤ IWDG_MAXTIMEOUT cfg)
    (h : at32_settimeout cfg priv timeout = some o) :
    o.priv.timeout ≤ timeout := by
  obtain ⟨p, f, r, c, -, -, hf0, hr, -, -, hc, ho⟩ :=
    at32_settimeout_accepted_shape cfg priv timeout o hs h1 h2 h
  subst ho hc hr
  exact timeout_back_le f timeout cfg.IWDG_RLR_MAX hf0

/-- The example device accepts `5000` ms: prescaler code 4 (divider 64),
reload 2500, achieved timeout 5000. -/
theorem at32_settimeout_example_5000 :
    at32_settimeout exampleConfig exampleDevice 5000 =
      some { ret := OK, priv := configuredDevice, events := [] } := by
  simp [at32_settimeout, at32_settimeout_loop, exampleConfig, exampleDevice,
    configuredDevice, IWDG_MAXTIMEOUT, IWDG_FMIN, OK]

/-- The example device accepts `1000` ms with prescaler code 1: code 0 would
need a reload of 8000. -/
theorem at32_settimeout_example_1000 :
    at32_settimeout exampleConfig exampleDevice 1000 =
      some { ret := OK
             priv := { exampleDevice with timeout := 1000, prescaler := 1, reload := 4000 }
             events := [] } := by
  simp [at32_settimeout, at32_settimeout_loop, exampleConfig, exampleDevice,
    IWDG_MAXTIMEOUT, IWDG_FMIN, OK]

/-- The example device accepts `4999` ms and achieves `4998` ms. -/
theorem at32_settimeout_example_4999 :
    at32_settimeout exampleConfig exampleDevice 4999 =
      some { ret := OK
             priv := { exampleDevice with timeout := 4998, prescaler := 4, reload := 2499 }
             events := [] } := by
  simp [at32_settimeout, at32_settimeout_loop, exampleConfig, exampleDevice,
    IWDG_MAXTIMEOUT, IWDG_FMIN, OK]

/-- A device calibrated at 40 kHz accepts `35000` ms with the reload clamped to
4095 at prescaler code 6, which achieves `26250` ms. -/
theorem at32_settimeout_example_clamped :
    at32_settimeout exampleConfig { exampleDevice with lsifreq := 40000 } 35000 =
      some { ret := OK
             priv := { exampleDevice with
                       lsifreq := 40000, timeout := 26250, prescaler := 6, reload := 4095 }
             events := [] } := by
  simp [at32_settimeout, at32_settimeout_loop, exampleConfig, exampleDevice,
    IWDG_MAXTIMEOUT, IWDG_FMIN, OK]

/-! ## Selected prescaler, reload and achieved timeout -/

/-- C4: on a device that is not started, for an in-range timeout, the prescaler
code `p` stored by a successful `at32_settimeout` is at most 6 and is the least
code whose reload count `floor((lsifreq >> (p+2)) * timeout / 1000)` is at most
`IWDG_RLR_MAX` when some code in `0..6` has that property, and is 6 when none
has; `lsifreq >> (p+2)` is `lsifreq` divided by the divider `2^(p+2)`. -/
theorem at32_settimeout_prescaler_least (cfg : Config) (priv : at32_lowerhalf_s)
    (timeout : Nat) (o : Outcome)
    (hl : priv.lsifreq < 2 ^ 32) (ht : timeout < 2 ^ 32)
    (hs : priv.started = false) (h1 : 1 ≤ timeout)
    (h2 : timeout ≤ IWDG_MAXTIMEOUT cfg)
    (h : at32_settimeout cfg priv timeout = some o) :
    o.ret = OK ∧ o.priv.prescaler ≤ 6 ∧
    ((∃ q, q ≤ 6 ∧ (priv.lsifreq >>> (q + 2)) * timeout / 1000 ≤ cfg.IWDG_RLR_MAX) →
      (priv.lsifreq >>> (o.priv.prescaler + 2)) * timeout / 1000 ≤ cfg.IWDG_RLR_MAX ∧
      ∀ q, (priv.lsifreq >>> (q + 2)) * timeout / 1000 ≤ cfg.IWDG_RLR_MAX →
        o.priv.prescaler ≤ q) ∧
    ((¬ ∃ q, q ≤ 6 ∧ (priv.lsifreq >>> (q + 2)) * timeout / 1000 ≤ cfg.IWDG_RLR_MAX) →
      o.priv.prescaler = 6) ∧
    (∀ q, priv.lsifreq >>> (q + 2) = priv.lsifreq / 2 ^ (q + 2)) := by
  obtain ⟨p, f, r, c, hp, hf, -, hr, hbrk, hleast, -, ho⟩ :=
    at32_settimeout_accepted_shape cfg priv timeout o hs h1 h2 h
  have hmod := fun q => fiwdg_mul_timeout_mod priv.lsifreq timeout (q + 2) hl ht
  subst ho hf
  rw [hmod p] at hr
  simp only [hmod] at hleast
  subst hr
  have hnot : ¬ ((priv.lsifreq >>> (p + 2)) * timeout / 1000 ≤ cfg.IWDG_RLR_MAX) →
      p = 6 := fun hn => hbrk.resolve_left hn
  refine ⟨rfl, hp, ?_, ?_, fun q => Nat.shiftRight_eq_div_pow _ _⟩
  · rintro ⟨q, hq6, hq⟩
    have hfit : (priv.lsifreq >>> (p + 2)) * timeout / 1000 ≤ cfg.IWDG_RLR_MAX := by
      by_contra hn
      have hp6 := hnot hn
      rcases Nat.lt_or_ge q p with hlt | hge
      · exact hleast q hlt hq
      · have hqp : q = p := by omega
        subst hqp
        exact hn hq
    refine ⟨hfit, ?_⟩
    intro q' hq'
    by_contra hlt
    exact hleast q' (Nat.lt_of_not_le hlt) hq'
  · intro hnone
    apply hnot
    intro hfit
    exact hnone ⟨p, hp, hfit⟩

/-- C4 on the example device with `timeout = 1000`: code 0 needs a reload of
8000, code 1 needs 4000, so code 1 is stored. -/
theorem at32_settimeout_prescaler_least_witness :
    at32_settimeout exampleConfig exampleDevice 1000 =
      some { ret := OK
             priv := { exampleDevice with timeout := 1000, prescaler := 1, reload := 4000 }
             events := [] } ∧
    ¬ ((exampleDevice.lsifreq >>> (0 + 2)) * 1000 / 1000 ≤ exampleConfig.IWDG_RLR_MAX) ∧
    (exampleDevice.lsifreq >>> (1 + 2)) * 1000 / 1000 ≤ exampleConfig.IWDG_RLR_MAX ∧
    (∀ q, (exampleDevice.lsifreq >>> (q + 2)) * 1000 / 1000 ≤ exampleConfig.IWDG_RLR_MAX →
      1 ≤ q) :=
  ⟨at32_settimeout_example_1000, by decide, by decide,
    ((at32_settimeout_prescaler_least exampleConfig exampleDevice 1000 _ (by decide)
      (by decide) rfl (by decide) (by decide) at32_settimeout_example_1000).2.2.1
      ⟨1, by decide, by decide⟩).2⟩

/-- C5: after a successful `at32_settimeout(timeout)` that selected prescaler
`p`, the counter frequency `fiwdg = lsifreq >> (p+2)` is not zero, the stored
reload is `min(floor(fiwdg * timeout / 1000), IWDG_RLR_MAX)` (so at most
`IWDG_RLR_MAX`, and `p ≤ 6`), the stored timeout is
`floor(1000 * reload / fiwdg)`, and `at32_getstatus` at any later tick returns
`OK`, reports exactly the stored timeout and leaves the state alone.  The
reload register maximum is taken to fit the `uint16_t` field. -/
theorem at32_settimeout_reload_timeout (cfg : Config) (priv : at32_lowerhalf_s)
    (timeout now : Nat) (o : Outcome)
    (hmax : cfg.IWDG_RLR_MAX < 2 ^ 16)
    (hl : priv.lsifreq < 2 ^ 32) (ht : timeout < 2 ^ 32)
    (hs : priv.started = false) (h1 : 1 ≤ timeout)
    (h2 : timeout ≤ IWDG_MAXTIMEOUT cfg)
    (h : at32_settimeout cfg priv timeout = some o) :
    o.ret = OK ∧
    priv.lsifreq >>> (o.priv.prescaler + 2) ≠ 0 ∧
    o.priv.reload =
      min ((priv.lsifreq >>> (o.priv.prescaler + 2)) * timeout / 1000) cfg.IWDG_RLR_MAX ∧
    o.priv.reload ≤ cfg.IWDG_RLR_MAX ∧
    o.priv.prescaler ≤ 6 ∧
    o.priv.timeout = 1000 * o.priv.reload / (priv.lsifreq >>> (o.priv.prescaler + 2)) ∧
    (at32_getstatus cfg o.priv now).2.timeout = o.priv.timeout ∧
    (at32_getstatus cfg o.priv now).1.ret = OK ∧
    (at32_getstatus cfg o.priv now).1.priv = o.priv := by
  obtain ⟨p, f, r, c, hp, hf, hf0, hr, -, -, hc, ho⟩ :=
    at32_settimeout_accepted_shape cfg priv timeout o hs h1 h2 h
  have hmod := fiwdg_mul_timeout_mod priv.lsifreq timeout (p + 2) hl ht
  subst ho hf
  rw [hmod] at hr
  subst hr
  have hcle : c ≤ cfg.IWDG_RLR_MAX := by
    rw [hc]
    exact Nat.min_le_right _ _
  have hc32 : c % 2 ^ 32 = c := Nat.mod_eq_of_lt (by omega)
  have hc16 : c % 2 ^ 16 = c := Nat.mod_eq_of_lt (by omega)
  have hm : 1000 * c % 2 ^ 32 = 1000 * c := Nat.mod_eq_of_lt (by omega)
  refine ⟨rfl, hf0, ?_, ?_, hp, ?_, rfl, rfl, rfl⟩
  · show c % 2 ^ 16 = _
    rw [hc16]
    exact hc
  · show c % 2 ^ 16 ≤ _
    rw [hc16]
    exact hcle
  · show 1000 * (c % 2 ^ 32) % 2 ^ 32 / _ = 1000 * (c % 2 ^ 16) / _
    rw [hc32, hc16, hm]

/-- C5 on a device calibrated at 40 kHz and `timeout = 35000`: prescaler 6,
`fiwdg = 156`, the reload `floor(156 * 35000 / 1000) = 5460` is clamped to
4095, and the stored timeout is `floor(1000 * 4095 / 156) = 26250`. -/
theorem at32_settimeout_reload_timeout_witness :
    at32_settimeout exampleConfig { exampleDevice with lsifreq := 40000 } 35000 =
      some { ret := OK
             priv := { exampleDevice with
                       lsifreq := 40000, timeout := 26250, prescaler := 6, reload := 4095 }
             events := [] } ∧
    (4095 : Nat) = min ((40000 >>> (6 + 2)) * 35000 / 1000) exampleConfig.IWDG_RLR_MAX ∧
    (26250 : Nat) = 1000 * 4095 / (40000 >>> (6 + 2)) ∧
    (at32_getstatus exampleConfig
      { exampleDevice with
        lsifreq := 40000, timeout := 26250, prescaler := 6, reload := 4095 } 123).2.timeout =
      26250 :=
  ⟨at32_settimeout_example_clamped,
    (at32_settimeout_reload_timeout exampleConfig { exampleDevice with lsifreq := 40000 }
      35000 123 _ (by decide) (by decide) (by decide) rfl (by decide) (by decide)
      at32_settimeout_example_clamped).2.2.1,
    (at32_settimeout_reload_timeout exampleConfig { exampleDevice with lsifreq := 40000 }
      35000 123 _ (by decide) (by decide) (by decide) rfl (by decide) (by decide)
      at32_settimeout_example_clamped).2.2.2.2.2.1,
    (at32_settimeout_reload_timeout exampleConfig { exampleDevice with lsifreq := 40000 }
      35000 123 _ (by decide) (by decide) (by decide) rfl (by decide) (by decide)
      at32_settimeout_example_clamped).2.2.2.2.2.2.1⟩

/-- C6: on a device that is not started, for an in-range timeout `t` whose
reload count at the selected prescaler is not clamped
(`floor(fiwdg * t / 1000) ≤ IWDG_RLR_MAX` with `fiwdg = lsifreq >> (p+2)`), a
successful `at32_settimeout` has `fiwdg > 0` and stores an achieved timeout `a`
with `a ≤ t` and `|t - a| ≤ ceil(1000 / fiwdg)`, one reload tick in
milliseconds; `ceil(1000 / fiwdg)` is written `(1000 + fiwdg - 1) / fiwdg`.
`1000 * IWDG_RLR_MAX` is taken to fit 32 bits. -/
theorem at32_settimeout_within_one_tick (cfg : Config) (priv : at32_lowerhalf_s)
    (timeout : Nat) (o : Outcome)
    (hmax : 1000 * cfg.IWDG_RLR_MAX < 2 ^ 32)
    (hl : priv.lsifreq < 2 ^ 32) (ht : timeout < 2 ^ 32)
    (hs : priv.started = false) (h1 : 1 ≤ timeout)
    (h2 : timeout ≤ IWDG_MAXTIMEOUT cfg)
    (h : at32_settimeout cfg priv timeout = some o)
    (hfit : (priv.lsifreq >>> (o.priv.prescaler + 2)) * timeout / 1000 ≤
      cfg.IWDG_RLR_MAX) :
    0 < priv.lsifreq >>> (o.priv.prescaler + 2) ∧
    o.priv.timeout ≤ timeout ∧
    timeout - o.priv.timeout ≤
      (1000 + (priv.lsifreq >>> (o.priv.prescaler + 2)) - 1) /
        (priv.lsifreq >>> (o.priv.prescaler + 2)) ∧
    Int.natAbs ((timeout : Int) - (o.priv.timeout : Int)) ≤
      (1000 + (priv.lsifreq >>> (o.priv.prescaler + 2)) - 1) /
        (priv.lsifreq >>> (o.priv.prescaler + 2)) := by
  have hle := at32_settimeout_achieved_le cfg priv timeout o hs h1 h2 h
  obtain ⟨p, f, r, c, -, hf, hf0, hr, -, -, hc, ho⟩ :=
    at32_settimeout_accepted_shape cfg priv timeout o hs h1 h2 h
  have hmod := fiwdg_mul_timeout_mod priv.lsifreq timeout (p + 2) hl ht
  subst ho
  rw [← hf] at hmod
  rw [hmod] at hr
  have hfit' : f * timeout / 1000 ≤ cfg.IWDG_RLR_MAX := by
    rw [hf]
    exact hfit
  have hcr : c = f * timeout / 1000 := by
    rw [hc, hr]
    exact Nat.min_eq_left hfit'
  have hc32 : c % 2 ^ 32 = c := Nat.mod_eq_of_lt (by omega)
  have hm : 1000 * c % 2 ^ 32 = 1000 * c := Nat.mod_eq_of_lt (by omega)
  have hfpos : 0 < f := Nat.pos_of_ne_zero hf0
  have hwithin := timeout_back_within f timeout hfpos
  have ha : (1000 * (c % 2 ^ 32)) % 2 ^ 32 / f = 1000 * (f * timeout / 1000) / f := by
    rw [hc32, hm, hcr]
  have hle' : (1000 * (c % 2 ^ 32)) % 2 ^ 32 / f ≤ timeout := hle
  show 0 < priv.lsifreq >>> (p + 2) ∧
    (1000 * (c % 2 ^ 32)) % 2 ^ 32 / f ≤ timeout ∧
    timeout - (1000 * (c % 2 ^ 32)) % 2 ^ 32 / f ≤
      (1000 + (priv.lsifreq >>> (p + 2)) - 1) / (priv.lsifreq >>> (p + 2)) ∧
    Int.natAbs ((timeout : Int) - (((1000 * (c % 2 ^ 32)) % 2 ^ 32 / f : Nat) : Int)) ≤
      (1000 + (priv.lsifreq >>> (p + 2)) - 1) / (priv.lsifreq >>> (p + 2))
  rw [← hf, ha]
  rw [ha] at hle'
  refine ⟨hfpos, hle', hwithin, ?_⟩
  omega

/-- C6 on the example of the specification: `lsifreq = 32000` and
`t = 5000` ms give prescaler code 4 (divider 64, `fiwdg = 500`), reload 2500
and the achieved timeout 5000, within `ceil(1000 / 500) = 2` ms of the
request. -/
theorem at32_settimeout_within_one_tick_witness :
    at32_settimeout exampleConfig exampleDevice 5000 =
      some { ret := OK
             priv := { exampleDevice with timeout := 5000, prescaler := 4, reload := 2500 }
             events := [] } ∧
    exampleDevice.lsifreq = 32000 ∧
    exampleDevice.lsifreq >>> (4 + 2) = 500 ∧
    (500 : Nat) * 5000 / 1000 = 2500 ∧
    (1000 + (exampleDevice.lsifreq >>> (4 + 2)) - 1) / (exampleDevice.lsifreq >>> (4 + 2)) = 2 ∧
    Int.natAbs (((5000 : Nat) : Int) - ((5000 : Nat) : Int)) ≤
      (1000 + (exampleDevice.lsifreq >>> (4 + 2)) - 1) / (exampleDevice.lsifreq >>> (4 + 2)) :=
  ⟨at32_settimeout_example_5000, rfl, by decide, by decide, by decide,
    (at32_settimeout_within_one_tick exampleConfig exampleDevice 5000
      { ret := OK, priv := configuredDevice, events := [] }
      (by decide) (by decide) (by decide) rfl (by decide) (by decide)
      at32_settimeout_example_5000 (by decide)).2.2.2⟩

/-- C7 fails as stated: there is no configuration, device, timeout and tick
for which `at32_settimeout` returns `OK` (the errno numbers being positive)
and `at32_getstatus` then reports a configured timeout greater than the
request. -/
theorem no_configured_timeout_above_request :
    ¬ ∃ (cfg : Config) (priv : at32_lowerhalf_s) (t now : Nat) (o : Outcome),
      cfg.ERANGE ≠ 0 ∧ cfg.EBUSY ≠ 0 ∧
      at32_settimeout cfg priv t = some o ∧ o.ret = OK ∧
      (at32_getstatus cfg o.priv now).2.timeout > t := by
  rintro ⟨cfg, priv, t, now, o, hE, hB, h, hret, hgt⟩
  obtain ⟨hs, h1, h2⟩ := at32_settimeout_ok_inv cfg priv t o hE hB h hret
  have hle := at32_settimeout_achieved_le cfg priv t o hs h1 h2 h
  have hst : (at32_getstatus cfg o.priv now).2.timeout = o.priv.timeout := rfl
  rw [hst] at hgt
  omega

/-- C7, amended: for every calibrated frequency and every in-range timeout `t`,
after `at32_settimeout(t)` has succeeded on a device that is not started,
`at32_getstatus` reports the stored timeout, and that configured timeout is at
most `t`. -/
theorem at32_settimeout_configured_le_request (cfg : Config)
    (priv : at32_lowerhalf_s) (t now : Nat) (o : Outcome)
    (hs : priv.started = false) (h1 : 1 ≤ t) (h2 : t ≤ IWDG_MAXTIMEOUT cfg)
    (h : at32_settimeout cfg priv t = some o) :
    o.ret = OK ∧
    (at32_getstatus cfg o.priv now).2.timeout = o.priv.timeout ∧
    (at32_getstatus cfg o.priv now).2.timeout ≤ t := by
  have hle := at32_settimeout_achieved_le cfg priv t o hs h1 h2 h
  obtain ⟨p, f, r, c, -, -, -, -, -, -, -, ho⟩ :=
    at32_settimeout_accepted_shape cfg priv t o hs h1 h2 h
  refine ⟨?_, rfl, hle⟩
  rw [ho]

/-- The amended C7 on the example device: a request of 4999 ms is accepted and
the status reports 4998 ms. -/
theorem at32_settimeout_configured_le_request_witness :
    at32_settimeout exampleConfig exampleDevice 4999 =
      some { ret := OK
             priv := { exampleDevice with timeout := 4998, prescaler := 4, reload := 2499 }
             events := [] } ∧
    (at32_getstatus exampleConfig
      { exampleDevice with timeout := 4998, prescaler := 4, reload := 2499 } 0).2.timeout =
        4998 ∧
    (at32_getstatus exampleConfig
      { exampleDevice with timeout := 4998, prescaler := 4, reload := 2499 } 0).2.timeout ≤
        4999 :=
  ⟨at32_settimeout_example_4999, rfl,
    (at32_settimeout_configured_le_request exampleConfig exampleDevice 4999 0 _ rfl
      (by decide) (by decide) at32_settimeout_example_4999).2.2⟩

/-! ## `at32_stop` and `at32_start` -/

/-- C8: for every device state `at32_stop` returns `-ENOSYS`, issues no event
(so writes no register) and returns the device state as it was; a started
device remains started. -/
theorem at32_stop_not_supported (cfg : Config) (priv : at32_lowerhalf_s) :
    (at32_stop cfg priv).ret = -(cfg.ENOSYS : Int) ∧
    (at32_stop cfg priv).events = [] ∧
    regwrites (at32_stop cfg priv).events = [] ∧
    (at32_stop cfg priv).priv = priv ∧
    (priv.started = true → (at32_stop cfg priv).priv.started = true) :=
  ⟨rfl, rfl, rfl, rfl, fun h => h⟩

/-- C8 on the started example device: `-38` is returned and the device is
still started. -/
theorem at32_stop_not_supported_witness :
    (at32_stop exampleConfig startedDevice).ret = -38 ∧
    (at32_stop exampleConfig startedDevice).priv.started = true :=
  ⟨(at32_stop_not_supported exampleConfig startedDevice).1,
    (at32_stop_not_supported exampleConfig startedDevice).2.2.2.2 rfl⟩

/-- Converting the operand of a left shift to 16 bits first does not change
the 16-bit result. -/
theorem shiftLeft_mod_two_pow_16 (x s : Nat) :
    ((x % 2 ^ 16) <<< s) % 2 ^ 16 = (x <<< s) % 2 ^ 16 := by
  rw [Nat.shiftLeft_eq, Nat.shiftLeft_eq, Nat.mul_mod (x % 2 ^ 16), Nat.mod_mod,
    ← Nat.mul_mod]

/-- C9: on a device that is not started `at32_start` returns `OK` and its
register writes are, in this order, `KR <- IWDG_KR_KEY_ENABLE`,
`PR <- prescaler << IWDG_PR_SHIFT`, `RLR <- reload`, `KR <- IWDG_KR_KEY_RELOAD`,
`KR <- IWDG_KR_KEY_START` (each value as the 16 bits `putreg16` writes, which
are the values themselves when they fit 16 bits) with the stored prescaler and
reload; afterwards `started` is true, `lastreset` is the current tick (as a
`uint32_t`), and `timeout`, `prescaler`, `reload` and `lsifreq` are
unchanged. -/
theorem at32_start_of_not_started (cfg : Config) (priv : at32_lowerhalf_s)
    (now : Nat) (hs : priv.started = false) :
    (at32_start cfg priv now).ret = OK ∧
    regwrites (at32_start cfg priv now).events =
      [(cfg.IWDG_KR_KEY_ENABLE % 2 ^ 16, cfg.AT32_IWDG_KR),
       ((priv.prescaler <<< cfg.IWDG_PR_SHIFT) % 2 ^ 16, cfg.AT32_IWDG_PR),
       (priv.reload % 2 ^ 16, cfg.AT32_IWDG_RLR),
       (cfg.IWDG_KR_KEY_RELOAD % 2 ^ 16, cfg.AT32_IWDG_KR),
       (cfg.IWDG_KR_KEY_START % 2 ^ 16, cfg.AT32_IWDG_KR)] ∧
    (at32_start cfg priv now).priv.started = true ∧
    (at32_start cfg priv now).priv.lastreset = now % 2 ^ 32 ∧
    (now < 2 ^ 32 → (at32_start cfg priv now).priv.lastreset = now) ∧
    (at32_start cfg priv now).priv.timeout = priv.timeout ∧
    (at32_start cfg priv now).priv.prescaler = priv.prescaler ∧
    (at32_start cfg priv now).priv.reload = priv.reload ∧
    (at32_start cfg priv now).priv.lsifreq = priv.lsifreq ∧
    (cfg.IWDG_KR_KEY_ENABLE < 2 ^ 16 → cfg.IWDG_KR_KEY_RELOAD < 2 ^ 16 →
      cfg.IWDG_KR_KEY_START < 2 ^ 16 → priv.prescaler <<< cfg.IWDG_PR_SHIFT < 2 ^ 16 →
      priv.reload < 2 ^ 16 →
      regwrites (at32_start cfg priv now).events =
        [(cfg.IWDG_KR_KEY_ENABLE, cfg.AT32_IWDG_KR),
         (priv.prescaler <<< cfg.IWDG_PR_SHIFT, cfg.AT32_IWDG_PR),
         (priv.reload, cfg.AT32_IWDG_RLR),
         (cfg.IWDG_KR_KEY_RELOAD, cfg.AT32_IWDG_KR),
         (cfg.IWDG_KR_KEY_START, cfg.AT32_IWDG_KR)]) := by
  have hw := shiftLeft_mod_two_pow_16 priv.prescaler cfg.IWDG_PR_SHIFT
  have hr : priv.reload % 2 ^ 16 % 2 ^ 16 = priv.reload % 2 ^ 16 := Nat.mod_mod _ _
  have hwrites : regwrites (at32_start cfg priv now).events =
      [(cfg.IWDG_KR_KEY_ENABLE % 2 ^ 16, cfg.AT32_IWDG_KR),
       ((priv.prescaler <<< cfg.IWDG_PR_SHIFT) % 2 ^ 16, cfg.AT32_IWDG_PR),
       (priv.reload % 2 ^ 16, cfg.AT32_IWDG_RLR),
       (cfg.IWDG_KR_KEY_RELOAD % 2 ^ 16, cfg.AT32_IWDG_KR),
       (cfg.IWDG_KR_KEY_START % 2 ^ 16, cfg.AT32_IWDG_KR)] := by
    simp only [at32_start, hs, at32_setprescaler, at32_putreg, regwrites,
      List.cons_append, List.nil_append, Bool.not_false, if_true, hw, hr]
  refine ⟨?_, hwrites, ?_, ?_, ?_, ?_, ?_, ?_, ?_, ?_⟩
  · simp [at32_start, hs]
  · simp [at32_start, hs]
  · simp [at32_start, hs]
  · intro hnow
    have hmod : now % 2 ^ 32 = now := Nat.mod_eq_of_lt hnow
    simp only [at32_start, hs, Bool.not_false, if_true, hmod]
  · simp [at32_start, hs]
  · simp [at32_start, hs]
  · simp [at32_start, hs]
  · simp [at32_start, hs]
  · intro k1 k2 k3 k4 k5
    rw [hwrites, Nat.mod_eq_of_lt k1, Nat.mod_eq_of_lt k2, Nat.mod_eq_of_lt k3,
      Nat.mod_eq_of_lt k4, Nat.mod_eq_of_lt k5]

/-- C9 on the configured example device at tick 77: the five writes are
`0x5555`, `4`, `2500`, `0xaaaa` to the key, prescaler, reload and key
registers, then `0xcccc` to the key register. -/
theorem at32_start_of_not_started_witness :
    configuredDevice.started = false ∧
    regwrites (at32_start exampleConfig configuredDevice 77).events =
      [(0x5555, 0x40003000), (4, 0x40003004), (2500, 0x40003008),
       (0xaaaa, 0x40003000), (0xcccc, 0x40003000)] ∧
    (at32_start exampleConfig configuredDevice 77).priv =
      { configuredDevice with started := true, lastreset := 77 } :=
  ⟨rfl,
    (at32_start_of_not_started exampleConfig configuredDevice 77 rfl).2.1.trans
      (by decide),
    by decide⟩

/-- C10: `at32_start` is idempotent.  On a started device it returns `OK`,
issues no event and returns the state as it was, `lastreset` included; hence a
second start, at whatever tick `now2`, returns `OK`, leaves the state of the
first start untouched and adds nothing to its events. -/
theorem at32_start_idempotent (cfg : Config) (priv : at32_lowerhalf_s)
    (now now2 : Nat) :
    (priv.started = true →
      at32_start cfg priv now = { ret := OK, priv := priv, events := [] }) ∧
    at32_start cfg (at32_start cfg priv now).priv now2 =
      { ret := OK, priv := (at32_start cfg priv now).priv, events := [] } ∧
    (at32_start cfg priv now).events ++
        (at32_start cfg (at32_start cfg priv now).priv now2).events =
      (at32_start cfg priv now).events ∧
    regwrites ((at32_start cfg priv now).events ++
        (at32_start cfg (at32_start cfg priv now).priv now2).events) =
      regwrites (at32_start cfg priv now).events := by
  have h1 : ∀ (p : at32_lowerhalf_s) (n : Nat), p.started = true →
      at32_start cfg p n = { ret := OK, priv := p, events := [] } := by
    intro p n hp
    simp [at32_start, hp]
  have h2 : (at32_start cfg priv now).priv.started = true := by
    cases hs : priv.started <;> simp [at32_start, hs]
  have h3 := h1 (at32_start cfg priv now).priv now2 h2
  refine ⟨h1 priv now, h3, ?_, ?_⟩
  · rw [h3]
    exact List.append_nil _
  · rw [h3]
    simp

/-- C10 on the example: starting the configured device at tick 77 and again at
tick 5000 leaves `lastreset = 77`, and a start of the started device changes
nothing. -/
theorem at32_start_idempotent_witness :
    at32_start exampleConfig startedDevice 5000 =
      { ret := OK, priv := startedDevice, events := [] } ∧
    (at32_start exampleConfig
      (at32_start exampleConfig configuredDevice 77).priv 5000).priv.lastreset = 77 :=
  ⟨(at32_start_idempotent exampleConfig startedDevice 5000 0).1 rfl, by decide⟩

/-! ## `at32_getstatus` and `at32_keepalive` -/

/-- A flag word built with `|` contains its left operand. -/
theorem lor_land_left (a b : Nat) : (a ||| b) &&& a = a := by
  apply Nat.eq_of_testBit_eq
  intro i
  simp only [Nat.testBit_land, Nat.testBit_lor]
  cases a.testBit i <;> simp

/-- A flag word built with `|` contains its right operand. -/
theorem lor_land_right (a b : Nat) : (a ||| b) &&& b = b := by
  apply Nat.eq_of_testBit_eq
  intro i
  simp only [Nat.testBit_land, Nat.testBit_lor]
  cases b.testBit i <;> simp

/-- The `timeleft` that `at32_getstatus` computes, for a timeout that is a
`uint32_t` value: the subtraction does not wrap. -/
theorem at32_getstatus_timeleft (cfg : Config) (priv : at32_lowerhalf_s)
    (now : Nat) (ht : priv.timeout < 2 ^ 32) :
    (at32_getstatus cfg priv now).2.timeleft =
      priv.timeout -
        min (cfg.TICK2MSEC ((((now : Int) - (priv.lastreset : Int)) % 2 ^ 32).toNat) % 2 ^ 32)
          priv.timeout := by
  simp only [at32_getstatus]
  generalize cfg.TICK2MSEC _ % 2 ^ 32 = e
  split <;> omega

/-- When no tick has passed since `lastreset` was taken from the clock, and
`TICK2MSEC(0)` is `0`, the whole timeout is left. -/
theorem at32_getstatus_timeleft_same_tick (cfg : Config) (priv : at32_lowerhalf_s)
    (now : Nat) (ht : priv.timeout < 2 ^ 32) (h0 : cfg.TICK2MSEC 0 = 0)
    (hl : priv.lastreset = now % 2 ^ 32) :
    (at32_getstatus cfg priv now).2.timeleft = priv.timeout := by
  rw [at32_getstatus_timeleft cfg priv now ht, hl]
  have hz : ((((now : Int) - ((now % 2 ^ 32 : Nat) : Int)) % 2 ^ 32).toNat) = 0 := by
    omega
  rw [hz, h0]
  simp

/-- C11: for every device state (its timeout a `uint32_t` value) and tick
`now`, `at32_getstatus` returns `OK`, issues no event and leaves the device
state as it was; `flags` always contains `WDFLAGS_RESET`, is `WDFLAGS_RESET`
alone when the device is not started and contains `WDFLAGS_ACTIVE` when it is
(so, the two flags being distinct bits, `WDFLAGS_ACTIVE` is set exactly when
`started`); `timeout` is the stored timeout; and
`timeleft = timeout - min(elapsed, timeout)` with
`elapsed = TICK2MSEC((now - lastreset) mod 2^32)` as a `uint32_t`, hence
`timeleft ≤ timeout` without unsigned underflow. -/
theorem at32_getstatus_spec (cfg : Config) (priv : at32_lowerhalf_s) (now : Nat)
    (ht : priv.timeout < 2 ^ 32) :
    (at32_getstatus cfg priv now).1.ret = OK ∧
    (at32_getstatus cfg priv now).1.priv = priv ∧
    (at32_getstatus cfg priv now).1.events = [] ∧
    (at32_getstatus cfg priv now).2.flags &&& cfg.WDFLAGS_RESET = cfg.WDFLAGS_RESET ∧
    (priv.started = true →
      (at32_getstatus cfg priv now).2.flags &&& cfg.WDFLAGS_ACTIVE = cfg.WDFLAGS_ACTIVE) ∧
    (priv.started = false → (at32_getstatus cfg priv now).2.flags = cfg.WDFLAGS_RESET) ∧
    (cfg.WDFLAGS_RESET &&& cfg.WDFLAGS_ACTIVE = 0 → cfg.WDFLAGS_ACTIVE ≠ 0 →
      ((at32_getstatus cfg priv now).2.flags &&& cfg.WDFLAGS_ACTIVE = cfg.WDFLAGS_ACTIVE ↔
        priv.started = true)) ∧
    (at32_getstatus cfg priv now).2.timeout = priv.timeout ∧
    (at32_getstatus cfg priv now).2.timeleft =
      priv.timeout -
        min (cfg.TICK2MSEC ((((now : Int) - (priv.lastreset : Int)) % 2 ^ 32).toNat) % 2 ^ 32)
          priv.timeout ∧
    (at32_getstatus cfg priv now).2.timeleft ≤ priv.timeout ∧
    (cfg.TICK2MSEC ((((now : Int) - (priv.lastreset : Int)) % 2 ^ 32).toNat) < 2 ^ 32 →
      (at32_getstatus cfg priv now).2.timeleft =
        priv.timeout -
          min (cfg.TICK2MSEC ((((now : Int) - (priv.lastreset : Int)) % 2 ^ 32).toNat))
            priv.timeout) := by
  have hleft := at32_getstatus_timeleft cfg priv now ht
  have hflags : (at32_getstatus cfg priv now).2.flags =
      if priv.started = true then cfg.WDFLAGS_RESET ||| cfg.WDFLAGS_ACTIVE
      else cfg.WDFLAGS_RESET := rfl
  refine ⟨rfl, rfl, rfl, ?_, ?_, ?_, ?_, rfl, hleft, ?_, ?_⟩
  · rw [hflags]
    split
    · exact lor_land_left _ _
    · exact Nat.and_self _
  · intro hs
    rw [hflags, if_pos hs]
    exact lor_land_right _ _
  · intro hs
    rw [hflags, if_neg (by simp [hs])]
  · intro hdis hne
    rw [hflags]
    constructor
    · intro h
      by_contra hs
      rw [if_neg hs, hdis] at h
      exact hne h.symm
    · intro hs
      rw [if_pos hs]
      exact lor_land_right _ _
  · rw [hleft]
    exact Nat.sub_le _ _
  · intro hlt
    rw [hleft, Nat.mod_eq_of_lt hlt]

/-- C11 on the started example device, last reset at tick 40, read at tick
140 with 10 ms per tick: both flags are set, 1000 ms have elapsed and 4000 of
the 5000 ms are left. -/
theorem at32_getstatus_spec_witness :
    (at32_getstatus exampleConfig { startedDevice with lastreset := 40 } 140).2 =
      { flags := 3, timeout := 5000, timeleft := 4000 } ∧
    (at32_getstatus exampleConfig { startedDevice with lastreset := 40 } 140).2.timeleft ≤
      ({ startedDevice with lastreset := 40 } : at32_lowerhalf_s).timeout :=
  ⟨by decide,
    (at32_getstatus_spec exampleConfig { startedDevice with lastreset := 40 } 140
      (by decide)).2.2.2.2.2.2.2.2.2.1⟩

/-- C12 fails as stated: on the example device that was started at tick 0,
`at32_start` at tick 100 does nothing, and `at32_getstatus` at the same tick
reports 4000 ms left of a timeout of 5000 ms. -/
theorem at32_start_started_then_getstatus :
    (at32_getstatus exampleConfig
        (at32_start exampleConfig startedDevice 100).priv 100).2.timeleft = 4000 ∧
    (at32_getstatus exampleConfig
        (at32_start exampleConfig startedDevice 100).priv 100).2.timeout = 5000 ∧
    (at32_getstatus exampleConfig
        (at32_start exampleConfig startedDevice 100).priv 100).2.timeleft ≠
      (at32_getstatus exampleConfig
        (at32_start exampleConfig startedDevice 100).priv 100).2.timeout := by
  decide

/-- C12, amended: for every device state that is not started (its timeout a
`uint32_t` value, `TICK2MSEC(0) = 0`), if `at32_start` is called and
`at32_getstatus` is called at the same tick, the reported `timeleft` equals
the reported `timeout`, which is the stored one. -/
theorem at32_start_then_getstatus (cfg : Config) (priv : at32_lowerhalf_s)
    (now : Nat) (hs : priv.started = false) (ht : priv.timeout < 2 ^ 32)
    (h0 : cfg.TICK2MSEC 0 = 0) :
    (at32_getstatus cfg (at32_start cfg priv now).priv now).2.timeleft =
      (at32_getstatus cfg (at32_start cfg priv now).priv now).2.timeout ∧
    (at32_getstatus cfg (at32_start cfg priv now).priv now).2.timeout = priv.timeout := by
  have hp : (at32_start cfg priv now).priv =
      { priv with lastreset := now % 2 ^ 32, started := true } := by
    simp [at32_start, hs]
  rw [hp]
  have h := at32_getstatus_timeleft_same_tick cfg
    { priv with lastreset := now % 2 ^ 32, started := true } now ht h0 rfl
  exact ⟨h, rfl⟩

/-- The amended C12 on the configured example device, started and read at
tick 77: 5000 of 5000 ms are left. -/
theorem at32_start_then_getstatus_witness :
    (at32_getstatus exampleConfig
        (at32_start exampleConfig configuredDevice 77).priv 77).2.timeleft =
      (at32_getstatus exampleConfig
        (at32_start exampleConfig configuredDevice 77).priv 77).2.timeout ∧
    (at32_getstatus exampleConfig
        (at32_start exampleConfig configuredDevice 77).priv 77).2.timeout = 5000 :=
  at32_start_then_getstatus exampleConfig configuredDevice 77 rfl (by decide) rfl

/-- C13: for every device state, started or not, whatever time has elapsed,
`at32_keepalive` returns `OK`, its only register write is
`KR <- IWDG_KR_KEY_RELOAD`, it sets `lastreset` to the current tick (as a
`uint32_t`) and changes no other field; `at32_getstatus` at the same tick then
reports `timeleft` equal to `timeout` (the timeout being a `uint32_t` value and
`TICK2MSEC(0) = 0`). -/
theorem at32_keepalive_spec (cfg : Config) (priv : at32_lowerhalf_s) (now : Nat)
    (ht : priv.timeout < 2 ^ 32) (h0 : cfg.TICK2MSEC 0 = 0) :
    (at32_keepalive cfg priv now).ret = OK ∧
    regwrites (at32_keepalive cfg priv now).events =
      [(cfg.IWDG_KR_KEY_RELOAD % 2 ^ 16, cfg.AT32_IWDG_KR)] ∧
    (at32_keepalive cfg priv now).priv = { priv with lastreset := now % 2 ^ 32 } ∧
    (now < 2 ^ 32 → (at32_keepalive cfg priv now).priv.lastreset = now) ∧
    (at32_getstatus cfg (at32_keepalive cfg priv now).priv now).2.timeleft =
      (at32_getstatus cfg (at32_keepalive cfg priv now).priv now).2.timeout ∧
    (at32_getstatus cfg (at32_keepalive cfg priv now).priv now).2.timeout = priv.timeout := by
  refine ⟨rfl, rfl, rfl, ?_, ?_, rfl⟩
  · intro hnow
    exact Nat.mod_eq_of_lt hnow
  · exact at32_getstatus_timeleft_same_tick cfg
      { priv with lastreset := now % 2 ^ 32 } now ht h0 rfl

/-- C13 on the started example device, last reset at tick 0 and kept alive at
tick 300, when 3000 ms had elapsed: one write of `0xaaaa` to the key register,
and 5000 ms are left again. -/
theorem at32_keepalive_spec_witness :
    (at32_getstatus exampleConfig startedDevice 300).2.timeleft = 2000 ∧
    regwrites (at32_keepalive exampleConfig startedDevice 300).events =
      [(0xaaaa, 0x40003000)] ∧
    (at32_getstatus exampleConfig
        (at32_keepalive exampleConfig startedDevice 300).priv 300).2.timeleft =
      (at32_getstatus exampleConfig
        (at32_keepalive exampleConfig startedDevice 300).priv 300).2.timeout ∧
    (at32_getstatus exampleConfig
        (at32_keepalive exampleConfig startedDevice 300).priv 300).2.timeout = 5000 :=
  ⟨by decide, by decide,
    (at32_keepalive_spec exampleConfig startedDevice 300 (by decide) rfl).2.2.2.2.1,
    (at32_keepalive_spec exampleConfig startedDevice 300 (by decide) rfl).2.2.2.2.2⟩

/-! ## The latch: nothing but `lastreset` changes once started -/

/-- On a started device every operation returns and changes at most
`lastreset`. -/
theorem Op.apply_of_started (cfg : Config) (priv : at32_lowerhalf_s) (op : Op)
    (hs : priv.started = true) :
    ∃ l, op.apply cfg priv = some { priv with lastreset := l } := by
  cases op with
  | start now =>
    refine ⟨priv.lastreset, ?_⟩
    have h : at32_start cfg priv now = { ret := OK, priv := priv, events := [] } := by
      unfold at32_start
      rw [hs]
      rfl
    show some (at32_start cfg priv now).priv = _
    rw [h]
  | stop => exact ⟨priv.lastreset, rfl⟩
  | keepalive now => exact ⟨now % 2 ^ 32, rfl⟩
  | getstatus now => exact ⟨priv.lastreset, rfl⟩
  | settimeout timeout =>
    refine ⟨priv.lastreset, ?_⟩
    by_cases h : timeout < 1 ∨ timeout > IWDG_MAXTIMEOUT cfg
    · simp only [Op.apply, at32_settimeout_of_out_of_range cfg priv timeout h, Option.map]
    · simp only [Op.apply, at32_settimeout_of_started cfg priv timeout h hs, Option.map]

/-- A sequence of operations on a started device returns and changes at most
`lastreset`. -/
theorem run_of_started (cfg : Config) (ops : List Op) :
    ∀ priv : at32_lowerhalf_s, priv.started = true →
      ∃ l, run cfg priv ops = some { priv with lastreset := l } := by
  induction ops with
  | nil =>
    intro priv _
    exact ⟨priv.lastreset, rfl⟩
  | cons op ops ih =>
    intro priv hs
    obtain ⟨l, hl⟩ := Op.apply_of_started cfg priv op hs
    obtain ⟨l2, hl2⟩ := ih { priv with lastreset := l } hs
    refine ⟨l2, ?_⟩
    simp only [run, hl, Option.bind]
    exact hl2

/-- C14: for every device state with `started = true` and every finite
sequence of the five operations with arbitrary arguments, every operation of
the sequence returns, `started` stays true and `prescaler`, `reload` and
`timeout` (and `lsifreq`) keep their values: the final state is the initial
one except for `lastreset`. -/
theorem latch_invariant (cfg : Config) (priv : at32_lowerhalf_s) (ops : List Op)
    (hs : priv.started = true) :
    ∃ final, run cfg priv ops = some final ∧
      final.started = true ∧ final.prescaler = priv.prescaler ∧
      final.reload = priv.reload ∧ final.timeout = priv.timeout ∧
      final.lsifreq = priv.lsifreq ∧
      final = { priv with lastreset := final.lastreset } := by
  obtain ⟨l, hl⟩ := run_of_started cfg ops priv hs
  exact ⟨_, hl, hs, rfl, rfl, rfl, rfl, rfl⟩

/-- C14 on the started example device: after a start, a timeout change, a
stop, a keepalive at tick 9, a status read and an out-of-range timeout change,
only `lastreset` differs. -/
theorem latch_invariant_witness :
    startedDevice.started = true ∧
    run exampleConfig startedDevice
        [Op.start 3, Op.settimeout 100, Op.stop, Op.keepalive 9, Op.getstatus 12,
          Op.settimeout 0] =
      some { startedDevice with lastreset := 9 } ∧
    ∃ final, run exampleConfig startedDevice
        [Op.start 3, Op.settimeout 100, Op.stop, Op.keepalive 9, Op.getstatus 12,
          Op.settimeout 0] = some final ∧
      final.started = true ∧ final.prescaler = startedDevice.prescaler ∧
      final.reload = startedDevice.reload ∧ final.timeout = startedDevice.timeout ∧
      final.lsifreq = startedDevice.lsifreq ∧
      final = { startedDevice with lastreset := final.lastreset } :=
  ⟨rfl, by decide, latch_invariant exampleConfig startedDevice _ rfl⟩

/-! ## Where the registers are written -/

/-- C15 fails as stated: the successful `at32_settimeout(5000)` on the example
device, which is not started, issues no event, so it does not write the
sequence unlock key, prescaler, reload, reload key. -/
theorem at32_settimeout_example_writes_nothing :
    ∃ o, at32_settimeout exampleConfig exampleDevice 5000 = some o ∧ o.ret = OK ∧
      o.events = [] ∧ regwrites o.events = [] ∧
      regwrites o.events ≠
        [(0x5555, 0x40003000), (4, 0x40003004), (2500, 0x40003008),
         (0xaaaa, 0x40003000)] :=
  ⟨_, at32_settimeout_example_5000, rfl, rfl, rfl, by decide⟩

/-- C15, amended: a successful `at32_settimeout` on a device that is not
started writes no hardware register, it only stores the prescaler and the
reload; the sequence unlock key (`KR <- KEY_ENABLE`), prescaler write (`PR`),
reload write (`RLR`), reload key (`KR <- KEY_RELOAD`) with the stored values is
written by the following `at32_start`, before the start key. -/
theorem at32_settimeout_defers_writes (cfg : Config) (priv : at32_lowerhalf_s)
    (timeout now : Nat) (o : Outcome)
    (hs : priv.started = false) (h1 : 1 ≤ timeout)
    (h2 : timeout ≤ IWDG_MAXTIMEOUT cfg)
    (h : at32_settimeout cfg priv timeout = some o) :
    o.ret = OK ∧ o.events = [] ∧ regwrites o.events = [] ∧
    regwrites (at32_start cfg o.priv now).events =
      [(cfg.IWDG_KR_KEY_ENABLE % 2 ^ 16, cfg.AT32_IWDG_KR),
       ((o.priv.prescaler <<< cfg.IWDG_PR_SHIFT) % 2 ^ 16, cfg.AT32_IWDG_PR),
       (o.priv.reload % 2 ^ 16, cfg.AT32_IWDG_RLR),
       (cfg.IWDG_KR_KEY_RELOAD % 2 ^ 16, cfg.AT32_IWDG_KR),
       (cfg.IWDG_KR_KEY_START % 2 ^ 16, cfg.AT32_IWDG_KR)] := by
  obtain ⟨p, f, r, c, -, -, -, -, -, -, -, ho⟩ :=
    at32_settimeout_accepted_shape cfg priv timeout o hs h1 h2 h
  have hw := fun x => shiftLeft_mod_two_pow_16 x cfg.IWDG_PR_SHIFT
  have hr : ∀ x : Nat, x % 2 ^ 16 % 2 ^ 16 = x % 2 ^ 16 := fun x => Nat.mod_mod _ _
  subst ho
  refine ⟨rfl, rfl, rfl, ?_⟩
  simp only [at32_start, hs, at32_setprescaler, at32_putreg, regwrites,
    List.cons_append, List.nil_append, Bool.not_false, if_true, hw, hr]

/-- The amended C15 on the example: `at32_settimeout(5000)` writes nothing and
`at32_start` then writes `0x5555`, `4`, `2500`, `0xaaaa`, `0xcccc`. -/
theorem at32_settimeout_defers_writes_witness :
    at32_settimeout exampleConfig exampleDevice 5000 =
      some { ret := OK, priv := configuredDevice, events := [] } ∧
    regwrites (at32_start exampleConfig configuredDevice 77).events =
      [(0x5555, 0x40003000), (4, 0x40003004), (2500, 0x40003008),
       (0xaaaa, 0x40003000), (0xcccc, 0x40003000)] :=
  ⟨at32_settimeout_example_5000,
    (at32_settimeout_defers_writes exampleConfig exampleDevice 5000 77
      { ret := OK, priv := configuredDevice, events := [] } rfl (by decide) (by decide)
      at32_settimeout_example_5000).2.2.2.trans (by decide)⟩

/-- C16 fails as stated: when `at32_start` starts the configured example
device, the four writes of the commit sequence are issued before
`enter_critical_section`, outside any critical section. -/
theorem at32_start_commit_outside_critical :
    (at32_start exampleConfig configuredDevice 77).events =
      [Event.putreg16 0x5555 0x40003000, Event.putreg16 4 0x40003004,
       Event.putreg16 2500 0x40003008, Event.putreg16 0xaaaa 0x40003000,
       Event.enter_critical_section, Event.putreg16 0xcccc 0x40003000,
       Event.leave_critical_section] ∧
    writes_outside_critical 0 (at32_start exampleConfig configuredDevice 77).events =
      [(0x5555, 0x40003000), (4, 0x40003004), (2500, 0x40003008),
       (0xaaaa, 0x40003000)] ∧
    writes_outside_critical 0 (at32_start exampleConfig configuredDevice 77).events ≠ [] := by
  decide

/-- C16, amended: in the events of `at32_start` on a device that is not
started, only the start-key write lies between `enter_critical_section` and
the matching `leave_critical_section`; the unlock key, prescaler write, reload
write and reload key of the commit sequence are issued before the critical
section is entered.  In the events of `at32_keepalive` the reload-key write,
its only register write, lies inside the critical section. -/
theorem at32_critical_sections (cfg : Config) (priv : at32_lowerhalf_s) (now : Nat) :
    (priv.started = false →
      writes_inside_critical 0 (at32_start cfg priv now).events =
        [(cfg.IWDG_KR_KEY_START % 2 ^ 16, cfg.AT32_IWDG_KR)] ∧
      writes_outside_critical 0 (at32_start cfg priv now).events =
        [(cfg.IWDG_KR_KEY_ENABLE % 2 ^ 16, cfg.AT32_IWDG_KR),
         ((priv.prescaler <<< cfg.IWDG_PR_SHIFT) % 2 ^ 16, cfg.AT32_IWDG_PR),
         (priv.reload % 2 ^ 16, cfg.AT32_IWDG_RLR),
         (cfg.IWDG_KR_KEY_RELOAD % 2 ^ 16, cfg.AT32_IWDG_KR)] ∧
      critical_balanced 0 (at32_start cfg priv now).events = true) ∧
    writes_inside_critical 0 (at32_keepalive cfg priv now).events =
      [(cfg.IWDG_KR_KEY_RELOAD % 2 ^ 16, cfg.AT32_IWDG_KR)] ∧
    writes_outside_critical 0 (at32_keepalive cfg priv now).events = [] ∧
    critical_balanced 0 (at32_keepalive cfg priv now).events = true := by
  have hw := shiftLeft_mod_two_pow_16 priv.prescaler cfg.IWDG_PR_SHIFT
  have hr : priv.reload % 2 ^ 16 % 2 ^ 16 = priv.reload % 2 ^ 16 := Nat.mod_mod _ _
  refine ⟨?_, rfl, rfl, rfl⟩
  intro hs
  refine ⟨?_, ?_, ?_⟩
  · simp [at32_start, hs, at32_setprescaler, at32_putreg, writes_inside_critical]
  · simp only [at32_start, hs, at32_setprescaler, at32_putreg, writes_outside_critical,
      List.cons_append, List.nil_append, Bool.not_false, if_true, hw, hr,
      Nat.add_one_ne_zero, if_false, Nat.zero_add]
  · simp [at32_start, hs, at32_setprescaler, at32_putreg, critical_balanced]

/-- The amended C16 on the example: the start of the configured device has
only the write of `0xcccc` inside its critical section, and the keepalive of
the started device has its write of `0xaaaa` inside. -/
theorem at32_critical_sections_witness :
    writes_inside_critical 0 (at32_start exampleConfig configuredDevice 77).events =
      [(0xcccc, 0x40003000)] ∧
    writes_inside_critical 0 (at32_keepalive exampleConfig startedDevice 300).events =
      [(0xaaaa, 0x40003000)] ∧
    writes_outside_critical 0 (at32_keepalive exampleConfig startedDevice 300).events = [] :=
  ⟨((at32_critical_sections exampleConfig configuredDevice 77).1 rfl).1.trans (by decide),
    (at32_critical_sections exampleConfig startedDevice 300).2.1.trans (by decide),
    (at32_critical_sections exampleConfig startedDevice 300).2.2.1⟩

/-! ## `at32_iwdginitialize` -/

/-- For an accepted timeout and a calibrated frequency of at least 4 Hz, the
counter frequency at the selected prescaler is not zero: the search passes a
prescaler only when its counter frequency is at least 2. -/
theorem at32_settimeout_loop_fiwdg_ne_zero (cfg : Config) (lsifreq timeout : Nat)
    (h2 : timeout ≤ IWDG_MAXTIMEOUT cfg)
    (h4 : 4 ≤ lsifreq) (hl : lsifreq < 2 ^ 32) (ht : timeout < 2 ^ 32) :
    (at32_settimeout_loop cfg lsifreq timeout 0 (Nat.zero_le 6)).fiwdg ≠ 0 := by
  obtain ⟨-, -, a3, -, -, a6⟩ :=
    at32_settimeout_loop_spec cfg lsifreq timeout 6 0 (Nat.zero_le 6) rfl
  generalize at32_settimeout_loop cfg lsifreq timeout 0 (Nat.zero_le 6) = sel at *
  rw [a3]
  have hmax : IWDG_MAXTIMEOUT cfg ≤ 1000 * cfg.IWDG_RLR_MAX := Nat.div_le_self _ _
  rcases Nat.eq_zero_or_pos sel.prescaler with hp | hp
  · rw [hp, Nat.shiftRight_eq_div_pow]
    have : lsifreq / 2 ^ (0 + 2) = lsifreq / 4 := rfl
    omega
  · obtain ⟨q, hq⟩ : ∃ q, sel.prescaler = q + 1 := ⟨sel.prescaler - 1, by omega⟩
    have hpass := a6 q (Nat.zero_le q) (by omega)
    rw [fiwdg_mul_timeout_mod lsifreq timeout (q + 2) hl ht] at hpass
    rw [hq]
    have hsucc : lsifreq >>> (q + 1 + 2) = lsifreq >>> (q + 2) / 2 :=
      Nat.shiftRight_succ lsifreq (q + 2)
    rw [hsucc]
    have hbig : 2 ≤ lsifreq >>> (q + 2) := by
      by_contra hsmall
      have h1 : lsifreq >>> (q + 2) ≤ 1 := by omega
      have h3 : lsifreq >>> (q + 2) * timeout ≤ 1 * timeout := Nat.mul_le_mul_right _ h1
      have h5 : lsifreq >>> (q + 2) * timeout / 1000 ≤ cfg.IWDG_RLR_MAX := by
        apply Nat.div_le_of_le_mul
        omega
      exact hpass h5
    omega

/-- Under the conditions of `at32_settimeout_loop_fiwdg_ne_zero`, on a device
that is not started, `at32_settimeout` returns. -/
theorem at32_settimeout_accepted_returns (cfg : Config) (priv : at32_lowerhalf_s)
    (timeout : Nat) (hs : priv.started = false) (h1 : 1 ≤ timeout)
    (h2 : timeout ≤ IWDG_MAXTIMEOUT cfg)
    (h4 : 4 ≤ priv.lsifreq) (hl : priv.lsifreq < 2 ^ 32) (ht : timeout < 2 ^ 32) :
    ∃ o, at32_settimeout cfg priv timeout = some o := by
  have hin : ¬ (timeout < 1 ∨ timeout > IWDG_MAXTIMEOUT cfg) := by omega
  have hf := at32_settimeout_loop_fiwdg_ne_zero cfg priv.lsifreq timeout h2 h4 hl ht
  rw [at32_settimeout_of_accepted cfg priv timeout hin hs]
  simp only [if_neg hf]
  exact ⟨_, rfl⟩

/-- C17: `at32_iwdginitialize(devpath, lsifreq)` with a calibrated frequency
of at least 4 Hz returns, for every value of `CONFIG_AT32_IWDG_DEFTIMOUT`
(`IWDG_MAXTIMEOUT`, taken to be at least 1 and a `uint32_t` value, when the
option is left undefined, the configured value otherwise).  Afterwards
`started` is false, the stored `lsifreq` is the argument, no IWDG register, in
particular no start key, has been written, and `timeout`, `prescaler` and
`reload` are exactly what `at32_settimeout(CONFIG_AT32_IWDG_DEFTIMOUT)` left
on the cleared state: for a value that passes the range check, as the default
does, the call returns `OK` and stores the selected prescaler, the clamped
reload count and the timeout computed back from it; for a configured value
outside `1 .. IWDG_MAXTIMEOUT` the call returns `-ERANGE`, which is ignored,
and the three fields keep the values they had. -/
theorem at32_iwdginitialize_spec (cfg : Config) (g_wdgdev : at32_lowerhalf_s)
    (devpath lsifreq : Nat)
    (hM : 1 ≤ IWDG_MAXTIMEOUT cfg)
    (hM32 : IWDG_MAXTIMEOUT cfg < 2 ^ 32)
    (h4 : 4 ≤ lsifreq) (hl : lsifreq < 2 ^ 32) :
    (cfg.CONFIG_AT32_IWDG_DEFTIMOUT = none →
      DEFTIMOUT cfg % 2 ^ 32 = IWDG_MAXTIMEOUT cfg) ∧
    (∀ d, cfg.CONFIG_AT32_IWDG_DEFTIMOUT = some d → DEFTIMOUT cfg % 2 ^ 32 = d % 2 ^ 32) ∧
    ∃ o r,
      at32_settimeout cfg { g_wdgdev with lsifreq := lsifreq, started := false }
        (DEFTIMOUT cfg % 2 ^ 32) = some o ∧
      at32_iwdginitialize cfg g_wdgdev devpath lsifreq = some r ∧
      r.1 = o.priv ∧
      r.1.started = false ∧ r.1.lsifreq = lsifreq ∧
      r.1.timeout = o.priv.timeout ∧ r.1.prescaler = o.priv.prescaler ∧
      r.1.reload = o.priv.reload ∧
      iwdg_regwrites r.2 = [] ∧
      (cfg.IWDG_KR_KEY_START % 2 ^ 16, cfg.AT32_IWDG_KR) ∉ iwdg_regwrites r.2 ∧
      (cfg.CONFIG_AT32_IWDG_DEFTIMOUT = none → o.ret = OK) ∧
      (1 ≤ DEFTIMOUT cfg % 2 ^ 32 ∧ DEFTIMOUT cfg % 2 ^ 32 ≤ IWDG_MAXTIMEOUT cfg →
        o.ret = OK ∧ r.1.timeout ≤ DEFTIMOUT cfg % 2 ^ 32 ∧
        ∃ p f c, p ≤ 6 ∧ f = lsifreq >>> (p + 2) ∧ f ≠ 0 ∧
          c = min (f * (DEFTIMOUT cfg % 2 ^ 32) % 2 ^ 64 / 1000) cfg.IWDG_RLR_MAX ∧
          r.1.prescaler = p ∧ r.1.reload = c % 2 ^ 16 ∧
          r.1.timeout = (1000 * (c % 2 ^ 32)) % 2 ^ 32 / f) ∧
      (DEFTIMOUT cfg % 2 ^ 32 < 1 ∨ DEFTIMOUT cfg % 2 ^ 32 > IWDG_MAXTIMEOUT cfg →
        o.ret = -(cfg.ERANGE : Int) ∧
        r.1 = { g_wdgdev with lsifreq := lsifreq, started := false }) := by
  have hnone : cfg.CONFIG_AT32_IWDG_DEFTIMOUT = none →
      DEFTIMOUT cfg % 2 ^ 32 = IWDG_MAXTIMEOUT cfg := by
    intro hdef
    simp only [DEFTIMOUT, hdef, Option.getD_none]
    exact Nat.mod_eq_of_lt hM32
  have hsome : ∀ d, cfg.CONFIG_AT32_IWDG_DEFTIMOUT = some d →
      DEFTIMOUT cfg % 2 ^ 32 = d % 2 ^ 32 := by
    intro d hd
    simp only [DEFTIMOUT, hd, Option.getD_some]
  refine ⟨hnone, hsome, ?_⟩
  have hinit : ∀ o, at32_settimeout cfg
      { g_wdgdev with lsifreq := lsifreq, started := false }
        (DEFTIMOUT cfg % 2 ^ 32) = some o →
      at32_iwdginitialize cfg g_wdgdev devpath lsifreq =
        some (o.priv,
          [InitEvent.at32_rcc_enablelsi] ++ o.events.map InitEvent.iwdg ++
          [InitEvent.watchdog_register devpath] ++
          (if cfg.CONFIG_AT32_JTAG_ENABLE && cfg.CONFIG_AT32_AT32F43XX then
            [InitEvent.debug_wdt_pause]
          else
            [])) := by
    intro o ho
    simp only [ at32_iwdginitialize, ho]
  generalize DEFTIMOUT cfg % 2 ^ 32 = t at hnone hinit ⊢
  have hwr : ∀ evs : List Event, evs = [] →
      iwdg_regwrites
        ([InitEvent.at32_rcc_enablelsi] ++ evs.map InitEvent.iwdg ++
          [InitEvent.watchdog_register devpath] ++
          (if cfg.CONFIG_AT32_JTAG_ENABLE && cfg.CONFIG_AT32_AT32F43XX then
            [InitEvent.debug_wdt_pause]
          else
            [])) = [] := by
    intro evs hev
    rw [hev]
    split <;> rfl
  by_cases hin : t < 1 ∨ t > IWDG_MAXTIMEOUT cfg
  · have ho := at32_settimeout_of_out_of_range cfg
      { g_wdgdev with lsifreq := lsifreq, started := false } t hin
    refine ⟨_, _, ho, hinit _ ho, rfl, rfl, rfl, rfl, rfl, rfl, hwr [] rfl, ?_, ?_, ?_, ?_⟩
    · rw [hwr [] rfl]
      exact List.not_mem_nil _
    · intro hdef
      have := hnone hdef
      omega
    · intro hacc
      omega
    · intro _
      exact ⟨rfl, rfl⟩
  · have h1 : 1 ≤ t := by omega
    have h2 : t ≤ IWDG_MAXTIMEOUT cfg := by omega
    obtain ⟨o, ho⟩ := at32_settimeout_accepted_returns cfg
      { g_wdgdev with lsifreq := lsifreq, started := false } t
      rfl h1 h2 h4 hl (by omega)
    obtain ⟨p, f, r, c, hp, hf, hf0, hr, -, -, hc, hshape⟩ :=
      at32_settimeout_accepted_shape cfg
        { g_wdgdev with lsifreq := lsifreq, started := false } t o rfl h1 h2 ho
    have hle := at32_settimeout_achieved_le cfg
      { g_wdgdev with lsifreq := lsifreq, started := false } t o rfl h1 h2 ho
    have hev : o.events = [] := by rw [hshape]
    have hret : o.ret = OK := by rw [hshape]
    have hst : o.priv.started = false := by rw [hshape]
    have hls : o.priv.lsifreq = lsifreq := by rw [hshape]
    refine ⟨o, _, ho, hinit o ho, rfl, hst, hls, rfl, rfl, rfl, hwr o.events hev, ?_,
      fun _ => hret, ?_, ?_⟩
    · rw [hwr o.events hev]
      exact List.not_mem_nil _
    · intro _
      refine ⟨hret, hle, p, f, c, hp, hf, hf0, ?_, ?_, ?_, ?_⟩
      · rw [hc, hr]
      · rw [hshape]
      · rw [hshape]
      · rw [hshape]
    · intro hrej
      exact absurd hrej hin

/-- C17 on the example configuration with a calibrated frequency of 32 kHz.
With the option left undefined the default timeout is 35000 ms and the zeroed
driver state gets prescaler 6, reload 4095 and the timeout 32760 ms that
`at32_settimeout(35000)` stores.  With `CONFIG_AT32_IWDG_DEFTIMOUT = 5000` it
gets prescaler 4, reload 2500 and the timeout 5000 ms.  With
`CONFIG_AT32_IWDG_DEFTIMOUT = 0`, which the range check refuses, a state that
held 777 ms, prescaler 3 and reload 9 keeps them, and `started` is cleared.
The only events are the LSI enable and the registration of the driver. -/
theorem at32_iwdginitialize_spec_witness :
    at32_iwdginitialize exampleConfig
        { lsifreq := 0, timeout := 0, lastreset := 0, started := false,
          prescaler := 0, reload := 0 } 7 32000 =
      some ({ lsifreq := 32000, timeout := 32760, lastreset := 0, started := false,
              prescaler := 6, reload := 4095 },
            [InitEvent.at32_rcc_enablelsi, InitEvent.watchdog_register 7]) ∧
    at32_iwdginitialize { exampleConfig with CONFIG_AT32_IWDG_DEFTIMOUT := some 5000 }
        { lsifreq := 0, timeout := 0, lastreset := 0, started := false,
          prescaler := 0, reload := 0 } 7 32000 =
      some ({ lsifreq := 32000, timeout := 5000, lastreset := 0, started := false,
              prescaler := 4, reload := 2500 },
            [InitEvent.at32_rcc_enablelsi, InitEvent.watchdog_register 7]) ∧
    at32_iwdginitialize { exampleConfig with CONFIG_AT32_IWDG_DEFTIMOUT := some 0 }
        { lsifreq := 1, timeout := 777, lastreset := 5, started := true,
          prescaler := 3, reload := 9 } 7 32000 =
      some ({ lsifreq := 32000, timeout := 777, lastreset := 5, started := false,
              prescaler := 3, reload := 9 },
            [InitEvent.at32_rcc_enablelsi, InitEvent.watchdog_register 7]) ∧
    DEFTIMOUT exampleConfig % 2 ^ 32 = IWDG_MAXTIMEOUT exampleConfig ∧
    DEFTIMOUT { exampleConfig with CONFIG_AT32_IWDG_DEFTIMOUT := some 5000 } % 2 ^ 32 =
      5000 % 2 ^ 32 :=
  ⟨by
      simp [ at32_iwdginitialize, DEFTIMOUT, at32_settimeout, at32_settimeout_loop,
        exampleConfig, IWDG_MAXTIMEOUT, IWDG_FMIN, OK],
    by
      simp [ at32_iwdginitialize, DEFTIMOUT, at32_settimeout, at32_settimeout_loop,
        exampleConfig, IWDG_MAXTIMEOUT, IWDG_FMIN, OK],
    by
      simp [ at32_iwdginitialize, DEFTIMOUT, at32_settimeout,
        exampleConfig, IWDG_MAXTIMEOUT, IWDG_FMIN],
    (at32_iwdginitialize_spec exampleConfig
      { lsifreq := 0, timeout := 0, lastreset := 0, started := false,
        prescaler := 0, reload := 0 } 7 32000 (by decide) (by decide) (by decide)
      (by decide)).1 rfl,
    (at32_iwdginitialize_spec { exampleConfig with CONFIG_AT32_IWDG_DEFTIMOUT := some 5000 }
      { lsifreq := 0, timeout := 0, lastreset := 0, started := false,
        prescaler := 0, reload := 0 } 7 32000 (by decide) (by decide) (by decide)
      (by decide)).2.1 5000 rfl⟩

/-! ## Clamping, the nominal maximum and the division -/

/-- An accepted timeout times the nominal minimum counter frequency is at
most `1000 * IWDG_RLR_MAX`. -/
theorem timeout_mul_fmin_le (cfg : Config) (timeout : Nat)
    (h2 : timeout ≤ IWDG_MAXTIMEOUT cfg) :
    IWDG_FMIN cfg * timeout ≤ 1000 * cfg.IWDG_RLR_MAX := by
  have h3 : IWDG_MAXTIMEOUT cfg * IWDG_FMIN cfg ≤ 1000 * cfg.IWDG_RLR_MAX :=
    Nat.div_mul_le_self _ _
  have h4 : IWDG_FMIN cfg * timeout ≤ IWDG_FMIN cfg * IWDG_MAXTIMEOUT cfg :=
    Nat.mul_le_mul_left _ h2
  rw [Nat.mul_comm (IWDG_FMIN cfg) (IWDG_MAXTIMEOUT cfg)] at h4
  omega

/-- A counter frequency that is at most the nominal minimum gives a reload
count that fits, for every accepted timeout. -/
theorem reload_fits_of_le_fmin (cfg : Config) (f timeout : Nat)
    (hf : f ≤ IWDG_FMIN cfg) (h2 : timeout ≤ IWDG_MAXTIMEOUT cfg) :
    f * timeout / 1000 ≤ cfg.IWDG_RLR_MAX := by
  have h3 := timeout_mul_fmin_le cfg timeout h2
  have h4 : f * timeout ≤ IWDG_FMIN cfg * timeout := Nat.mul_le_mul_right _ hf
  apply Nat.div_le_of_le_mul
  omega

/-- C21 fails as stated: with the example configuration, a device calibrated
at 40 kHz and the accepted timeout 35000 ms, the reload count at the largest
divider is `156 * 35000 / 1000 = 5460 > 4095`, the clamp takes effect and the
stored timeout is 26250 ms. -/
theorem accepted_timeout_clamped :
    (1 ≤ 35000 ∧ 35000 ≤ IWDG_MAXTIMEOUT exampleConfig) ∧
    (40000 >>> 8) * 35000 / 1000 = 5460 ∧
    ¬ ((40000 >>> 8) * 35000 / 1000 ≤ exampleConfig.IWDG_RLR_MAX) ∧
    at32_settimeout exampleConfig { exampleDevice with lsifreq := 40000 } 35000 =
      some { ret := OK
             priv := { exampleDevice with
                       lsifreq := 40000, timeout := 26250, prescaler := 6, reload := 4095 }
             events := [] } :=
  ⟨by decide, by decide, by decide, at32_settimeout_example_clamped⟩

/-- C21, amended: for a device whose calibrated frequency is not above the
nominal one at the largest divider (`lsifreq >> 8 ≤ AT32_LSI_FREQUENCY / 256`),
every timeout accepted by the range check has a reload count at the largest
divider that fits, `floor((lsifreq >> 8) * timeout / 1000) ≤ IWDG_RLR_MAX`, so
the final clamp of `at32_settimeout` does not take effect: the stored reload is
the count computed at the selected prescaler and the stored timeout is
computed from it.  (`IWDG_RLR_MAX` is taken to fit the `uint16_t` field.) -/
theorem accepted_timeout_not_clamped (cfg : Config) (priv : at32_lowerhalf_s)
    (timeout : Nat) (o : Outcome)
    (hcal : priv.lsifreq >>> 8 ≤ cfg.AT32_LSI_FREQUENCY / 256)
    (hmax : cfg.IWDG_RLR_MAX < 2 ^ 16)
    (hl : priv.lsifreq < 2 ^ 32) (ht : timeout < 2 ^ 32)
    (hs : priv.started = false) (h1 : 1 ≤ timeout)
    (h2 : timeout ≤ IWDG_MAXTIMEOUT cfg)
    (h : at32_settimeout cfg priv timeout = some o) :
    (priv.lsifreq >>> 8) * timeout / 1000 ≤ cfg.IWDG_RLR_MAX ∧
    o.priv.reload = (priv.lsifreq >>> (o.priv.prescaler + 2)) * timeout / 1000 ∧
    o.priv.timeout =
      1000 * ((priv.lsifreq >>> (o.priv.prescaler + 2)) * timeout / 1000) /
        (priv.lsifreq >>> (o.priv.prescaler + 2)) := by
  have hfit8 := reload_fits_of_le_fmin cfg (priv.lsifreq >>> 8) timeout hcal h2
  obtain ⟨p, f, r, c, -, hf, -, hr, hbrk, -, hc, ho⟩ :=
    at32_settimeout_accepted_shape cfg priv timeout o hs h1 h2 h
  have hmod := fiwdg_mul_timeout_mod priv.lsifreq timeout (p + 2) hl ht
  subst ho hf
  rw [hmod] at hr
  have hrfit : r ≤ cfg.IWDG_RLR_MAX := by
    rcases hbrk with hb | hb
    · exact hb
    · rw [hr, hb]
      exact hfit8
  have hcr : c = r := by
    rw [hc]
    exact Nat.min_eq_left hrfit
  have hc32 : c % 2 ^ 32 = c := Nat.mod_eq_of_lt (by omega)
  have hc16 : c % 2 ^ 16 = c := Nat.mod_eq_of_lt (by omega)
  have hm : 1000 * c % 2 ^ 32 = 1000 * c := Nat.mod_eq_of_lt (by omega)
  refine ⟨hfit8, ?_, ?_⟩
  · show c % 2 ^ 16 = _
    rw [hc16, hcr, hr]
  · show 1000 * (c % 2 ^ 32) % 2 ^ 32 / _ = _
    rw [hc32, hm, hcr, hr]

/-- The amended C21 on the example device, calibrated at the nominal 30 kHz:
the largest accepted timeout, 35000 ms, gives the reload `117 * 35000 / 1000 =
4095` at the largest divider, which fits without clamping. -/
theorem accepted_timeout_not_clamped_witness :
    at32_settimeout exampleConfig { exampleDevice with lsifreq := 30000 } 35000 =
      some { ret := OK
             priv := { exampleDevice with
                       lsifreq := 30000, timeout := 35000, prescaler := 6, reload := 4095 }
             events := [] } ∧
    (30000 >>> 8) * 35000 / 1000 ≤ exampleConfig.IWDG_RLR_MAX :=
  have hev : at32_settimeout exampleConfig { exampleDevice with lsifreq := 30000 } 35000 =
      some { ret := OK
             priv := { exampleDevice with
                       lsifreq := 30000, timeout := 35000, prescaler := 6, reload := 4095 }
             events := [] } := by
    simp [at32_settimeout, at32_settimeout_loop, exampleConfig, exampleDevice,
      IWDG_MAXTIMEOUT, IWDG_FMIN, OK]
  ⟨hev,
    (accepted_timeout_not_clamped exampleConfig { exampleDevice with lsifreq := 30000 }
      35000 _ (by decide) (by decide) (by decide) (by decide) rfl (by decide) (by decide)
      hev).1⟩

/-- C22, the code at the values of the claim: with `AT32_LSI_FREQUENCY = 30000`
and `IWDG_RLR_MAX = 4095` the macro `IWDG_FMIN` is `30000 / 256 = 117` and
`IWDG_MAXTIMEOUT` is `4095000 / 117 = 35000`, not the 34944 of the `Clocking`
comment; `at32_settimeout` accepts 34945 and 35000, and refuses 35001. -/
theorem iwdg_maxtimeout_nominal :
    exampleConfig.AT32_LSI_FREQUENCY = 30000 ∧ exampleConfig.IWDG_RLR_MAX = 4095 ∧
    IWDG_FMIN exampleConfig = 117 ∧
    IWDG_MAXTIMEOUT exampleConfig = 35000 ∧
    IWDG_MAXTIMEOUT exampleConfig ≠ 34944 ∧
    at32_settimeout exampleConfig { exampleDevice with lsifreq := 30000 } 34945 =
      some { ret := OK
             priv := { exampleDevice with
                       lsifreq := 30000, timeout := 34940, prescaler := 6, reload := 4088 }
             events := [] } ∧
    at32_settimeout exampleConfig { exampleDevice with lsifreq := 30000 } 35000 =
      some { ret := OK
             priv := { exampleDevice with
                       lsifreq := 30000, timeout := 35000, prescaler := 6, reload := 4095 }
             events := [] } ∧
    at32_settimeout exampleConfig { exampleDevice with lsifreq := 30000 } 35001 =
      some { ret := -34, priv := { exampleDevice with lsifreq := 30000 }, events := [] } := by
  refine ⟨rfl, rfl, by decide, by decide, by decide, ?_, ?_, by decide⟩
  · simp [at32_settimeout, at32_settimeout_loop, exampleConfig, exampleDevice,
      IWDG_MAXTIMEOUT, IWDG_FMIN, OK]
  · simp [at32_settimeout, at32_settimeout_loop, exampleConfig, exampleDevice,
      IWDG_MAXTIMEOUT, IWDG_FMIN, OK]

/-- For a calibrated frequency below 4 Hz the prescaler search stops at code 0
with a counter frequency of zero. -/
theorem at32_settimeout_loop_of_lt_four (cfg : Config) (lsifreq timeout : Nat)
    (h4 : lsifreq < 4) :
    at32_settimeout_loop cfg lsifreq timeout 0 (Nat.zero_le 6) =
      { prescaler := 0, fiwdg := 0, reload := 0 } := by
  have hz : lsifreq >>> (0 + 2) = 0 := by
    rw [Nat.shiftRight_eq_div_pow]
    have : lsifreq / 2 ^ (0 + 2) = lsifreq / 4 := rfl
    omega
  rw [at32_settimeout_loop]
  simp [hz]

/-- C23: on a device that is not started, for an in-range timeout (`lsifreq`
and `timeout` being `uint32_t` values): when `lsifreq ≥ 4`, `at32_settimeout`
returns `OK`, the counter frequency `fiwdg = lsifreq >> (p+2)` at the selected
prescaler `p` is not zero, and every prescaler the search has passed has a
counter frequency above `AT32_LSI_FREQUENCY / 256`, so `1000 * reload / fiwdg`
does not divide by zero; when `lsifreq < 4` the search stops at prescaler 0
with `fiwdg = 0`, the divisor is zero and the call does not return. -/
theorem at32_settimeout_division (cfg : Config) (priv : at32_lowerhalf_s)
    (timeout : Nat) (hl : priv.lsifreq < 2 ^ 32) (ht : timeout < 2 ^ 32)
    (hs : priv.started = false) (h1 : 1 ≤ timeout)
    (h2 : timeout ≤ IWDG_MAXTIMEOUT cfg) :
    (4 ≤ priv.lsifreq →
      ∃ o, at32_settimeout cfg priv timeout = some o ∧ o.ret = OK ∧
        priv.lsifreq >>> (o.priv.prescaler + 2) ≠ 0 ∧
        (at32_settimeout_loop cfg priv.lsifreq timeout 0 (Nat.zero_le 6)).fiwdg =
          priv.lsifreq >>> (o.priv.prescaler + 2) ∧
        ∀ q, q < o.priv.prescaler →
          cfg.AT32_LSI_FREQUENCY / 256 < priv.lsifreq >>> (q + 2)) ∧
    (priv.lsifreq < 4 →
      (at32_settimeout_loop cfg priv.lsifreq timeout 0 (Nat.zero_le 6)).prescaler = 0 ∧
      (at32_settimeout_loop cfg priv.lsifreq timeout 0 (Nat.zero_le 6)).fiwdg = 0 ∧
      priv.lsifreq >>> (0 + 2) = 0 ∧
      at32_settimeout cfg priv timeout = none) := by
  constructor
  · intro h4
    obtain ⟨o, ho⟩ :=
      at32_settimeout_accepted_returns cfg priv timeout hs h1 h2 h4 hl ht
    obtain ⟨p, f, r, c, -, hf, hf0, -, -, hpass, -, hshape⟩ :=
      at32_settimeout_accepted_shape cfg priv timeout o hs h1 h2 ho
    have hin : ¬ (timeout < 1 ∨ timeout > IWDG_MAXTIMEOUT cfg) := by omega
    have hsel : (at32_settimeout_loop cfg priv.lsifreq timeout 0 (Nat.zero_le 6)).fiwdg =
        priv.lsifreq >>> (o.priv.prescaler + 2) := by
      obtain ⟨-, b2, b3, -, -, -⟩ :=
        at32_settimeout_loop_spec cfg priv.lsifreq timeout 6 0 (Nat.zero_le 6) rfl
      have hacc := at32_settimeout_of_accepted cfg priv timeout hin hs
      rw [ho] at hacc
      simp only at hacc
      split at hacc
      · cases hacc
      · have hpre : o.priv.prescaler =
            (at32_settimeout_loop cfg priv.lsifreq timeout 0 (Nat.zero_le 6)).prescaler %
              2 ^ 8 := by
          rw [Option.some.inj hacc]
        rw [hpre, Nat.mod_eq_of_lt (by omega)]
        exact b3
    refine ⟨o, ho, ?_, ?_, hsel, ?_⟩
    · rw [hshape]
    · rw [hshape]
      show priv.lsifreq >>> (p + 2) ≠ 0
      rw [← hf]
      exact hf0
    · intro q hq
      have hq' : q < p := by
        rw [hshape] at hq
        exact hq
      have hnot := hpass q hq'
      rw [fiwdg_mul_timeout_mod priv.lsifreq timeout (q + 2) hl ht] at hnot
      by_contra hle
      exact hnot (reload_fits_of_le_fmin cfg _ timeout (Nat.le_of_not_lt hle) h2)
  · intro h4
    have hloop := at32_settimeout_loop_of_lt_four cfg priv.lsifreq timeout h4
    have hin : ¬ (timeout < 1 ∨ timeout > IWDG_MAXTIMEOUT cfg) := by omega
    refine ⟨by rw [hloop], by rw [hloop], ?_, ?_⟩
    · rw [Nat.shiftRight_eq_div_pow]
      have : priv.lsifreq / 2 ^ (0 + 2) = priv.lsifreq / 4 := rfl
      omega
    · rw [at32_settimeout_of_accepted cfg priv timeout hin hs, hloop]
      rfl

/-- C23 on the example device (32 kHz, 5000 ms: `fiwdg = 500` at prescaler 4,
every passed prescaler above `30000 / 256 = 117`) and on a device calibrated
at 3 Hz, where the call does not return. -/
theorem at32_settimeout_division_witness :
    (∃ o, at32_settimeout exampleConfig exampleDevice 5000 = some o ∧ o.ret = OK ∧
      exampleDevice.lsifreq >>> (o.priv.prescaler + 2) ≠ 0 ∧
      (at32_settimeout_loop exampleConfig exampleDevice.lsifreq 5000 0
        (Nat.zero_le 6)).fiwdg = exampleDevice.lsifreq >>> (o.priv.prescaler + 2) ∧
      ∀ q, q < o.priv.prescaler →
        exampleConfig.AT32_LSI_FREQUENCY / 256 < exampleDevice.lsifreq >>> (q + 2)) ∧
    at32_settimeout exampleConfig { exampleDevice with lsifreq := 3 } 5000 = none :=
  ⟨(at32_settimeout_division exampleConfig exampleDevice 5000 (by decide) (by decide)
      rfl (by decide) (by decide)).1 (by decide),
    ((at32_settimeout_division exampleConfig { exampleDevice with lsifreq := 3 } 5000
      (by decide) (by decide) rfl (by decide) (by decide)).2 (by decide)).2.2.2⟩

/-- C24 fails as stated: with the example configuration and the in-range
timeout of 1 ms, a device calibrated at 38 kHz gets reload 9 and the achieved
timeout `floor(9000 / 9500) = 0` ms, and a device calibrated at 4 Hz gets
reload 0 and timeout 0; `at32_getstatus` reports the zero timeout. -/
theorem at32_settimeout_zero_timeout :
    at32_settimeout exampleConfig { exampleDevice with lsifreq := 38000 } 1 =
      some { ret := OK
             priv := { exampleDevice with
                       lsifreq := 38000, timeout := 0, prescaler := 0, reload := 9 }
             events := [] } ∧
    at32_settimeout exampleConfig { exampleDevice with lsifreq := 4 } 1 =
      some { ret := OK
             priv := { exampleDevice with
                       lsifreq := 4, timeout := 0, prescaler := 0, reload := 0 }
             events := [] } ∧
    (at32_getstatus exampleConfig
      { exampleDevice with lsifreq := 38000, timeout := 0, prescaler := 0, reload := 9 }
      0).2.timeout = 0 := by
  refine ⟨?_, ?_, rfl⟩
  · simp [at32_settimeout, at32_settimeout_loop, exampleConfig, exampleDevice,
      IWDG_MAXTIMEOUT, IWDG_FMIN, OK]
  · simp [at32_settimeout, at32_settimeout_loop, exampleConfig, exampleDevice,
      IWDG_MAXTIMEOUT, IWDG_FMIN, OK]

/-- C24, amended: after a successful `at32_settimeout` on a device that is not
started, with `fiwdg = lsifreq >> (p+2)` the counter frequency at the selected
prescaler `p` (and `1 ≤ IWDG_RLR_MAX < 2^16`): the stored reload is at least 1
exactly when `fiwdg * timeout ≥ 1000`, the stored timeout, which
`at32_getstatus` reports, is at least 1 ms exactly when
`1000 * reload ≥ fiwdg`, and it never exceeds the request. -/
theorem at32_settimeout_nonzero_iff (cfg : Config) (priv : at32_lowerhalf_s)
    (timeout now : Nat) (o : Outcome)
    (hmin : 1 ≤ cfg.IWDG_RLR_MAX) (hmax : cfg.IWDG_RLR_MAX < 2 ^ 16)
    (hl : priv.lsifreq < 2 ^ 32) (ht : timeout < 2 ^ 32)
    (hs : priv.started = false) (h1 : 1 ≤ timeout)
    (h2 : timeout ≤ IWDG_MAXTIMEOUT cfg)
    (h : at32_settimeout cfg priv timeout = some o) :
    (1 ≤ o.priv.reload ↔ 1000 ≤ (priv.lsifreq >>> (o.priv.prescaler + 2)) * timeout) ∧
    (1 ≤ o.priv.timeout ↔
      priv.lsifreq >>> (o.priv.prescaler + 2) ≤ 1000 * o.priv.reload) ∧
    o.priv.timeout ≤ timeout ∧
    (at32_getstatus cfg o.priv now).2.timeout = o.priv.timeout := by
  have hle := at32_settimeout_achieved_le cfg priv timeout o hs h1 h2 h
  obtain ⟨p, f, r, c, -, hf, hf0, hr, -, -, hc, ho⟩ :=
    at32_settimeout_accepted_shape cfg priv timeout o hs h1 h2 h
  have hmod := fiwdg_mul_timeout_mod priv.lsifreq timeout (p + 2) hl ht
  subst ho
  rw [← hf] at hmod
  rw [hmod] at hr
  have hcle : c ≤ cfg.IWDG_RLR_MAX := by
    rw [hc]
    exact Nat.min_le_right _ _
  have hc32 : c % 2 ^ 32 = c := Nat.mod_eq_of_lt (by omega)
  have hc16 : c % 2 ^ 16 = c := Nat.mod_eq_of_lt (by omega)
  have hm : 1000 * c % 2 ^ 32 = 1000 * c := Nat.mod_eq_of_lt (by omega)
  have hfpos : 0 < f := Nat.pos_of_ne_zero hf0
  refine ⟨?_, ?_, hle, rfl⟩
  · show 1 ≤ c % 2 ^ 16 ↔ 1000 ≤ priv.lsifreq >>> (p + 2) * timeout
    rw [hc16, ← hf, hc, hr]
    constructor
    · intro h1c
      have hr1 : 1 ≤ f * timeout / 1000 := le_trans h1c (Nat.min_le_left _ _)
      have := Nat.div_mul_le_self (f * timeout) 1000
      omega
    · intro hbig
      have hr1 : 1 ≤ f * timeout / 1000 := by
        rw [Nat.le_div_iff_mul_le (by norm_num)]
        omega
      exact le_min hr1 hmin
  · show 1 ≤ 1000 * (c % 2 ^ 32) % 2 ^ 32 / f ↔
      priv.lsifreq >>> (p + 2) ≤ 1000 * (c % 2 ^ 16)
    rw [hc32, hc16, hm, ← hf, Nat.le_div_iff_mul_le hfpos]
    omega

/-- The amended C24 on the example device with a timeout of 2 ms:
`fiwdg = 8000`, reload 16 and the achieved timeout 2 ms are all nonzero. -/
theorem at32_settimeout_nonzero_iff_witness :
    at32_settimeout exampleConfig exampleDevice 2 =
      some { ret := OK
             priv := { exampleDevice with timeout := 2, prescaler := 0, reload := 16 }
             events := [] } ∧
    (1 ≤ 16 ↔ 1000 ≤ (exampleDevice.lsifreq >>> (0 + 2)) * 2) ∧
    (1 ≤ 2 ↔ exampleDevice.lsifreq >>> (0 + 2) ≤ 1000 * 16) :=
  have hev : at32_settimeout exampleConfig exampleDevice 2 =
      some { ret := OK
             priv := { exampleDevice with timeout := 2, prescaler := 0, reload := 16 }
             events := [] } := by
    simp [at32_settimeout, at32_settimeout_loop, exampleConfig, exampleDevice,
      IWDG_MAXTIMEOUT, IWDG_FMIN, OK]
  ⟨hev,
    (at32_settimeout_nonzero_iff exampleConfig exampleDevice 2 0 _ (by decide) (by decide)
      (by decide) (by decide) rfl (by decide) (by decide) hev).1,
    (at32_settimeout_nonzero_iff exampleConfig exampleDevice 2 0 _ (by decide) (by decide)
      (by decide) (by decide) rfl (by decide) (by decide) hev).2.1⟩

end At32Iwdg

namespace Arm64Backtrace

/-! ## The decrement of `*skip` -/

/-- Away from `INT_MIN` the decrement of an `int` is the mathematical one. -/
theorem wrap_int32_pred (x : Int) (h1 : -(2 ^ 31) < x) (h2 : x ≤ 2 ^ 31) :
    wrap_int32 (x - 1) = x - 1 := by
  unfold wrap_int32
  omega

/-- The value left by a decrement is an `int`. -/
theorem wrap_int32_range (x : Int) :
    -(2 ^ 31) ≤ wrap_int32 x ∧ wrap_int32 x < 2 ^ 31 := by
  unfold wrap_int32
  omega

/-! ## Where the frame walk stores -/

/-- The loop stores at consecutive indices starting at `i`, one for each unit
by which it advances `i`, and does not advance `i` beyond `size`; this holds
for every value of `*skip`. -/
theorem backtrace_loop_indices (mem : Nat → Nat) (base limit : Nat) (size : Int) :
    ∀ (n fp : Nat) (st : walk),
      (size - (st.i : Int)).toNat * 2 ^ 31 + st.skip.toNat ≤ n →
      (backtrace_loop mem base limit size fp st).writes.map Prod.fst =
          st.writes.map Prod.fst ++
            List.range' st.i ((backtrace_loop mem base limit size fp st).i - st.i) ∧
        st.i ≤ (backtrace_loop mem base limit size fp st).i ∧
        ((backtrace_loop mem base limit size fp st).i : Int) ≤ max size (st.i : Int) := by
  intro n
  induction n with
  | zero =>
    intro fp st hm
    have hsz : ¬ ((st.i : Int) < size) := by omega
    rw [backtrace_loop, dif_neg hsz]
    simp
  | succ n ih =>
    intro fp st hm
    rw [backtrace_loop]
    by_cases hsz : (st.i : Int) < size
    · rw [dif_pos hsz]
      by_cases hout : fp > limit ∨ fp < base
      · rw [if_pos hout]
        simp
      · rw [if_neg hout]
        by_cases hz : mem fp = 0
        · rw [if_pos hz]
          simp
        · rw [if_neg hz]
          by_cases hsk : st.skip ≤ 0
          · rw [dif_pos hsk]
            obtain ⟨a1, a2, a3⟩ := ih (mem fp)
              { i := st.i + 1, skip := wrap_int32 (st.skip - 1)
                writes := st.writes ++ [(st.i, mem (fp + 8))]
                reads := st.reads ++ [fp, fp + 8, fp]
                iterations := st.iterations + 1 }
              (by simp only [wrap_int32]; omega)
            generalize backtrace_loop mem base limit size (mem fp)
              { i := st.i + 1, skip := wrap_int32 (st.skip - 1)
                writes := st.writes ++ [(st.i, mem (fp + 8))]
                reads := st.reads ++ [fp, fp + 8, fp]
                iterations := st.iterations + 1 } = final at a1 a2 a3 ⊢
            simp only at a1 a2 a3
            obtain ⟨k, hk⟩ : ∃ k, final.i = st.i + 1 + k := ⟨final.i - (st.i + 1), by omega⟩
            have e1 : final.i - (st.i + 1) = k := by omega
            have e2 : final.i - st.i = k + 1 := by omega
            refine ⟨?_, by omega, ?_⟩
            · rw [a1, e1, e2, List.range'_succ]
              simp
            · rcases le_max_iff.mp a3 with h | h
              · exact le_max_of_le_left h
              · exact le_max_of_le_left (by omega)
          · rw [dif_neg hsk]
            obtain ⟨a1, a2, a3⟩ := ih (mem fp)
              { st with
                skip := wrap_int32 (st.skip - 1)
                reads := st.reads ++ [fp, fp]
                iterations := st.iterations + 1 }
              (by simp only [wrap_int32]; omega)
            simp only at a1 a2 a3
            exact ⟨a1, a2, a3⟩
    · rw [dif_neg hsz]
      simp

/-- A call of `backtrace` with `size ≥ 1` stores at the indices `0 .. i - 1`,
once each and in order, and returns `i ≤ size`, for every value of `skip`. -/
theorem backtrace_bound (mem : Nat → Nat) (base limit fp pc : Nat) (size skip : Int)
    (hsize : 1 ≤ size) :
    (backtrace mem base limit fp pc size skip).writes.map Prod.fst =
        List.range (backtrace mem base limit fp pc size skip).i ∧
      ((backtrace mem base limit fp pc size skip).i : Int) ≤ size := by
  unfold backtrace
  by_cases hpc : pc = 0
  · simp only [hpc, ne_eq, not_true_eq_false, if_false]
    obtain ⟨a1, -, a3⟩ := backtrace_loop_indices mem base limit size _ fp
      { i := 0, skip := skip, writes := [], reads := [], iterations := 0 } (le_refl _)
    simp only [List.map_nil, List.nil_append, Nat.sub_zero] at a1 a3
    constructor
    · rw [a1, List.range_eq_range']
    · rcases le_max_iff.mp a3 with h | h
      · exact h
      · omega
  · by_cases hsk : skip ≤ 0
    · simp only [ne_eq, hpc, not_false_eq_true, if_true, hsk]
      obtain ⟨a1, a2, a3⟩ := backtrace_loop_indices mem base limit size _ fp
        { i := 1, skip := wrap_int32 (skip - 1), writes := [(0, pc)], reads := [],
          iterations := 0 } (le_refl _)
      generalize backtrace_loop mem base limit size fp
        { i := 1, skip := wrap_int32 (skip - 1), writes := [(0, pc)], reads := [],
          iterations := 0 } = final at a1 a2 a3 ⊢
      simp only [List.map_cons, List.map_nil] at a1 a2 a3
      obtain ⟨k, hk⟩ : ∃ k, final.i = k + 1 := ⟨final.i - 1, by omega⟩
      have e1 : final.i - 1 = k := by omega
      constructor
      · rw [a1, e1, hk, List.range_eq_range', List.range'_succ]
        simp
      · rcases le_max_iff.mp a3 with h | h
        · exact h
        · omega
    · simp only [ne_eq, hpc, not_false_eq_true, if_true, hsk, if_false]
      obtain ⟨a1, -, a3⟩ := backtrace_loop_indices mem base limit size _ fp
        { i := 0, skip := wrap_int32 (skip - 1), writes := [], reads := [],
          iterations := 0 } (le_refl _)
      simp only [List.map_nil, List.nil_append, Nat.sub_zero] at a1 a3
      constructor
      · rw [a1, List.range_eq_range']
      · rcases le_max_iff.mp a3 with h | h
        · exact h
        · omega

/-! ## The frame walk stores the candidate sequence -/

/-- While the decrements of `*skip` stay above `INT_MIN`, the loop appends to
the stores made so far the return addresses of the frame chain, without the
first `max(*skip, 0)` and cut to `size - i` entries, at consecutive indices
starting at `i`; `n` is any number of frames that covers the skipped and the
stored ones. -/
theorem backtrace_loop_writes (mem : Nat → Nat) (base limit : Nat) (size : Int) :
    ∀ (n fp : Nat) (st : walk),
      (size - (st.i : Int)).toNat + st.skip.toNat ≤ n →
      st.skip ≤ 2 ^ 31 → size - (st.i : Int) ≤ 2 ^ 31 + min st.skip 0 →
      (backtrace_loop mem base limit size fp st).writes =
          st.writes ++
            List.enumFrom st.i
              ((((frame_chain mem base limit n fp).map (fun f => mem (f + 8))).drop
                st.skip.toNat).take (size - (st.i : Int)).toNat) ∧
        (backtrace_loop mem base limit size fp st).i =
          st.i +
            ((((frame_chain mem base limit n fp).map (fun f => mem (f + 8))).drop
              st.skip.toNat).take (size - (st.i : Int)).toNat).length := by
  intro n
  induction n with
  | zero =>
    intro fp st hm _ _
    have hsz : ¬ ((st.i : Int) < size) := by omega
    rw [backtrace_loop, dif_neg hsz]
    simp [frame_chain]
  | succ n ih =>
    intro fp st hm hhi hlo
    rw [backtrace_loop]
    by_cases hsz : (st.i : Int) < size
    · rw [dif_pos hsz]
      by_cases hout : fp > limit ∨ fp < base
      · have hbrk : fp > limit ∨ fp < base ∨ mem fp = 0 := by
          rcases hout with h | h
          · exact Or.inl h
          · exact Or.inr (Or.inl h)
        simp [frame_chain, hout, hbrk]
      · rw [if_neg hout]
        by_cases hz : mem fp = 0
        · have hbrk : fp > limit ∨ fp < base ∨ mem fp = 0 := Or.inr (Or.inr hz)
          simp [frame_chain, hz, hbrk]
        · rw [if_neg hz]
          have hbrk : ¬ (fp > limit ∨ fp < base ∨ mem fp = 0) := by
            rintro (h | h | h)
            · exact hout (Or.inl h)
            · exact hout (Or.inr h)
            · exact hz h
          have hchain : frame_chain mem base limit (n + 1) fp =
              fp :: frame_chain mem base limit n (mem fp) := by
            simp only [frame_chain, if_neg hbrk]
          have hdec : wrap_int32 (st.skip - 1) = st.skip - 1 :=
            wrap_int32_pred st.skip (by omega) hhi
          rw [hchain, List.map_cons, hdec]
          by_cases hsk : st.skip ≤ 0
          · rw [dif_pos hsk]
            obtain ⟨ih1, ih2⟩ := ih (mem fp)
              { i := st.i + 1, skip := st.skip - 1
                writes := st.writes ++ [(st.i, mem (fp + 8))]
                reads := st.reads ++ [fp, fp + 8, fp]
                iterations := st.iterations + 1 } (by simp only; omega)
              (by simp only; omega) (by simp only; omega)
            simp only at ih1 ih2
            have e1 : (st.skip - 1).toNat = 0 := by omega
            have e2 : st.skip.toNat = 0 := by omega
            have e3 : (size - ((st.i + 1 : Nat) : Int)).toNat + 1 =
                (size - (st.i : Int)).toNat := by omega
            rw [e1] at ih1 ih2
            rw [ih1, ih2, e2, ← e3]
            simp [List.enumFrom, Nat.add_assoc, Nat.add_comm 1]
          · rw [dif_neg hsk]
            obtain ⟨ih1, ih2⟩ := ih (mem fp)
              { st with
                skip := st.skip - 1
                reads := st.reads ++ [fp, fp]
                iterations := st.iterations + 1 } (by simp only; omega)
              (by simp only; omega) (by simp only; omega)
            simp only at ih1 ih2
            have e1 : st.skip.toNat = (st.skip - 1).toNat + 1 := by omega
            rw [ih1, ih2, e1]
            simp
    · rw [dif_neg hsz]
      have e : (size - (st.i : Int)).toNat = 0 := by omega
      simp [e]

/-- What `backtrace` stores: the candidate sequence without its first
`max(skip, 0)` elements, cut to `size` elements, at the indices `0, 1, ...`;
the value returned is their number.  This holds when `pc` is not stored with
`size ≤ 0` (`pc` is `NULL`, or `skip > 0`, or `size ≥ 1`) and the decrements
of `*skip` stay above `INT_MIN` (`INT_MIN + size ≤ skip`). -/
theorem backtrace_writes (mem : Nat → Nat) (base limit fp pc : Nat) (size skip : Int)
    (n : Nat) (hn : skip.toNat + size.toNat ≤ n)
    (hpre : pc = 0 ∨ 0 < skip ∨ 1 ≤ size)
    (hsize : size < 2 ^ 31) (hhi : skip < 2 ^ 31) (hlo : size - 2 ^ 31 ≤ skip) :
    (backtrace mem base limit fp pc size skip).writes =
        List.enumFrom 0
          (((candidates mem base limit fp pc n).drop skip.toNat).take size.toNat) ∧
      (backtrace mem base limit fp pc size skip).i =
        (((candidates mem base limit fp pc n).drop skip.toNat).take size.toNat).length := by
  unfold backtrace candidates
  by_cases hpc : pc = 0
  · have h := backtrace_loop_writes mem base limit size n fp
      { i := 0, skip := skip, writes := [], reads := [], iterations := 0 }
      (by simp only; omega) (by simp only; omega) (by simp only; omega)
    simp only [hpc, ne_eq, not_true_eq_false, if_false, List.nil_append]
    simpa using h
  · by_cases hsk : skip ≤ 0
    · have hsize1 : 1 ≤ size := by
        rcases hpre with h | h | h
        · exact absurd h hpc
        · omega
        · exact h
      have hdec : wrap_int32 (skip - 1) = skip - 1 :=
        wrap_int32_pred skip (by omega) (by omega)
      have h := backtrace_loop_writes mem base limit size n fp
        { i := 1, skip := skip - 1, writes := [(0, pc)], reads := [], iterations := 0 }
        (by simp only; omega) (by simp only; omega) (by simp only; omega)
      have e1 : (skip - 1).toNat = 0 := by omega
      have e2 : skip.toNat = 0 := by omega
      have e3 : size.toNat = (size - ((1 : Nat) : Int)).toNat + 1 := by omega
      simp only [e1] at h
      simp only [ne_eq, hpc, not_false_eq_true, if_true, hsk, e2, e3, hdec]
      rw [h.1, h.2]
      simp [List.enumFrom, Nat.add_comm 1]
    · have hdec : wrap_int32 (skip - 1) = skip - 1 :=
        wrap_int32_pred skip (by omega) (by omega)
      have h := backtrace_loop_writes mem base limit size n fp
        { i := 0, skip := skip - 1, writes := [], reads := [], iterations := 0 }
        (by simp only; omega) (by simp only; omega) (by simp only; omega)
      have e1 : skip.toNat = (skip - 1).toNat + 1 := by omega
      simp only [ne_eq, hpc, not_false_eq_true, if_true, hsk, if_false, e1, hdec]
      rw [h.1, h.2]
      simp

/-- C18: `up_backtrace` returns 0 and stores nothing when `size ≤ 0` or
`buffer` is `NULL`; otherwise, for every `tcb`, execution context (task or
interrupt, where two stacks are walked in turn) and memory contents, the value
returned satisfies `0 ≤ ret ≤ size` and the stores go to `buffer[0]`, ...,
`buffer[ret - 1]`, once each and in this order, so that no store has an index
of `ret` or more. -/
theorem up_backtrace_bounded (env : Env) (tcb buffer : Nat) (size skip : Int) :
    ((size ≤ 0 ∨ buffer = 0) →
      (up_backtrace env tcb buffer size skip).ret = 0 ∧
      (up_backtrace env tcb buffer size skip).writes = []) ∧
    (¬ (size ≤ 0 ∨ buffer = 0) →
      0 ≤ (up_backtrace env tcb buffer size skip).ret ∧
      (up_backtrace env tcb buffer size skip).ret ≤ size) ∧
    (up_backtrace env tcb buffer size skip).writes.map Prod.fst =
      List.range (up_backtrace env tcb buffer size skip).ret.toNat ∧
    (∀ w ∈ (up_backtrace env tcb buffer size skip).writes,
      (w.1 : Int) < (up_backtrace env tcb buffer size skip).ret) := by
  have key : (¬ (size ≤ 0 ∨ buffer = 0) →
      0 ≤ (up_backtrace env tcb buffer size skip).ret ∧
      (up_backtrace env tcb buffer size skip).ret ≤ size) ∧
    (up_backtrace env tcb buffer size skip).writes.map Prod.fst =
      List.range (up_backtrace env tcb buffer size skip).ret.toNat := by
    unfold up_backtrace
    by_cases hguard : size ≤ 0 ∨ buffer = 0
    · simp [hguard]
    · have hsize : 1 ≤ size := by omega
      simp only [if_neg hguard]
      by_cases hself : tcb = 0 ∨ tcb = env.running_task
      · simp only [if_pos hself]
        by_cases hint : env.up_interrupt_context = true
        · simp only [if_pos hint]
          generalize (if env.CONFIG_ARCH_INTERRUPTSTACK > 7 then env.intstackbase
            else (env.tcb env.running_task).stack_base_ptr) = ibase
          generalize (if env.CONFIG_ARCH_INTERRUPTSTACK > 7 then
            env.intstackbase + env.INTSTACK_SIZE
            else (env.tcb env.running_task).stack_base_ptr +
              (env.tcb env.running_task).adj_stack_size) = ilimit
          obtain ⟨b1, b2⟩ := backtrace_bound env.mem ibase ilimit env.frame_address 0
            size skip hsize
          generalize backtrace env.mem ibase ilimit env.frame_address 0 size skip = w1 at *
          by_cases hmore : (w1.i : Int) < size
          · simp only [if_pos hmore]
            obtain ⟨c1, c2⟩ := backtrace_bound env.mem
              (env.tcb env.running_task).stack_base_ptr
              ((env.tcb env.running_task).stack_base_ptr +
                (env.tcb env.running_task).adj_stack_size)
              env.running_regs_X29 env.running_regs_ELR (size - (w1.i : Int)) w1.skip
              (by omega)
            generalize backtrace env.mem (env.tcb env.running_task).stack_base_ptr
              ((env.tcb env.running_task).stack_base_ptr +
                (env.tcb env.running_task).adj_stack_size)
              env.running_regs_X29 env.running_regs_ELR (size - (w1.i : Int)) w1.skip =
              w2 at *
            refine ⟨fun _ => ⟨by omega, by omega⟩, ?_⟩
            have hret : ((w1.i : Int) + (w2.i : Int)).toNat = w1.i + w2.i := by omega
            rw [hret, List.range_add, List.map_append, b1, List.map_map, ← c1,
              List.map_map]
            rfl
          · simp only [if_neg hmore]
            refine ⟨fun _ => ⟨by omega, by omega⟩, ?_⟩
            rw [b1]
            simp
        · simp only [if_neg hint]
          obtain ⟨b1, b2⟩ := backtrace_bound env.mem
            (env.tcb env.running_task).stack_base_ptr
            ((env.tcb env.running_task).stack_base_ptr +
              (env.tcb env.running_task).adj_stack_size)
            env.frame_address 0 size skip hsize
          refine ⟨fun _ => ⟨by omega, b2⟩, ?_⟩
          rw [b1]
          simp
      · simp only [if_neg hself]
        obtain ⟨b1, b2⟩ := backtrace_bound env.mem (env.tcb tcb).stack_base_ptr
          ((env.tcb tcb).stack_base_ptr + (env.tcb tcb).adj_stack_size)
          env.running_regs_X29 env.running_regs_ELR size skip hsize
        refine ⟨fun _ => ⟨by omega, b2⟩, ?_⟩
        rw [b1]
        simp
  refine ⟨?_, key.1, key.2, ?_⟩
  · intro hguard
    unfold up_backtrace
    simp [hguard]
  · intro w hw
    have hmem : w.1 ∈ (up_backtrace env tcb buffer size skip).writes.map Prod.fst :=
      List.mem_map_of_mem Prod.fst hw
    rw [key.2, List.mem_range] at hmem
    omega

/-- C18 on the example environment in task context with `size = 2`: the two
most recent return addresses go to `buffer[0]` and `buffer[1]` and 2 is
returned, although the chain has a third frame. -/
theorem up_backtrace_bounded_witness :
    up_backtrace exampleEnv 0 0x9000 2 0 =
      { ret := 2, writes := [(0, 0xa1), (1, 0xa2)],
        calls := [{ base := 0x1000, limit := 0x1100, fp := 0x1000, pc := 0,
                    size := 2, skip := 0 }],
        reads := [0x1000, 0x1008, 0x1000, 0x1010, 0x1018, 0x1010] } ∧
    (0 ≤ (up_backtrace exampleEnv 0 0x9000 2 0).ret ∧
      (up_backtrace exampleEnv 0 0x9000 2 0).ret ≤ 2) ∧
    (up_backtrace exampleEnv 0 0x9000 0 0).ret = 0 :=
  ⟨by simp [up_backtrace, backtrace, backtrace_loop, wrap_int32, exampleEnv, exampleMem],
    (up_backtrace_bounded exampleEnv 0 0x9000 2 0).2.1 (by decide),
    ((up_backtrace_bounded exampleEnv 0 0x9000 0 0).1 (Or.inl (by decide))).1⟩

/-- C19 fails as stated: with `skip = INT_MIN` the first store decrements
`*skip` to `INT_MAX` and the frames that follow are skipped, not stored.  On
the example stack with `pc = 0xa0` and `size = 3` the candidates are `0xa0,
0xa1, 0xa2` and none is to be dropped, but `backtrace` stores `0xa0` alone,
returns 1 and leaves `*skip = 2147483645`.  The same happens through
`up_backtrace(NULL, buffer, 3, INT_MIN)` in task context, which returns 1 and
stores `0xa1` alone where the candidates are `0xa1, 0xa2`. -/
theorem backtrace_skip_int_min :
    backtrace exampleMem 0x1000 0x1100 0x1000 0xa0 3 (-2147483648) =
      { i := 1, skip := 2147483645, writes := [(0, 0xa0)],
        reads := [0x1000, 0x1000, 0x1010, 0x1010, 0x1020], iterations := 2 } ∧
    ((candidates exampleMem 0x1000 0x1100 0x1000 0xa0 8).drop
      (-2147483648 : Int).toNat).take (3 : Int).toNat = [0xa0, 0xa1, 0xa2] ∧
    (backtrace exampleMem 0x1000 0x1100 0x1000 0xa0 3 (-2147483648)).writes.map Prod.snd ≠
      ((candidates exampleMem 0x1000 0x1100 0x1000 0xa0 8).drop
        (-2147483648 : Int).toNat).take (3 : Int).toNat ∧
    up_backtrace exampleEnv 0 0x9000 3 (-2147483648) =
      { ret := 1, writes := [(0, 0xa1)],
        calls := [{ base := 0x1000, limit := 0x1100, fp := 0x1000, pc := 0,
                    size := 3, skip := -2147483648 }],
        reads := [0x1000, 0x1008, 0x1000, 0x1010, 0x1010, 0x1020] } ∧
    ((candidates exampleMem 0x1000 0x1100 0x1000 0 8).drop
      (-2147483648 : Int).toNat).take (3 : Int).toNat = [0xa1, 0xa2] := by
  have h : backtrace exampleMem 0x1000 0x1100 0x1000 0xa0 3 (-2147483648) =
      { i := 1, skip := 2147483645, writes := [(0, 0xa0)],
        reads := [0x1000, 0x1000, 0x1010, 0x1010, 0x1020], iterations := 2 } := by
    simp [backtrace, backtrace_loop, wrap_int32, exampleMem]
  refine ⟨h, by decide, ?_, ?_, by decide⟩
  · rw [h]
    decide
  · simp [up_backtrace, backtrace, backtrace_loop, wrap_int32, exampleEnv, exampleMem]

/-- C19, amended: for `int` arguments with `INT_MIN + size ≤ skip`, so that
the decrements of `*skip` stay above `INT_MIN`, and with `pc` `NULL`, or
`skip > 0`, or `size ≥ 1` (as in every call made by `up_backtrace`), the
addresses `backtrace` stores are the candidate sequence (`pc` if not `NULL`,
then the saved return address of each frame of the chain from `fp`, taken
while `base ≤ f ≤ limit` and `*f ≠ 0`) without its first `max(skip, 0)`
elements and cut to at most `size` elements, most recent call first, at the
indices `0, 1, ...`; the value returned is their number, and it is `size` when
at least `size` candidates remain after the skipped ones.  `n` is any number
of frames that covers the skipped and the stored candidates; `Int.toNat` is
`max(·, 0)`. -/
theorem backtrace_candidates (mem : Nat → Nat) (base limit fp pc : Nat)
    (size skip : Int) (n : Nat) (hn : skip.toNat + size.toNat ≤ n)
    (hpre : pc = 0 ∨ 0 < skip ∨ 1 ≤ size)
    (hsize : size < 2 ^ 31) (hhi : skip < 2 ^ 31) (hlo : size - 2 ^ 31 ≤ skip) :
    (backtrace mem base limit fp pc size skip).writes.map Prod.snd =
      ((candidates mem base limit fp pc n).drop skip.toNat).take size.toNat ∧
    (backtrace mem base limit fp pc size skip).writes.map Prod.fst =
      List.range (backtrace mem base limit fp pc size skip).i ∧
    (backtrace mem base limit fp pc size skip).i =
      (((candidates mem base limit fp pc n).drop skip.toNat).take size.toNat).length ∧
    (backtrace mem base limit fp pc size skip).i ≤ size.toNat ∧
    (size.toNat ≤ ((candidates mem base limit fp pc n).drop skip.toNat).length →
      (backtrace mem base limit fp pc size skip).i = size.toNat) := by
  obtain ⟨h1, h2⟩ := backtrace_writes mem base limit fp pc size skip n hn hpre hsize hhi hlo
  refine ⟨?_, ?_, h2, ?_, ?_⟩
  · rw [h1, List.enumFrom_map_snd]
  · rw [h1, h2, List.enumFrom_map_fst, List.range_eq_range']
  · rw [h2, List.length_take]
    exact Nat.min_le_left _ _
  · intro hrem
    rw [h2, List.length_take]
    exact Nat.min_eq_left hrem

/-- The amended C19 on the example stack with `pc = 0xa0`, `skip = 1` and
`size = 2`: the candidates are `0xa0, 0xa1, 0xa2`, the first is skipped and the
other two are stored. -/
theorem backtrace_candidates_witness :
    candidates exampleMem 0x1000 0x1100 0x1000 0xa0 3 = [0xa0, 0xa1, 0xa2] ∧
    (backtrace exampleMem 0x1000 0x1100 0x1000 0xa0 2 1).writes =
      [(0, 0xa1), (1, 0xa2)] ∧
    (backtrace exampleMem 0x1000 0x1100 0x1000 0xa0 2 1).writes.map Prod.snd =
      ((candidates exampleMem 0x1000 0x1100 0x1000 0xa0 3).drop (1 : Int).toNat).take
        (2 : Int).toNat :=
  ⟨by decide,
    by simp [backtrace, backtrace_loop, wrap_int32, exampleMem],
    (backtrace_candidates exampleMem 0x1000 0x1100 0x1000 0xa0 2 1 3 (by decide)
      (Or.inr (Or.inl (by decide))) (by decide) (by decide) (by decide)).1⟩

/-! ## Termination and the iteration count -/

/-- The accounting of the loop while the decrements of `*skip` stay above
`INT_MIN`: every completed iteration either uses up one unit of a positive
`*skip` or stores one address. -/
theorem backtrace_loop_iterations (mem : Nat → Nat) (base limit : Nat) (size : Int) :
    ∀ (n fp : Nat) (st : walk),
      (size - (st.i : Int)).toNat + st.skip.toNat ≤ n →
      st.skip ≤ 2 ^ 31 → size - (st.i : Int) ≤ 2 ^ 31 + min st.skip 0 →
      (backtrace_loop mem base limit size fp st).iterations +
          (backtrace_loop mem base limit size fp st).skip.toNat + st.i =
        st.iterations + st.skip.toNat + (backtrace_loop mem base limit size fp st).i ∧
      st.i ≤ (backtrace_loop mem base limit size fp st).i ∧
      (backtrace_loop mem base limit size fp st).skip.toNat ≤ st.skip.toNat ∧
      ((backtrace_loop mem base limit size fp st).i : Int) ≤ max size (st.i : Int) := by
  intro n
  induction n with
  | zero =>
    intro fp st hm _ _
    have hsz : ¬ ((st.i : Int) < size) := by omega
    rw [backtrace_loop, dif_neg hsz]
    refine ⟨rfl, le_refl _, le_refl _, le_max_right _ _⟩
  | succ n ih =>
    intro fp st hm hhi hlo
    rw [backtrace_loop]
    by_cases hsz : (st.i : Int) < size
    · rw [dif_pos hsz]
      by_cases hout : fp > limit ∨ fp < base
      · rw [if_pos hout]
        refine ⟨rfl, le_refl _, le_refl _, le_max_right _ _⟩
      · rw [if_neg hout]
        by_cases hz : mem fp = 0
        · rw [if_pos hz]
          refine ⟨rfl, le_refl _, le_refl _, le_max_right _ _⟩
        · rw [if_neg hz]
          have hdec : wrap_int32 (st.skip - 1) = st.skip - 1 :=
            wrap_int32_pred st.skip (by omega) hhi
          rw [hdec]
          by_cases hsk : st.skip ≤ 0
          · rw [dif_pos hsk]
            obtain ⟨a1, a2, a3, a4⟩ := ih (mem fp)
              { i := st.i + 1, skip := st.skip - 1
                writes := st.writes ++ [(st.i, mem (fp + 8))]
                reads := st.reads ++ [fp, fp + 8, fp]
                iterations := st.iterations + 1 } (by simp only; omega)
              (by simp only; omega) (by simp only; omega)
            simp only at a1 a2 a3 a4
            refine ⟨by omega, by omega, by omega, ?_⟩
            rcases le_max_iff.mp a4 with h | h
            · exact le_max_of_le_left h
            · exact le_max_of_le_left (by omega)
          · rw [dif_neg hsk]
            obtain ⟨a1, a2, a3, a4⟩ := ih (mem fp)
              { st with
                skip := st.skip - 1
                reads := st.reads ++ [fp, fp]
                iterations := st.iterations + 1 } (by simp only; omega)
              (by simp only; omega) (by simp only; omega)
            simp only at a1 a2 a3 a4
            exact ⟨by omega, a2, by omega, a4⟩
    · rw [dif_neg hsz]
      refine ⟨rfl, le_refl _, le_refl _, le_max_right _ _⟩

/-- The number of iterations the loop makes from a state with `int` values is
at most `loop_bound`, for every memory; on a frame whose saved frame pointer
points to the frame itself it is exactly `loop_bound`. -/
theorem backtrace_loop_iterations_le (mem : Nat → Nat) (base limit : Nat) (size : Int) :
    ∀ (n fp : Nat) (st : walk),
      (size - (st.i : Int)).toNat * 2 ^ 31 + st.skip.toNat ≤ n →
      -(2 ^ 31) ≤ st.skip → st.skip < 2 ^ 31 → size - (st.i : Int) < 2 ^ 31 →
      (backtrace_loop mem base limit size fp st).iterations ≤
          st.iterations + loop_bound size st ∧
        (mem fp = fp → base ≤ fp → fp ≤ limit → fp ≠ 0 →
          (backtrace_loop mem base limit size fp st).iterations =
            st.iterations + loop_bound size st) := by
  intro n
  induction n with
  | zero =>
    intro fp st hm _ _ _
    have hsz : ¬ ((st.i : Int) < size) := by omega
    have hb : loop_bound size st = 0 := by
      unfold loop_bound
      rw [if_pos (by omega)]
    rw [backtrace_loop, dif_neg hsz, hb]
    exact ⟨le_refl _, fun _ _ _ _ => rfl⟩
  | succ n ih =>
    intro fp st hm hlo hhi hsize
    rw [backtrace_loop]
    by_cases hsz : (st.i : Int) < size
    · rw [dif_pos hsz]
      by_cases hout : fp > limit ∨ fp < base
      · rw [if_pos hout]
        refine ⟨Nat.le_add_right _ _, fun _ hb hl _ => ?_⟩
        omega
      · rw [if_neg hout]
        by_cases hz : mem fp = 0
        · rw [if_pos hz]
          refine ⟨Nat.le_add_right _ _, fun hself _ _ h0 => ?_⟩
          exact absurd (hself ▸ hz) h0
        · rw [if_neg hz]
          by_cases hsk : st.skip ≤ 0
          · rw [dif_pos hsk]
            obtain ⟨a1, a2⟩ := ih (mem fp)
              { i := st.i + 1, skip := wrap_int32 (st.skip - 1)
                writes := st.writes ++ [(st.i, mem (fp + 8))]
                reads := st.reads ++ [fp, fp + 8, fp]
                iterations := st.iterations + 1 }
              (by simp only [wrap_int32]; omega)
              (wrap_int32_range _).1 (wrap_int32_range _).2 (by simp only; omega)
            generalize backtrace_loop mem base limit size (mem fp)
              { i := st.i + 1, skip := wrap_int32 (st.skip - 1)
                writes := st.writes ++ [(st.i, mem (fp + 8))]
                reads := st.reads ++ [fp, fp + 8, fp]
                iterations := st.iterations + 1 } = final at a1 a2 ⊢
            constructor
            · simp only [loop_bound, wrap_int32] at a1 ⊢
              split_ifs at a1 ⊢ <;> omega
            · intro hself hb hl h0
              have a3 := a2 (by rw [hself]; exact hself) (by rw [hself]; exact hb)
                (by rw [hself]; exact hl) (by rw [hself]; exact h0)
              simp only [loop_bound, wrap_int32] at a3 ⊢
              split_ifs at a3 ⊢ <;> omega
          · rw [dif_neg hsk]
            obtain ⟨a1, a2⟩ := ih (mem fp)
              { st with
                skip := wrap_int32 (st.skip - 1)
                reads := st.reads ++ [fp, fp]
                iterations := st.iterations + 1 }
              (by simp only [wrap_int32]; omega)
              (wrap_int32_range _).1 (wrap_int32_range _).2 (by simp only; omega)
            generalize backtrace_loop mem base limit size (mem fp)
              { st with
                skip := wrap_int32 (st.skip - 1)
                reads := st.reads ++ [fp, fp]
                iterations := st.iterations + 1 } = final at a1 a2 ⊢
            constructor
            · simp only [loop_bound, wrap_int32] at a1 ⊢
              split_ifs at a1 ⊢ <;> omega
            · intro hself hb hl h0
              have a3 := a2 (by rw [hself]; exact hself) (by rw [hself]; exact hb)
                (by rw [hself]; exact hl) (by rw [hself]; exact h0)
              simp only [loop_bound, wrap_int32] at a3 ⊢
              split_ifs at a3 ⊢ <;> omega
    · rw [dif_neg hsz]
      have hb : loop_bound size st = 0 := by
        unfold loop_bound
        rw [if_pos (by omega)]
      rw [hb]
      exact ⟨le_refl _, fun _ _ _ _ => rfl⟩

/-- C25 fails as stated: on a frame whose saved frame pointer points to the
frame itself, `backtrace` called with `pc = NULL`, `size = 2` and
`skip = INT_MIN`, the call that `up_backtrace(NULL, buffer, 2, INT_MIN)` makes
in task context, stores one address, which decrements `*skip` to `INT_MAX`,
then skips `2 ^ 31 - 1` frames and stores the second address: `2 ^ 31 + 1`
iterations, not at most `max(skip, 0) + size = 2`. -/
theorem backtrace_iterations_wrap :
    (up_backtrace exampleLoopEnv 0 0x9000 2 (-2147483648)).calls =
      [{ base := 0x2000, limit := 0x2100, fp := 0x2000, pc := 0, size := 2,
         skip := -2147483648 }] ∧
    exampleLoopMem 0x2000 = 0x2000 ∧
    (backtrace exampleLoopMem 0x2000 0x2100 0x2000 0 2 (-2147483648)).iterations =
      2147483649 ∧
    ¬ ((backtrace exampleLoopMem 0x2000 0x2100 0x2000 0 2 (-2147483648)).iterations ≤
      (-2147483648 : Int).toNat + (2 : Int).toNat) := by
  have e : backtrace exampleLoopMem 0x2000 0x2100 0x2000 0 2 (-2147483648) =
      backtrace_loop exampleLoopMem 0x2000 0x2100 2 0x2000
        { i := 0, skip := -2147483648, writes := [], reads := [], iterations := 0 } := by
    simp [backtrace]
  have h := (backtrace_loop_iterations_le exampleLoopMem 0x2000 0x2100 2 _ 0x2000
    { i := 0, skip := -2147483648, writes := [], reads := [], iterations := 0 }
    (le_refl _) (by decide) (by decide) (by decide)).2
    (by decide) (by decide) (by decide) (by decide)
  have hb : loop_bound 2
      { i := 0, skip := -2147483648, writes := [], reads := [], iterations := 0 } =
      2147483649 := by
    decide
  rw [hb] at h
  rw [e, h]
  refine ⟨?_, by decide, rfl, by decide⟩
  simp [up_backtrace, exampleLoopEnv]

/-- C25, amended: `backtrace` is a total function of its arguments, whatever
the memory holds (its loop is defined by recursion on
`(size - i) * 2 ^ 31 + max(*skip, 0)`, which every iteration decreases), so it
ends on cyclic frame chains too.  For `int` arguments with `size ≥ 0` the
number of completed loop iterations is at most
`max(skip, 0) + size + (2 ^ 31 - 1)`, and at most `max(skip, 0) + size` when
`INT_MIN + size ≤ skip`, so that the decrements of `*skip` stay above
`INT_MIN`.  In the loop, entered in any state from which the decrements stay
above `INT_MIN`, the iterations made are the units of positive `*skip` used up
plus the addresses stored. -/
theorem backtrace_iterations_bound (mem : Nat → Nat) (base limit fp pc : Nat)
    (size skip : Int) (hsize0 : 0 ≤ size) (hsize : size < 2 ^ 31)
    (hlo : -(2 ^ 31) ≤ skip) (hhi : skip < 2 ^ 31) :
    (backtrace mem base limit fp pc size skip).iterations ≤
      skip.toNat + size.toNat + (2 ^ 31 - 1) ∧
    (size - 2 ^ 31 ≤ skip →
      (backtrace mem base limit fp pc size skip).iterations ≤ skip.toNat + size.toNat) ∧
    ∀ (fp2 : Nat) (st : walk),
      st.skip ≤ 2 ^ 31 → size - (st.i : Int) ≤ 2 ^ 31 + min st.skip 0 →
      (backtrace_loop mem base limit size fp2 st).iterations =
        st.iterations +
          (st.skip.toNat - (backtrace_loop mem base limit size fp2 st).skip.toNat) +
          ((backtrace_loop mem base limit size fp2 st).i - st.i) := by
  have hloop : ∀ (fp2 : Nat) (st : walk),
      st.skip ≤ 2 ^ 31 → size - (st.i : Int) ≤ 2 ^ 31 + min st.skip 0 →
      (backtrace_loop mem base limit size fp2 st).iterations =
        st.iterations +
          (st.skip.toNat - (backtrace_loop mem base limit size fp2 st).skip.toNat) +
          ((backtrace_loop mem base limit size fp2 st).i - st.i) := by
    intro fp2 st h1 h2
    obtain ⟨a1, a2, a3, -⟩ := backtrace_loop_iterations mem base limit size
      ((size - (st.i : Int)).toNat + st.skip.toNat) fp2 st (le_refl _) h1 h2
    omega
  have hmain : (backtrace mem base limit fp pc size skip).iterations ≤
        skip.toNat + size.toNat + (2 ^ 31 - 1) ∧
      (size - 2 ^ 31 ≤ skip →
        (backtrace mem base limit fp pc size skip).iterations ≤
          skip.toNat + size.toNat) := by
    unfold backtrace
    by_cases hpc : pc = 0
    · have h := (backtrace_loop_iterations_le mem base limit size _ fp
        { i := 0, skip := skip, writes := [], reads := [], iterations := 0 }
        (le_refl _) hlo hhi (by simp only; omega)).1
      simp only [hpc, ne_eq, not_true_eq_false, if_false]
      simp only [loop_bound] at h
      constructor
      · split_ifs at h <;> omega
      · intro hno
        split_ifs at h <;> omega
    · by_cases hsk : skip ≤ 0
      · have h := (backtrace_loop_iterations_le mem base limit size _ fp
          { i := 1, skip := wrap_int32 (skip - 1), writes := [(0, pc)], reads := [],
            iterations := 0 }
          (le_refl _) (wrap_int32_range _).1 (wrap_int32_range _).2
          (by simp only; omega)).1
        simp only [ne_eq, hpc, not_false_eq_true, if_true, hsk]
        generalize backtrace_loop mem base limit size fp
          { i := 1, skip := wrap_int32 (skip - 1), writes := [(0, pc)], reads := [],
            iterations := 0 } = final at h ⊢
        simp only [loop_bound, wrap_int32] at h
        constructor
        · split_ifs at h <;> omega
        · intro hno
          split_ifs at h <;> omega
      · have h := (backtrace_loop_iterations_le mem base limit size _ fp
          { i := 0, skip := wrap_int32 (skip - 1), writes := [], reads := [],
            iterations := 0 }
          (le_refl _) (wrap_int32_range _).1 (wrap_int32_range _).2
          (by simp only; omega)).1
        simp only [ne_eq, hpc, not_false_eq_true, if_true, hsk, if_false]
        generalize backtrace_loop mem base limit size fp
          { i := 0, skip := wrap_int32 (skip - 1), writes := [], reads := [],
            iterations := 0 } = final at h ⊢
        simp only [loop_bound, wrap_int32] at h
        constructor
        · split_ifs at h <;> omega
        · intro hno
          split_ifs at h <;> omega
  exact ⟨hmain.1, hmain.2, hloop⟩

/-- The amended C25 on a frame at `0x2000` whose saved frame pointer points to
itself, with `skip = 2` and `size = 3`: the walk ends after `2 + 3 = 5`
iterations. -/
theorem backtrace_iterations_bound_witness :
    backtrace exampleLoopMem 0x2000 0x2100 0x2000 0 3 2 =
      { i := 3, skip := -3, writes := [(0, 0xc1), (1, 0xc1), (2, 0xc1)],
        reads := [0x2000, 0x2000, 0x2000, 0x2000, 0x2000, 0x2008, 0x2000, 0x2000, 0x2008,
          0x2000, 0x2000, 0x2008, 0x2000],
        iterations := 5 } ∧
    (backtrace exampleLoopMem 0x2000 0x2100 0x2000 0 3 2).iterations ≤
      (2 : Int).toNat + (3 : Int).toNat :=
  ⟨by simp [backtrace, backtrace_loop, wrap_int32, exampleLoopMem],
    (backtrace_iterations_bound exampleLoopMem 0x2000 0x2100 0x2000 0 3 2 (by decide)
      (by decide) (by decide) (by decide)).2.1 (by decide)⟩

/-! ## What the walk reads and where it starts -/

/-- Every address the loop reads is a frame pointer `f` with
`base ≤ f ≤ limit`, or the word after such a frame pointer. -/
theorem backtrace_loop_reads (mem : Nat → Nat) (base limit : Nat) (size : Int) :
    ∀ (n fp : Nat) (st : walk),
      (size - (st.i : Int)).toNat * 2 ^ 31 + st.skip.toNat ≤ n →
      ∀ a ∈ (backtrace_loop mem base limit size fp st).reads,
        a ∈ st.reads ∨ ∃ f, base ≤ f ∧ f ≤ limit ∧ (a = f ∨ a = f + 8) := by
  intro n
  induction n with
  | zero =>
    intro fp st hm a ha
    have hsz : ¬ ((st.i : Int) < size) := by omega
    rw [backtrace_loop, dif_neg hsz] at ha
    exact Or.inl ha
  | succ n ih =>
    intro fp st hm a ha
    rw [backtrace_loop] at ha
    by_cases hsz : (st.i : Int) < size
    · rw [dif_pos hsz] at ha
      by_cases hout : fp > limit ∨ fp < base
      · rw [if_pos hout] at ha
        exact Or.inl ha
      · rw [if_neg hout] at ha
        have hin : base ≤ fp ∧ fp ≤ limit := by omega
        by_cases hz : mem fp = 0
        · rw [if_pos hz] at ha
          simp only [List.mem_append, List.mem_singleton] at ha
          rcases ha with h | h
          · exact Or.inl h
          · exact Or.inr ⟨fp, hin.1, hin.2, Or.inl h⟩
        · rw [if_neg hz] at ha
          by_cases hsk : st.skip ≤ 0
          · rw [dif_pos hsk] at ha
            rcases ih (mem fp) _ (by simp only [wrap_int32]; omega) a ha with h | h
            · simp only [List.mem_append, List.mem_cons, List.mem_singleton,
                List.not_mem_nil, or_false] at h
              rcases h with h | h | h | h
              · exact Or.inl h
              · exact Or.inr ⟨fp, hin.1, hin.2, Or.inl h⟩
              · exact Or.inr ⟨fp, hin.1, hin.2, Or.inr h⟩
              · exact Or.inr ⟨fp, hin.1, hin.2, Or.inl h⟩
            · exact Or.inr h
          · rw [dif_neg hsk] at ha
            rcases ih (mem fp) _ (by simp only [wrap_int32]; omega) a ha with h | h
            · simp only [List.mem_append, List.mem_cons, List.mem_singleton,
                List.not_mem_nil, or_false] at h
              rcases h with h | h | h
              · exact Or.inl h
              · exact Or.inr ⟨fp, hin.1, hin.2, Or.inl h⟩
              · exact Or.inr ⟨fp, hin.1, hin.2, Or.inl h⟩
            · exact Or.inr h
    · rw [dif_neg hsz] at ha
      exact Or.inl ha

/-- Every address `backtrace` reads is a frame pointer `f` with
`base ≤ f ≤ limit`, or the word after it: the reads stay below `limit + 16`,
not below `limit`. -/
theorem backtrace_reads (mem : Nat → Nat) (base limit fp pc : Nat) (size skip : Int) :
    ∀ a ∈ (backtrace mem base limit fp pc size skip).reads,
      ∃ f, base ≤ f ∧ f ≤ limit ∧ (a = f ∨ a = f + 8) := by
  intro a ha
  unfold backtrace at ha
  rcases backtrace_loop_reads mem base limit size _ fp _ (le_refl _) a ha with h | h
  · exfalso
    simp only at h
    split at h
    · split at h <;> simp at h
    · simp at h
  · exact h

/-- C26, the code at a frame pointer equal to `limit`: on the example stack
walked with `base = 0x1000` and `limit = 0x1010`, the second frame pointer is
`0x1010 = limit`; it passes the test `fp > limit`, and the saved frame pointer
is read at address `limit` and the saved return address at `limit + 8`, both
outside `[base, limit)`. -/
theorem backtrace_reads_at_limit :
    backtrace exampleMem 0x1000 0x1010 0x1000 0 8 0 =
      { i := 2, skip := -2, writes := [(0, 0xa1), (1, 0xa2)],
        reads := [0x1000, 0x1008, 0x1000, 0x1010, 0x1018, 0x1010], iterations := 2 } ∧
    0x1010 ∈ (backtrace exampleMem 0x1000 0x1010 0x1000 0 8 0).reads ∧
    0x1018 ∈ (backtrace exampleMem 0x1000 0x1010 0x1000 0 8 0).reads ∧
    ¬ (0x1010 + 8 < 0x1010) ∧
    ¬ (∀ a ∈ (backtrace exampleMem 0x1000 0x1010 0x1000 0 8 0).reads,
        0x1000 ≤ a ∧ a < 0x1010) := by
  have h : backtrace exampleMem 0x1000 0x1010 0x1000 0 8 0 =
      { i := 2, skip := -2, writes := [(0, 0xa1), (1, 0xa2)],
        reads := [0x1000, 0x1008, 0x1000, 0x1010, 0x1018, 0x1010], iterations := 2 } := by
    simp [backtrace, backtrace_loop, wrap_int32, exampleMem]
  refine ⟨h, ?_, ?_, by decide, ?_⟩
  · rw [h]
    decide
  · rw [h]
    decide
  · rw [h]
    decide

/-- For a `tcb` that is neither `NULL` nor the running task, `up_backtrace`
makes one call of `backtrace`, bounded by the stack of `tcb` and started from
`running_regs()[REG_X29]` and `running_regs()[REG_ELR]`. -/
theorem up_backtrace_other_task (env : Env) (tcb buffer : Nat) (size skip : Int)
    (hsize : 0 < size) (hbuf : buffer ≠ 0) (htcb : tcb ≠ 0)
    (hrun : tcb ≠ env.running_task) :
    (up_backtrace env tcb buffer size skip).calls =
      [{ base := (env.tcb tcb).stack_base_ptr
         limit := (env.tcb tcb).stack_base_ptr + (env.tcb tcb).adj_stack_size
         fp := env.running_regs_X29, pc := env.running_regs_ELR
         size := size, skip := skip }] := by
  have hguard : ¬ (size ≤ 0 ∨ buffer = 0) := by
    rintro (h | h)
    · omega
    · exact hbuf h
  have hself : ¬ (tcb = 0 ∨ tcb = env.running_task) := by
    rintro (h | h)
    · exact htcb h
    · exact hrun h
  unfold up_backtrace
  simp only [if_neg hguard, if_neg hself]

/-- C27, the code on a task that is not running: in the example environment
the task at `0x600` has the stack `[0x3000, 0x3100]` and the saved registers
`X29 = 0x3010`, `ELR = 0xb0`, while the running task has `X29 = 0x1000`,
`ELR = 0xa0`.  `up_backtrace` walks the stack of `0x600` from the running
task's `X29` and `ELR`: it returns the single address `0xa0`, and returns
`0xa7` instead when only the running task's `ELR` is changed to `0xa7`. -/
theorem up_backtrace_uses_running_regs :
    (exampleEnv.tcb 0x600).xcp_regs_X29 = 0x3010 ∧
    (exampleEnv.tcb 0x600).xcp_regs_ELR = 0xb0 ∧
    exampleEnv.running_task ≠ 0x600 ∧
    up_backtrace exampleEnv 0x600 0x9000 4 0 =
      { ret := 1, writes := [(0, 0xa0)],
        calls := [{ base := 0x3000, limit := 0x3100, fp := 0x1000, pc := 0xa0,
                    size := 4, skip := 0 }],
        reads := [] } ∧
    up_backtrace { exampleEnv with running_regs_ELR := 0xa7 } 0x600 0x9000 4 0 =
      { ret := 1, writes := [(0, 0xa7)],
        calls := [{ base := 0x3000, limit := 0x3100, fp := 0x1000, pc := 0xa7,
                    size := 4, skip := 0 }],
        reads := [] } := by
  refine ⟨by decide, by decide, by decide, ?_, ?_⟩
  · simp [up_backtrace, backtrace, backtrace_loop, wrap_int32, exampleEnv]
  · simp [up_backtrace, backtrace, backtrace_loop, wrap_int32, exampleEnv]

end Arm64Backtrace

namespace Stm32h5Adc

/-! ## `stm32h5_adc_initialize` -/

/-- For a channel count that is not negative, the selected driver state gets
its callback cleared, `min(cchannels, 20)` as channel count and the first
`min(cchannels, 20)` bytes of the list; nothing is overrun. -/
theorem configure_selected_of_nonneg (priv : stm32_dev_s) (chanlist : Nat → Nat)
    (cchannels : Int) (hc : 0 ≤ cchannels) :
    configure_selected priv chanlist cchannels =
      some
        { priv with
          cb := none
          cchannels := min cchannels.toNat ADC_MAX_SAMPLES
          chanlist := memcpy priv.chanlist chanlist (min cchannels.toNat ADC_MAX_SAMPLES) } := by
  unfold configure_selected
  have hmax : ADC_MAX_SAMPLES = 20 := rfl
  have hcl : (if cchannels > (ADC_MAX_SAMPLES : Int) then (ADC_MAX_SAMPLES : Int)
      else cchannels) = ((min cchannels.toNat ADC_MAX_SAMPLES : Nat) : Int) := by
    rw [hmax]
    split <;> omega
  have h32 : (((min cchannels.toNat ADC_MAX_SAMPLES : Nat) : Int) % 2 ^ 32).toNat =
      min cchannels.toNat ADC_MAX_SAMPLES := by
    rw [hmax]
    omega
  have h8 : (((min cchannels.toNat ADC_MAX_SAMPLES : Nat) : Int) % 2 ^ 8).toNat =
      min cchannels.toNat ADC_MAX_SAMPLES := by
    rw [hmax]
    omega
  have hle : ¬ (min cchannels.toNat ADC_MAX_SAMPLES > ADC_MAX_SAMPLES) := by
    rw [hmax]
    omega
  simp only [hcl, h32, h8, if_neg hle]

/-- The first `n` bytes after a `memcpy` of `n` bytes are those of the
source. -/
theorem memcpy_take (dst : List Nat) (src : Nat → Nat) (n : Nat) :
    (memcpy dst src n).take n = (List.range n).map src := by
  unfold memcpy
  rw [List.take_append_of_le_length (by simp)]
  exact List.take_of_length_le (by simp)

/-- C20 fails as stated: in a build with `CONFIG_PM`, when `pm_register`
returns an error (`-12` here), `stm32h5_adc_initialize(1, chanlist, 3)` returns
`NULL` although ADC1 is enabled, after it has configured the driver state. -/
theorem adc_initialize_null_for_enabled_block :
    ( stm32h5_adc_initialize
        { CONFIG_STM32H5_ADC1 := true, CONFIG_STM32H5_ADC2 := true, CONFIG_PM := true }
        (-12) initialGlobals 1 exampleChanlist 3) =
      some (adc_dev_ptr.NULL,
        { initialGlobals with
          g_adcpriv1 :=
            { initialGlobals.g_adcpriv1 with
              cchannels := 3, chanlist := [1, 2, 3] ++ List.replicate 17 0 } }) ∧
    ((1 : Int) = 1 ∧
      ({ CONFIG_STM32H5_ADC1 := true, CONFIG_STM32H5_ADC2 := true,
         CONFIG_PM := true } : Config).CONFIG_STM32H5_ADC1 = true) := by
  decide

/-- C20, amended: for every `cchannels ≥ 0`, `stm32h5_adc_initialize(intf,
chanlist, cchannels)` returns, and it returns `NULL` if and only if `intf` is
not the number of an enabled ADC block (1 or 2) or `CONFIG_PM` is defined and
`pm_register` fails.  When `intf` is not an enabled block nothing changes.
When it is, the driver state of that block has its callback cleared, its
channel count equal to `min(cchannels, 20)` and the first `min(cchannels, 20)`
bytes of its channel list equal to those of `chanlist` (the other block and the
other fields are untouched), and a pointer that is not `NULL` is the device of
that block. -/
theorem stm32h5_adc_initialize_spec (cfg : Config) (pm_register : Int) (g : Globals)
    (intf : Int) (chanlist : Nat → Nat) (cchannels : Int) (hc : 0 ≤ cchannels) :
    ∃ ptr g2,
      ( stm32h5_adc_initialize cfg pm_register g intf chanlist cchannels) =
        some (ptr, g2) ∧
      (ptr = adc_dev_ptr.NULL ↔
        (¬ ((intf = 1 ∧ cfg.CONFIG_STM32H5_ADC1 = true) ∨
            (intf = 2 ∧ cfg.CONFIG_STM32H5_ADC2 = true)) ∨
          (cfg.CONFIG_PM = true ∧ pm_register ≠ OK))) ∧
      (¬ ((intf = 1 ∧ cfg.CONFIG_STM32H5_ADC1 = true) ∨
          (intf = 2 ∧ cfg.CONFIG_STM32H5_ADC2 = true)) → g2 = g) ∧
      (intf = 1 ∧ cfg.CONFIG_STM32H5_ADC1 = true →
        (ptr = adc_dev_ptr.NULL ∨ ptr = adc_dev_ptr.g_adcdev1) ∧
        g2.g_adcpriv2 = g.g_adcpriv2 ∧
        g2.g_adcpriv1 =
          { g.g_adcpriv1 with
            cb := none
            cchannels := min cchannels.toNat ADC_MAX_SAMPLES
            chanlist :=
              memcpy g.g_adcpriv1.chanlist chanlist (min cchannels.toNat ADC_MAX_SAMPLES) } ∧
        g2.g_adcpriv1.chanlist.take (min cchannels.toNat ADC_MAX_SAMPLES) =
          (List.range (min cchannels.toNat ADC_MAX_SAMPLES)).map chanlist) ∧
      (intf = 2 ∧ cfg.CONFIG_STM32H5_ADC2 = true →
        (ptr = adc_dev_ptr.NULL ∨ ptr = adc_dev_ptr.g_adcdev2) ∧
        g2.g_adcpriv1 = g.g_adcpriv1 ∧
        g2.g_adcpriv2 =
          { g.g_adcpriv2 with
            cb := none
            cchannels := min cchannels.toNat ADC_MAX_SAMPLES
            chanlist :=
              memcpy g.g_adcpriv2.chanlist chanlist (min cchannels.toNat ADC_MAX_SAMPLES) } ∧
        g2.g_adcpriv2.chanlist.take (min cchannels.toNat ADC_MAX_SAMPLES) =
          (List.range (min cchannels.toNat ADC_MAX_SAMPLES)).map chanlist) := by
  unfold stm32h5_adc_initialize
  by_cases h1 : intf = 1 ∧ cfg.CONFIG_STM32H5_ADC1 = true
  · have hn2 : ¬ (intf = 2 ∧ cfg.CONFIG_STM32H5_ADC2 = true) := by
      rintro ⟨h, -⟩
      omega
    rw [if_pos h1, configure_selected_of_nonneg g.g_adcpriv1 chanlist cchannels hc]
    by_cases hpm : cfg.CONFIG_PM = true ∧ pm_register ≠ OK
    · simp only [if_pos hpm]
      refine ⟨_, _, rfl, ?_, ?_, ?_, ?_⟩
      · exact ⟨fun _ => Or.inr hpm, fun _ => rfl⟩
      · intro hnot
        exact absurd (Or.inl h1) hnot
      · intro _
        exact ⟨Or.inl rfl, rfl, rfl, memcpy_take _ _ _⟩
      · intro h2
        exact absurd h2 hn2
    · simp only [if_neg hpm]
      refine ⟨_, _, rfl, ?_, ?_, ?_, ?_⟩
      · constructor
        · intro h
          cases h
        · rintro (h | h)
          · exact absurd (Or.inl h1) h
          · exact absurd h hpm
      · intro hnot
        exact absurd (Or.inl h1) hnot
      · intro _
        exact ⟨Or.inr rfl, rfl, rfl, memcpy_take _ _ _⟩
      · intro h2
        exact absurd h2 hn2
  · rw [if_neg h1]
    by_cases h2 : intf = 2 ∧ cfg.CONFIG_STM32H5_ADC2 = true
    · rw [if_pos h2, configure_selected_of_nonneg g.g_adcpriv2 chanlist cchannels hc]
      by_cases hpm : cfg.CONFIG_PM = true ∧ pm_register ≠ OK
      · simp only [if_pos hpm]
        refine ⟨_, _, rfl, ?_, ?_, ?_, ?_⟩
        · exact ⟨fun _ => Or.inr hpm, fun _ => rfl⟩
        · intro hnot
          exact absurd (Or.inr h2) hnot
        · intro h
          exact absurd h h1
        · intro _
          exact ⟨Or.inl rfl, rfl, rfl, memcpy_take _ _ _⟩
      · simp only [if_neg hpm]
        refine ⟨_, _, rfl, ?_, ?_, ?_, ?_⟩
        · constructor
          · intro h
            cases h
          · rintro (h | h)
            · exact absurd (Or.inr h2) h
            · exact absurd h hpm
        · intro hnot
          exact absurd (Or.inr h2) hnot
        · intro h
          exact absurd h h1
        · intro _
          exact ⟨Or.inr rfl, rfl, rfl, memcpy_take _ _ _⟩
    · rw [if_neg h2]
      refine ⟨_, _, rfl, ?_, ?_, ?_, ?_⟩
      · constructor
        · intro _
          left
          rintro (h | h)
          · exact h1 h
          · exact h2 h
        · intro _
          rfl
      · intro _
        rfl
      · intro h
        exact absurd h h1
      · intro h
        exact absurd h h2

/-- The amended C20 on the static driver states, in a build with ADC1 only and
without `CONFIG_PM`: 25 channels are cut to 20 for block 1, and block 2 is
refused with `NULL`. -/
theorem stm32h5_adc_initialize_spec_witness :
    ( stm32h5_adc_initialize
        { CONFIG_STM32H5_ADC1 := true, CONFIG_STM32H5_ADC2 := false, CONFIG_PM := false }
        0 initialGlobals 1 exampleChanlist 25) =
      some (adc_dev_ptr.g_adcdev1,
        { initialGlobals with
          g_adcpriv1 :=
            { initialGlobals.g_adcpriv1 with
              cchannels := 20
              chanlist := [1, 2, 3, 4, 5, 6, 7, 8, 9, 10, 11, 12, 13, 14, 15, 16, 17,
                18, 19, 20] } }) ∧
    ( stm32h5_adc_initialize
        { CONFIG_STM32H5_ADC1 := true, CONFIG_STM32H5_ADC2 := false, CONFIG_PM := false }
        0 initialGlobals 2 exampleChanlist 25) =
      some (adc_dev_ptr.NULL, initialGlobals) ∧
    ∃ ptr g2,
      ( stm32h5_adc_initialize
          { CONFIG_STM32H5_ADC1 := true, CONFIG_STM32H5_ADC2 := false, CONFIG_PM := false }
          0 initialGlobals 1 exampleChanlist 25) = some (ptr, g2) ∧
      g2.g_adcpriv1.chanlist.take (min (25 : Int).toNat ADC_MAX_SAMPLES) =
        (List.range (min (25 : Int).toNat ADC_MAX_SAMPLES)).map exampleChanlist := by
  refine ⟨by decide, by decide, ?_⟩
  obtain ⟨ptr, g2, h, -, -, h1, -⟩ := stm32h5_adc_initialize_spec
    { CONFIG_STM32H5_ADC1 := true, CONFIG_STM32H5_ADC2 := false, CONFIG_PM := false }
    0 initialGlobals 1 exampleChanlist 25 (by decide)
  exact ⟨ptr, g2, h, (h1 ⟨rfl, rfl⟩).2.2.2⟩

/-! ## The analog watchdog thresholds in `adc_ioctl` -/

/-- The two threshold commands refuse a new threshold on the wrong side of the
other one with `-EINVAL` and leave the block as it was. -/
theorem adc_ioctl_wdog_rejects (hw : Hw) (st : adc_state) (arg : Nat) :
    (arg < tr1_lt1 hw (st.regs hw.STM32_ADC_TR1_OFFSET) →
      adc_ioctl hw st ioctl_cmd.ANIOC_WDOG_UPPER arg = (-(hw.EINVAL : Int), st)) ∧
    (arg > tr1_ht1 hw (st.regs hw.STM32_ADC_TR1_OFFSET) →
      adc_ioctl hw st ioctl_cmd.ANIOC_WDOG_LOWER arg = (-(hw.EINVAL : Int), st)) := by
  constructor
  · intro h
    unfold tr1_lt1 at h
    simp only [adc_ioctl, adc_getreg]
    rw [if_pos h]
  · intro h
    unfold tr1_ht1 at h
    simp only [adc_ioctl, adc_getreg]
    rw [if_pos h]

/-- An accepted threshold command writes the whole of TR1: the register then
holds the new threshold in its field and zero everywhere else.  (TR1 is taken
to be a register other than CFGR and IER.) -/
theorem adc_ioctl_wdog_overwrites (hw : Hw) (st : adc_state) (arg : Nat)
    (hcfgr : hw.STM32_ADC_TR1_OFFSET ≠ hw.STM32_ADC_CFGR_OFFSET)
    (hier : hw.STM32_ADC_TR1_OFFSET ≠ hw.STM32_ADC_IER_OFFSET) :
    (¬ (arg < tr1_lt1 hw (st.regs hw.STM32_ADC_TR1_OFFSET)) →
      (adc_ioctl hw st ioctl_cmd.ANIOC_WDOG_UPPER arg).1 = OK ∧
      (adc_ioctl hw st ioctl_cmd.ANIOC_WDOG_UPPER arg).2.regs hw.STM32_ADC_TR1_OFFSET =
        (((arg <<< hw.ADC_TR1_HT1_SHIFT) % 2 ^ 32) &&& hw.ADC_TR1_HT1_MASK) % 2 ^ 32) ∧
    (¬ (arg > tr1_ht1 hw (st.regs hw.STM32_ADC_TR1_OFFSET)) →
      (adc_ioctl hw st ioctl_cmd.ANIOC_WDOG_LOWER arg).1 = OK ∧
      (adc_ioctl hw st ioctl_cmd.ANIOC_WDOG_LOWER arg).2.regs hw.STM32_ADC_TR1_OFFSET =
        (((arg <<< hw.ADC_TR1_LT1_SHIFT) % 2 ^ 32) &&& hw.ADC_TR1_LT1_MASK) % 2 ^ 32) := by
  constructor
  · intro h
    unfold tr1_lt1 at h
    simp only [adc_ioctl, adc_getreg]
    rw [if_neg h]
    simp [adc_wdog_enable, adc_putreg, adc_getreg, hcfgr, hier]
  · intro h
    unfold tr1_ht1 at h
    simp only [adc_ioctl, adc_getreg]
    rw [if_neg h]
    simp [adc_wdog_enable, adc_putreg, adc_getreg, hcfgr, hier]

/-- C28, the code on ordered thresholds: TR1 holds `LT1 = 0x100 ≤ HT1 = 0x800`.
`ANIOC_WDOG_LOWER` with `arg = 0x200`, which is not above `HT1`, returns `OK`
and leaves TR1 `= 0x200`: the upper threshold is now 0, below the lower one.
`ANIOC_WDOG_UPPER` with `arg = 0x900` returns `OK` and leaves
TR1 `= 0x9000000`: the lower threshold is now 0, not `0x100`.  The refusals
work: `ANIOC_WDOG_UPPER` with `0x50` and `ANIOC_WDOG_LOWER` with `0x900` return
`-EINVAL` (`-22`) and TR1 keeps its value. -/
theorem adc_ioctl_wdog_clobbers_threshold :
    tr1_lt1 exampleHw (exampleAdcThresholds.regs 0x20) = 0x100 ∧
    tr1_ht1 exampleHw (exampleAdcThresholds.regs 0x20) = 0x800 ∧
    (adc_ioctl exampleHw exampleAdcThresholds ioctl_cmd.ANIOC_WDOG_LOWER 0x200).1 = OK ∧
    (adc_ioctl exampleHw exampleAdcThresholds ioctl_cmd.ANIOC_WDOG_LOWER 0x200).2.regs 0x20 =
      0x200 ∧
    tr1_lt1 exampleHw
      ((adc_ioctl exampleHw exampleAdcThresholds ioctl_cmd.ANIOC_WDOG_LOWER 0x200).2.regs
        0x20) = 0x200 ∧
    tr1_ht1 exampleHw
      ((adc_ioctl exampleHw exampleAdcThresholds ioctl_cmd.ANIOC_WDOG_LOWER 0x200).2.regs
        0x20) = 0 ∧
    (adc_ioctl exampleHw exampleAdcThresholds ioctl_cmd.ANIOC_WDOG_UPPER 0x900).1 = OK ∧
    (adc_ioctl exampleHw exampleAdcThresholds ioctl_cmd.ANIOC_WDOG_UPPER 0x900).2.regs 0x20 =
      0x9000000 ∧
    tr1_lt1 exampleHw
      ((adc_ioctl exampleHw exampleAdcThresholds ioctl_cmd.ANIOC_WDOG_UPPER 0x900).2.regs
        0x20) = 0 ∧
    (adc_ioctl exampleHw exampleAdcThresholds ioctl_cmd.ANIOC_WDOG_UPPER 0x50).1 = -22 ∧
    (adc_ioctl exampleHw exampleAdcThresholds ioctl_cmd.ANIOC_WDOG_UPPER 0x50).2.regs 0x20 =
      0x8000100 ∧
    (adc_ioctl exampleHw exampleAdcThresholds ioctl_cmd.ANIOC_WDOG_LOWER 0x900).1 = -22 ∧
    (adc_ioctl exampleHw exampleAdcThresholds ioctl_cmd.ANIOC_WDOG_LOWER 0x900).2.regs 0x20 =
      0x8000100 := by
  decide

/-! ## `adc_set_ch` -/

/-- With one channel in the sequence, the slots programmed from slot 1 on hold
`chanlist[0]` in the first slot and nothing else, whatever `current` is. -/
theorem adc_sqrbits_single (hw : Hw) (priv : stm32_dev_s) (last offset : Nat)
    (hn : priv.nchannels = 1) (hlast : 0 < last) :
    adc_sqrbits hw priv 1 last offset = (priv.chanlist.getD 0 0 <<< offset) % 2 ^ 32 := by
  unfold adc_sqrbits
  rw [adc_sqrbits_loop]
  have h0 : (1 - 1 < priv.nchannels ∧ 1 - 1 < last) := by
    rw [hn]
    exact ⟨Nat.one_pos, hlast⟩
  rw [if_pos h0, adc_sqrbits_loop]
  have h1 : ¬ (1 - 1 + 1 < priv.nchannels ∧ 1 - 1 + 1 < last) := by
    rw [hn]
    rintro ⟨h, -⟩
    exact absurd h (by decide)
  rw [if_neg h1]
  simp

/-- The case `ch ≥ 1` of `adc_set_ch`, which no caller in the file uses, on
the example block configured with the channels `[3, 5]`: `adc_set_ch(dev, 6)`
selects channel 5, returns `OK` and sets `nchannels = 1` and `current = 1`, and
programs SQR1 with `L = 0` and `SQ1 = 3`, the channel at index 0.
`adc_set_ch(dev, 4)` programs `SQ1 = 3` for channel 3, `adc_set_ch(dev, 0)`
programs `L = 1`, `SQ1 = 3`, `SQ2 = 5`, and `adc_set_ch(dev, 9)` returns
`-ENODEV` (`-19`). -/
theorem adc_set_ch_example :
    exampleAdc.priv.chanlist.getD 1 0 = 5 ∧
    (adc_set_ch exampleHw exampleAdc 6).1 = OK ∧
    (adc_set_ch exampleHw exampleAdc 6).2.priv.nchannels = 1 ∧
    (adc_set_ch exampleHw exampleAdc 6).2.priv.current = 1 ∧
    (adc_set_ch exampleHw exampleAdc 6).2.regs 0x30 = 0xc0 ∧
    (0xc0 >>> 6) &&& 0x1f = 3 ∧ 0xc0 &&& 0xf = 0 ∧
    (adc_set_ch exampleHw exampleAdc 4).2.priv.current = 0 ∧
    (adc_set_ch exampleHw exampleAdc 4).2.regs 0x30 = 0xc0 ∧
    (adc_set_ch exampleHw exampleAdc 0).2.priv.nchannels = 2 ∧
    (adc_set_ch exampleHw exampleAdc 0).2.regs 0x30 = 0x50c1 ∧
    ((0x50c1 >>> 6) &&& 0x1f = 3 ∧ (0x50c1 >>> 12) &&& 0x1f = 5 ∧ 0x50c1 &&& 0xf = 1) ∧
    (adc_set_ch exampleHw exampleAdc 9).1 = -19 := by
  refine ⟨by decide, ?_, ?_, ?_, ?_, by decide, by decide, ?_, ?_, ?_, ?_, by decide, ?_⟩ <;>
    simp [adc_set_ch, adc_set_ch_search, adc_set_ch_program, adc_sqrbits, adc_sqrbits_loop,
      adc_modifyreg, adc_putreg, adc_getreg, exampleAdc, exampleHw, initialGlobals, not32, OK]

/-- C29, the code on `ch = 0` with more configured channels than sequence
slots: `stm32h5_adc_initialize(1, chanlist, 17)` accepts the 17 channels
`1, ..., 17` (`ADC_MAX_SAMPLES` is 20).  `adc_set_ch(dev, 0)`, the call made by
`adc_setup`, returns `OK` with `nchannels = 17` and `current = 0`.  The slots
SQ1 to SQ16 of SQR1 to SQR4 get the channels 1 to 16 in list order, channel 17
gets no slot, and `nchannels - 1 = 16` does not fit the four bits of the
length field: SQR1 is `0x40c2050`, whose field `L` is 0, a sequence of one
conversion, with bit 4 set. -/
theorem adc_set_ch_seventeen_channels :
    ( stm32h5_adc_initialize
        { CONFIG_STM32H5_ADC1 := true, CONFIG_STM32H5_ADC2 := false, CONFIG_PM := false }
        0 initialGlobals 1 exampleChanlist 17) =
      some (adc_dev_ptr.g_adcdev1,
        { initialGlobals with g_adcpriv1 := exampleAdc17.priv }) ∧
    exampleAdc17.priv.chanlist.getD 16 0 = 17 ∧
    (adc_set_ch exampleHw exampleAdc17 0).1 = OK ∧
    (adc_set_ch exampleHw exampleAdc17 0).2.priv.nchannels = 17 ∧
    (adc_set_ch exampleHw exampleAdc17 0).2.priv.current = 0 ∧
    (adc_set_ch exampleHw exampleAdc17 0).2.regs 0x30 = 0x40c2050 ∧
    (adc_set_ch exampleHw exampleAdc17 0).2.regs 0x34 = 0x9207185 ∧
    (adc_set_ch exampleHw exampleAdc17 0).2.regs 0x38 = 0xe34c2ca ∧
    (adc_set_ch exampleHw exampleAdc17 0).2.regs 0x3c = 0x40f ∧
    (0x40c2050 &&& 0xf = 0 ∧ (0x40c2050 >>> 4) &&& 1 = 1) ∧
    ((0x40c2050 >>> 6) &&& 0x1f = 1 ∧ (0x40c2050 >>> 12) &&& 0x1f = 2 ∧
      (0x40c2050 >>> 18) &&& 0x1f = 3 ∧ (0x40c2050 >>> 24) &&& 0x1f = 4) ∧
    (0x40f &&& 0x1f = 15 ∧ (0x40f >>> 6) &&& 0x1f = 16 ∧ 0x40f >>> 11 = 0) := by
  refine ⟨by decide, by decide, ?_, ?_, ?_, ?_, ?_, ?_, ?_, by decide, by decide,
    by decide⟩ <;>
    simp [adc_set_ch, adc_set_ch_program, adc_sqrbits, adc_sqrbits_loop,
      adc_modifyreg, adc_putreg, adc_getreg, exampleAdc17, exampleHw, initialGlobals, not32,
      OK]

/-! ## The channel index under `adc_interrupt` -/

/-- The increment of `current` with wrap to the first channel is the successor
modulo `nchannels`. -/
theorem next_current (c n : Nat) (hc : c < n) (hn : n < 2 ^ 8) :
    (if (c + 1) % 2 ^ 8 ≥ n then 0 else (c + 1) % 2 ^ 8) = (c + 1) % n := by
  have h256 : (c + 1) % 2 ^ 8 = c + 1 := Nat.mod_eq_of_lt (by omega)
  rw [h256]
  by_cases h : c + 1 ≥ n
  · have he : c + 1 = n := by omega
    rw [if_pos h, he, Nat.mod_self]
  · rw [if_neg h, Nat.mod_eq_of_lt (by omega)]

/-- Advancing a reduced index: `((c + a) mod n + k) mod n = (c + (a + k)) mod n`. -/
theorem mod_add_mod_shift (c a k n : Nat) :
    ((c + a) % n + k) % n = (c + (a + k)) % n := by
  rw [Nat.add_mod, Nat.mod_mod, ← Nat.add_mod, Nat.add_assoc]

/-- The channels received in two runs of callbacks, one after the other. -/
theorem received_channels_append (a b : List Callback) :
    received_channels (a ++ b) = received_channels a ++ received_channels b := by
  induction a with
  | nil => rfl
  | cons x xs ihx =>
    cases x with
    | au_receive ch data =>
      show ch :: received_channels (xs ++ b) = ch :: received_channels xs ++ received_channels b
      rw [ihx]
      rfl
    | au_reset =>
      show received_channels (xs ++ b) = received_channels xs ++ received_channels b
      exact ihx

/-- What the `do ... while` loop does with a list of samples: `current`
advances by their number modulo `nchannels`, nothing else changes, and the
`k`-th sample is passed on with the channel `chanlist[(current + k) mod
nchannels]` when a callback is bound. -/
theorem adc_eoc_samples_spec (hw : Hw) :
    ∀ (drs : List Nat) (priv : stm32_dev_s),
      priv.current < priv.nchannels → priv.nchannels < 2 ^ 8 →
      (adc_eoc_samples hw priv drs).1 =
          { priv with current := (priv.current + drs.length) % priv.nchannels } ∧
        received_channels (adc_eoc_samples hw priv drs).2 =
          if priv.cb ≠ none then
            (List.range drs.length).map
              (fun k => priv.chanlist.getD ((priv.current + k) % priv.nchannels) 0)
          else [] := by
  intro drs
  induction drs with
  | nil =>
    intro priv hc _
    simp only [adc_eoc_samples, received_channels, List.length_nil, Nat.add_zero,
      Nat.mod_eq_of_lt hc, List.range_zero, List.map_nil, ite_self, and_true]
  | cons dr more ih =>
    intro priv hc hn
    have hnext := next_current priv.current priv.nchannels hc hn
    have hlt : (priv.current + 1) % priv.nchannels < priv.nchannels :=
      Nat.mod_lt _ (by omega)
    obtain ⟨ih1, ih2⟩ := ih
      { priv with current := (priv.current + 1) % priv.nchannels } hlt hn
    simp only [adc_eoc_samples, hnext]
    constructor
    · rw [ih1]
      simp only [List.length_cons, mod_add_mod_shift]
      rw [Nat.add_comm 1 more.length]
    · rw [received_channels_append, ih2]
      by_cases hcb : priv.cb ≠ none
      · rw [if_pos hcb, if_pos hcb, if_pos hcb]
        simp only [List.length_cons, List.range_succ_eq_map, List.map_cons, List.map_map,
          Nat.add_zero, Nat.mod_eq_of_lt hc, received_channels, List.singleton_append,
          mod_add_mod_shift]
        congr 1
        apply List.map_congr_left
        intro k _
        simp only [Function.comp, Nat.succ_eq_add_one, Nat.add_comm 1 k]
      · rw [if_neg hcb, if_neg hcb, if_neg hcb]
        rfl

/-- The driver state after `adc_interrupt`: only the end-of-conversion branch
touches it, only that branch calls `au_receive`, and the handler returns OK. -/
theorem adc_interrupt_priv (hw : Hw) (st : adc_state) (adcisr : Nat) (input : irq_input) :
    (adc_interrupt hw st adcisr input).2.1.priv =
        (if adcisr &&& hw.ADC_INT_EOC ≠ 0 then
          (adc_eoc_samples hw st.priv (input.dr_first :: input.dr_more)).1
        else st.priv) ∧
      received_channels (adc_interrupt hw st adcisr input).2.2 =
        (if adcisr &&& hw.ADC_INT_EOC ≠ 0 then
          received_channels
            (adc_eoc_samples hw st.priv (input.dr_first :: input.dr_more)).2
        else []) ∧
      (adc_interrupt hw st adcisr input).1 = OK := by
  have hput : ∀ (s : adc_state) (o v : Nat), (adc_putreg s o v).priv = s.priv :=
    fun _ _ _ => rfl
  have hstart : ∀ (s : adc_state) (b : Bool), (adc_startconv hw s b).priv = s.priv := by
    intro s b
    unfold adc_startconv
    split <;> rfl
  unfold adc_interrupt
  by_cases hawd : adcisr &&& hw.ADC_INT_AWD1 ≠ 0 <;>
    by_cases hovr : adcisr &&& hw.ADC_INT_OVR ≠ 0 <;>
    by_cases heoc : adcisr &&& hw.ADC_INT_EOC ≠ 0 <;>
    simp only [if_pos hawd, if_neg hawd, if_pos hovr, if_neg hovr, if_pos heoc, if_neg heoc,
      hput, hstart, received_channels_append, and_true, true_and] <;>
    (try split) <;>
    simp [received_channels]

/-- A sequence of interrupts on a state with `current < nchannels`: `current`
advances by the number of samples modulo `nchannels`, and the channels passed
to `au_receive` go round the list from `current` on. -/
theorem run_interrupts_spec (hw : Hw) :
    ∀ (irqs : List (Nat × irq_input)) (st : adc_state),
      st.priv.current < st.priv.nchannels → st.priv.nchannels < 2 ^ 8 →
      (run_interrupts hw st irqs).1.priv =
          { st.priv with
            current := (st.priv.current + eoc_samples hw irqs) % st.priv.nchannels } ∧
        received_channels (run_interrupts hw st irqs).2 =
          if st.priv.cb ≠ none then
            (List.range (eoc_samples hw irqs)).map
              (fun k => st.priv.chanlist.getD ((st.priv.current + k) % st.priv.nchannels) 0)
          else [] := by
  intro irqs
  induction irqs with
  | nil =>
    intro st hc _
    simp only [run_interrupts, eoc_samples, Nat.add_zero, Nat.mod_eq_of_lt hc,
      received_channels, List.range_zero, List.map_nil, ite_self, and_true]
  | cons irq irqs ih =>
    intro st hc hn
    obtain ⟨p1, p2, -⟩ := adc_interrupt_priv hw st irq.1 irq.2
    obtain ⟨e1, e2⟩ := adc_eoc_samples_spec hw (irq.2.dr_first :: irq.2.dr_more) st.priv hc hn
    have hnpos : 0 < st.priv.nchannels := by omega
    by_cases heoc : irq.1 &&& hw.ADC_INT_EOC ≠ 0
    · rw [if_pos heoc, e1] at p1
      rw [if_pos heoc, e2] at p2
      have hc2 : (adc_interrupt hw st irq.1 irq.2).2.1.priv.current <
          (adc_interrupt hw st irq.1 irq.2).2.1.priv.nchannels := by
        rw [p1]
        exact Nat.mod_lt _ hnpos
      have hn2 : (adc_interrupt hw st irq.1 irq.2).2.1.priv.nchannels < 2 ^ 8 := by
        rw [p1]
        exact hn
      obtain ⟨i1, i2⟩ := ih (adc_interrupt hw st irq.1 irq.2).2.1 hc2 hn2
      simp only [run_interrupts, eoc_samples, if_pos heoc, received_channels_append]
      rw [i1, i2, p1, p2]
      simp only [List.length_cons, mod_add_mod_shift]
      have hsum : 1 + irq.2.dr_more.length + eoc_samples hw irqs =
          (irq.2.dr_more.length + 1) + eoc_samples hw irqs := by omega
      constructor
      · rw [hsum]
      · by_cases hcb : st.priv.cb ≠ none
        · rw [if_pos hcb, if_pos hcb, if_pos hcb]
          rw [hsum, List.range_add (irq.2.dr_more.length + 1) (eoc_samples hw irqs),
            List.map_append, List.map_map]
          rfl
        · rw [if_neg hcb, if_neg hcb, if_neg hcb]
          rfl
    · rw [if_neg heoc] at p1 p2
      have hc2 : (adc_interrupt hw st irq.1 irq.2).2.1.priv.current <
          (adc_interrupt hw st irq.1 irq.2).2.1.priv.nchannels := by
        rw [p1]
        exact hc
      have hn2 : (adc_interrupt hw st irq.1 irq.2).2.1.priv.nchannels < 2 ^ 8 := by
        rw [p1]
        exact hn
      obtain ⟨i1, i2⟩ := ih (adc_interrupt hw st irq.1 irq.2).2.1 hc2 hn2
      simp only [run_interrupts, eoc_samples, if_neg heoc, received_channels_append,
        Nat.zero_add]
      rw [i1, i2, p1, p2]
      exact ⟨rfl, rfl⟩

/-- The bytes copied by `memcpy` are read back from the destination. -/
theorem memcpy_getD (dst : List Nat) (src : Nat → Nat) (n i : Nat) (hi : i < n) :
    (memcpy dst src n).getD i 0 = src i := by
  unfold memcpy
  rw [List.getD_eq_getElem?_getD, List.getElem?_append_left (by simpa using hi)]
  simp [hi]

/-- A `memcpy` of at most the size of the destination keeps its size. -/
theorem memcpy_length (dst : List Nat) (src : Nat → Nat) (n : Nat) (hn : n ≤ dst.length) :
    (memcpy dst src n).length = dst.length := by
  unfold memcpy
  simp only [List.length_append, List.length_map, List.length_range, List.length_drop]
  omega

/-- The sequence registers are the only thing `adc_set_ch(dev, 0)` writes
besides `current` and `nchannels`. -/
theorem adc_set_ch_zero_priv (hw : Hw) (st : adc_state) :
    (adc_set_ch hw st 0).1 = OK ∧
      (adc_set_ch hw st 0).2.priv =
        { st.priv with current := 0, nchannels := st.priv.cchannels } :=
  ⟨rfl, rfl⟩

/-- The calls of `au_receive` in two runs of callbacks, one after the other. -/
theorem received_samples_append (a b : List Callback) :
    received_samples (a ++ b) = received_samples a ++ received_samples b := by
  induction a with
  | nil => rfl
  | cons x xs ihx =>
    cases x with
    | au_receive ch data =>
      show (ch, data) :: received_samples (xs ++ b) =
        (ch, data) :: received_samples xs ++ received_samples b
      rw [ihx]
      rfl
    | au_reset =>
      show received_samples (xs ++ b) = received_samples xs ++ received_samples b
      exact ihx

/-- The number of values read from DR is the number of samples. -/
theorem eoc_values_length (hw : Hw) (irqs : List (Nat × irq_input)) :
    (eoc_values hw irqs).length = eoc_samples hw irqs := by
  induction irqs with
  | nil => rfl
  | cons irq irqs ih =>
    simp only [eoc_values, eoc_samples, List.length_append, ih]
    split
    · simp only [List.length_cons]
      omega
    · rfl

/-- What the `do ... while` loop passes to `au_receive`: when `current` is
`j mod nchannels`, the sample number `j + k` of the loop goes out with the
channel `chanlist[(j + k) mod nchannels]` and the value read from DR, masked
with `ADC_DR_MASK`. -/
theorem adc_eoc_samples_data (hw : Hw) :
    ∀ (drs : List Nat) (priv : stm32_dev_s) (j : Nat),
      priv.current = j % priv.nchannels → 0 < priv.nchannels → priv.nchannels < 2 ^ 8 →
      received_samples (adc_eoc_samples hw priv drs).2 =
        if priv.cb ≠ none then
          (List.enumFrom j drs).map
            (fun p => (priv.chanlist.getD (p.1 % priv.nchannels) 0,
              (p.2 % 2 ^ 32) &&& hw.ADC_DR_MASK))
        else [] := by
  intro drs
  induction drs with
  | nil =>
    intro priv j _ _ _
    simp only [adc_eoc_samples, received_samples, List.enumFrom_nil, List.map_nil, ite_self]
  | cons dr more ih =>
    intro priv j hcur hpos hn
    have hc : priv.current < priv.nchannels := by
      rw [hcur]
      exact Nat.mod_lt _ hpos
    have hnext := next_current priv.current priv.nchannels hc hn
    have hcur2 : (priv.current + 1) % priv.nchannels = (j + 1) % priv.nchannels := by
      rw [hcur, Nat.mod_add_mod]
    have ih2 := ih { priv with current := (priv.current + 1) % priv.nchannels } (j + 1)
      hcur2 hpos hn
    simp only [adc_eoc_samples, hnext]
    rw [received_samples_append, ih2]
    by_cases hcb : priv.cb ≠ none
    · rw [if_pos hcb, if_pos hcb, if_pos hcb]
      simp only [List.enumFrom_cons, List.map_cons, received_samples, List.singleton_append,
        hcur]
    · rw [if_neg hcb, if_neg hcb, if_neg hcb]
      rfl

/-- The calls of `au_receive` made by `adc_interrupt` are those of its
end-of-conversion branch. -/
theorem adc_interrupt_data (hw : Hw) (st : adc_state) (adcisr : Nat) (input : irq_input) :
    received_samples (adc_interrupt hw st adcisr input).2.2 =
      (if adcisr &&& hw.ADC_INT_EOC ≠ 0 then
        received_samples
          (adc_eoc_samples hw st.priv (input.dr_first :: input.dr_more)).2
      else []) := by
  have hput : ∀ (s : adc_state) (o v : Nat), (adc_putreg s o v).priv = s.priv :=
    fun _ _ _ => rfl
  have hstart : ∀ (s : adc_state) (b : Bool), (adc_startconv hw s b).priv = s.priv := by
    intro s b
    unfold adc_startconv
    split <;> rfl
  unfold adc_interrupt
  by_cases hawd : adcisr &&& hw.ADC_INT_AWD1 ≠ 0 <;>
    by_cases hovr : adcisr &&& hw.ADC_INT_OVR ≠ 0 <;>
    by_cases heoc : adcisr &&& hw.ADC_INT_EOC ≠ 0 <;>
    simp only [if_pos hawd, if_neg hawd, if_pos hovr, if_neg hovr, if_pos heoc, if_neg heoc,
      hput, hstart, received_samples_append] <;>
    (try split) <;>
    simp [received_samples]

/-- The calls of `au_receive` made by a sequence of interrupts on a state
whose `current` is `j mod nchannels`: the values read from DR, in order, each
with the channel of its number modulo `nchannels`. -/
theorem run_interrupts_data (hw : Hw) :
    ∀ (irqs : List (Nat × irq_input)) (st : adc_state) (j : Nat),
      st.priv.current = j % st.priv.nchannels → 0 < st.priv.nchannels →
      st.priv.nchannels < 2 ^ 8 →
      received_samples (run_interrupts hw st irqs).2 =
        if st.priv.cb ≠ none then
          (List.enumFrom j (eoc_values hw irqs)).map
            (fun p => (st.priv.chanlist.getD (p.1 % st.priv.nchannels) 0,
              (p.2 % 2 ^ 32) &&& hw.ADC_DR_MASK))
        else [] := by
  intro irqs
  induction irqs with
  | nil =>
    intro st j _ _ _
    simp only [run_interrupts, eoc_values, received_samples, List.enumFrom_nil,
      List.map_nil, ite_self]
  | cons irq irqs ih =>
    intro st j hcur hpos hn
    have hc : st.priv.current < st.priv.nchannels := by
      rw [hcur]
      exact Nat.mod_lt _ hpos
    obtain ⟨p1, -, -⟩ := adc_interrupt_priv hw st irq.1 irq.2
    have p2 := adc_interrupt_data hw st irq.1 irq.2
    obtain ⟨e1, -⟩ := adc_eoc_samples_spec hw (irq.2.dr_first :: irq.2.dr_more) st.priv hc hn
    have e2 := adc_eoc_samples_data hw (irq.2.dr_first :: irq.2.dr_more) st.priv j
      hcur hpos hn
    by_cases heoc : irq.1 &&& hw.ADC_INT_EOC ≠ 0
    · rw [if_pos heoc, e1] at p1
      rw [if_pos heoc, e2] at p2
      have hcur2 : (adc_interrupt hw st irq.1 irq.2).2.1.priv.current =
          (j + (irq.2.dr_first :: irq.2.dr_more).length) %
            (adc_interrupt hw st irq.1 irq.2).2.1.priv.nchannels := by
        rw [p1]
        show (st.priv.current + _) % st.priv.nchannels = _
        rw [hcur, Nat.mod_add_mod]
      have hpos2 : 0 < (adc_interrupt hw st irq.1 irq.2).2.1.priv.nchannels := by
        rw [p1]
        exact hpos
      have hn2 : (adc_interrupt hw st irq.1 irq.2).2.1.priv.nchannels < 2 ^ 8 := by
        rw [p1]
        exact hn
      have i2 := ih (adc_interrupt hw st irq.1 irq.2).2.1
        (j + (irq.2.dr_first :: irq.2.dr_more).length) hcur2 hpos2 hn2
      simp only [run_interrupts, eoc_values, if_pos heoc, received_samples_append]
      rw [i2, p1, p2]
      by_cases hcb : st.priv.cb ≠ none
      · rw [if_pos hcb, if_pos hcb, if_pos hcb, List.enumFrom_append, List.map_append]
      · rw [if_neg hcb, if_neg hcb, if_neg hcb]
        rfl
    · rw [if_neg heoc] at p1 p2
      have hcur2 : (adc_interrupt hw st irq.1 irq.2).2.1.priv.current =
          j % (adc_interrupt hw st irq.1 irq.2).2.1.priv.nchannels := by
        rw [p1]
        exact hcur
      have hpos2 : 0 < (adc_interrupt hw st irq.1 irq.2).2.1.priv.nchannels := by
        rw [p1]
        exact hpos
      have hn2 : (adc_interrupt hw st irq.1 irq.2).2.1.priv.nchannels < 2 ^ 8 := by
        rw [p1]
        exact hn
      have i2 := ih (adc_interrupt hw st irq.1 irq.2).2.1 j hcur2 hpos2 hn2
      simp only [run_interrupts, eoc_values, if_neg heoc, received_samples_append,
        List.nil_append]
      rw [i2, p1, p2]
      rfl

/-- C30: channel-index invariant of the ADC driver.  A driver state configured
by `stm32h5_adc_initialize` with `1 ≤ cchannels ≤ 20` holds `cchannels` and
the first `cchannels` bytes of the list.  After `adc_bind`, `adc_set_ch(dev,
0)` (which returns OK) and any sequence of calls of `adc_interrupt`, `current
< nchannels ≤ cchannels` holds with `nchannels = cchannels`, `current` is the
number of samples processed modulo `nchannels`, and `chanlist[current]` is
inside the array and is the configured channel of that index.  The `k`-th
value read from DR (`k = 0, 1, ...`) has been passed to `au_receive`, masked
with `ADC_DR_MASK`, together with the channel `chanlist[k mod nchannels]`, in
this order and with no other call of `au_receive`; the calls are made when a
callback structure is bound (`priv->cb != NULL`), with no callback bound the
samples are dropped and the index advances all the same. -/
theorem adc_channel_index_invariant (hw : Hw) (priv0 : stm32_dev_s) (chanlist : Nat → Nat)
    (cchannels : Int) (callback : Option Nat) (regs : Nat → Nat)
    (irqs : List (Nat × irq_input))
    (hlen : priv0.chanlist.length = ADC_MAX_SAMPLES)
    (h1 : 1 ≤ cchannels) (h20 : cchannels ≤ (ADC_MAX_SAMPLES : Int)) :
    ∃ priv : stm32_dev_s,
      configure_selected priv0 chanlist cchannels = some priv ∧
      (priv.cchannels : Int) = cchannels ∧
      (∀ i, i < priv.cchannels → priv.chanlist.getD i 0 = chanlist i) ∧
      (adc_set_ch hw (adc_bind ⟨priv, regs⟩ callback).2 0).1 = OK ∧
      (run_interrupts hw (adc_set_ch hw (adc_bind ⟨priv, regs⟩ callback).2 0).2
          irqs).1.priv.current <
        (run_interrupts hw (adc_set_ch hw (adc_bind ⟨priv, regs⟩ callback).2 0).2
          irqs).1.priv.nchannels ∧
      (run_interrupts hw (adc_set_ch hw (adc_bind ⟨priv, regs⟩ callback).2 0).2
          irqs).1.priv.nchannels ≤
        (run_interrupts hw (adc_set_ch hw (adc_bind ⟨priv, regs⟩ callback).2 0).2
          irqs).1.priv.cchannels ∧
      (run_interrupts hw (adc_set_ch hw (adc_bind ⟨priv, regs⟩ callback).2 0).2
          irqs).1.priv =
        { priv with
          cb := callback
          nchannels := priv.cchannels
          current := (eoc_values hw irqs).length % priv.cchannels } ∧
      (run_interrupts hw (adc_set_ch hw (adc_bind ⟨priv, regs⟩ callback).2 0).2
          irqs).1.priv.current < priv.chanlist.length ∧
      received_samples
          (run_interrupts hw (adc_set_ch hw (adc_bind ⟨priv, regs⟩ callback).2 0).2
            irqs).2 =
        if callback ≠ none then
          (eoc_values hw irqs).enum.map
            (fun p => (priv.chanlist.getD (p.1 % priv.cchannels) 0,
              (p.2 % 2 ^ 32) &&& hw.ADC_DR_MASK))
        else [] := by
  have hmax : ADC_MAX_SAMPLES = 20 := rfl
  rw [hmax] at h20 hlen
  obtain ⟨n, rfl⟩ : ∃ n : Nat, cchannels = (n : Int) := ⟨cchannels.toNat, by omega⟩
  have hn1 : 1 ≤ n := by omega
  have hn20 : n ≤ 20 := by omega
  have hmin : min (n : Int).toNat ADC_MAX_SAMPLES = n := by
    rw [hmax, Int.toNat_ofNat]
    omega
  have hcfg := configure_selected_of_nonneg priv0 chanlist (n : Int) (by omega)
  rw [hmin] at hcfg
  refine ⟨_, hcfg, rfl, ?_, rfl, ?_⟩
  · intro i hi
    exact memcpy_getD priv0.chanlist chanlist n i hi
  · obtain ⟨r1, -⟩ := run_interrupts_spec hw irqs
      (adc_set_ch hw (adc_bind
        ⟨{ priv0 with cb := none, cchannels := n, chanlist := memcpy priv0.chanlist chanlist n },
          regs⟩ callback).2 0).2
      (show 0 < n by omega) (show n < 2 ^ 8 by omega)
    have r2 := run_interrupts_data hw irqs
      (adc_set_ch hw (adc_bind
        ⟨{ priv0 with cb := none, cchannels := n, chanlist := memcpy priv0.chanlist chanlist n },
          regs⟩ callback).2 0).2 0
      (show 0 = 0 % n from (Nat.zero_mod n).symm) (show 0 < n by omega)
      (show n < 2 ^ 8 by omega)
    have hr1 : (run_interrupts hw (adc_set_ch hw (adc_bind
        ⟨{ priv0 with cb := none, cchannels := n, chanlist := memcpy priv0.chanlist chanlist n },
          regs⟩ callback).2 0).2 irqs).1.priv =
        { priv0 with
          cb := callback
          cchannels := n
          chanlist := memcpy priv0.chanlist chanlist n
          nchannels := n
          current := (eoc_values hw irqs).length % n } := by
      rw [r1, eoc_values_length]
      show _ = _
      simp only [adc_set_ch_zero_priv, adc_bind, Nat.zero_add]
    have hmod : (eoc_values hw irqs).length % n < n := Nat.mod_lt _ (by omega)
    have hl : (memcpy priv0.chanlist chanlist n).length = 20 := by
      rw [memcpy_length _ _ _ (by omega), hlen]
    refine ⟨?_, ?_, hr1, ?_, ?_⟩
    · rw [hr1]
      exact hmod
    · rw [hr1]
    · rw [hr1]
      show (eoc_values hw irqs).length % n < (memcpy priv0.chanlist chanlist n).length
      omega
    · rw [r2]
      rfl

/-- C30 on ADC1 configured with the three channels 1, 2, 3 and a bound
callback, after three interrupts that carry four samples: the samples
`0x111, 0x222, 0x333, 0x444` are passed on with the channels 1, 2, 3, 1, the
overrun is reported in between, and `current` is `4 mod 3 = 1`. -/
theorem adc_channel_index_invariant_witness :
    initialGlobals.g_adcpriv1.chanlist.length = ADC_MAX_SAMPLES ∧
    (1 : Int) ≤ 3 ∧ (3 : Int) ≤ (ADC_MAX_SAMPLES : Int) ∧
    eoc_values exampleHw exampleIrqs = [0x111, 0x222, 0x333, 0x444] ∧
    ∃ priv : stm32_dev_s,
      configure_selected initialGlobals.g_adcpriv1 exampleChanlist 3 = some priv ∧
      (priv.cchannels : Int) = 3 ∧
      (∀ i, i < priv.cchannels → priv.chanlist.getD i 0 = exampleChanlist i) ∧
      (adc_set_ch exampleHw (adc_bind ⟨priv, fun _ => 0⟩ (some 0x2000)).2 0).1 = OK ∧
      (run_interrupts exampleHw
          (adc_set_ch exampleHw (adc_bind ⟨priv, fun _ => 0⟩ (some 0x2000)).2 0).2
          exampleIrqs).1.priv.current <
        (run_interrupts exampleHw
          (adc_set_ch exampleHw (adc_bind ⟨priv, fun _ => 0⟩ (some 0x2000)).2 0).2
          exampleIrqs).1.priv.nchannels ∧
      (run_interrupts exampleHw
          (adc_set_ch exampleHw (adc_bind ⟨priv, fun _ => 0⟩ (some 0x2000)).2 0).2
          exampleIrqs).1.priv.nchannels ≤
        (run_interrupts exampleHw
          (adc_set_ch exampleHw (adc_bind ⟨priv, fun _ => 0⟩ (some 0x2000)).2 0).2
          exampleIrqs).1.priv.cchannels ∧
      (run_interrupts exampleHw
          (adc_set_ch exampleHw (adc_bind ⟨priv, fun _ => 0⟩ (some 0x2000)).2 0).2
          exampleIrqs).1.priv =
        { priv with
          cb := some 0x2000
          nchannels := priv.cchannels
          current := (eoc_values exampleHw exampleIrqs).length % priv.cchannels } ∧
      (run_interrupts exampleHw
          (adc_set_ch exampleHw (adc_bind ⟨priv, fun _ => 0⟩ (some 0x2000)).2 0).2
          exampleIrqs).1.priv.current < priv.chanlist.length ∧
      received_samples
          (run_interrupts exampleHw
            (adc_set_ch exampleHw (adc_bind ⟨priv, fun _ => 0⟩ (some 0x2000)).2 0).2
            exampleIrqs).2 =
        if (some 0x2000 : Option Nat) ≠ none then
          (eoc_values exampleHw exampleIrqs).enum.map
            (fun p => (priv.chanlist.getD (p.1 % priv.cchannels) 0,
              (p.2 % 2 ^ 32) &&& exampleHw.ADC_DR_MASK))
        else [] :=
  ⟨by decide, by decide, by decide, by decide,
    adc_channel_index_invariant exampleHw initialGlobals.g_adcpriv1 exampleChanlist 3
      (some 0x2000) (fun _ => 0) exampleIrqs (by decide) (by decide) (by decide)⟩

/-- The run of C30 evaluated: the callbacks made by the three interrupts on
ADC1 with the channels 1, 2, 3, and the driver state afterwards. -/
theorem run_interrupts_example :
    (run_interrupts exampleHw
        (adc_set_ch exampleHw
          (adc_bind
            ⟨{ initialGlobals.g_adcpriv1 with
                cchannels := 3, chanlist := [1, 2, 3] ++ List.replicate 17 0 },
              fun _ => 0⟩
            (some 0x2000)).2 0).2
        exampleIrqs).2 =
      [Callback.au_receive 1 0x111, Callback.au_receive 2 0x222, Callback.au_reset,
        Callback.au_receive 3 0x333, Callback.au_receive 1 0x444] ∧
    received_samples
      (run_interrupts exampleHw
        (adc_set_ch exampleHw
          (adc_bind
            ⟨{ initialGlobals.g_adcpriv1 with
                cchannels := 3, chanlist := [1, 2, 3] ++ List.replicate 17 0 },
              fun _ => 0⟩
            (some 0x2000)).2 0).2
        exampleIrqs).2 = [(1, 0x111), (2, 0x222), (3, 0x333), (1, 0x444)] ∧
    (run_interrupts exampleHw
        (adc_set_ch exampleHw
          (adc_bind
            ⟨{ initialGlobals.g_adcpriv1 with
                cchannels := 3, chanlist := [1, 2, 3] ++ List.replicate 17 0 },
              fun _ => 0⟩
            (some 0x2000)).2 0).2
        exampleIrqs).1.priv =
      { initialGlobals.g_adcpriv1 with
        cb := some 0x2000, cchannels := 3, nchannels := 3, current := 1,
        chanlist := [1, 2, 3] ++ List.replicate 17 0 } := by
  refine ⟨by decide, by decide, by decide⟩

end Stm32h5Adc
